import Mathlib

/-!
# PurC execution core: variants, move heap, message queue, variable manager, elements, timers, instances

A shallow embedding of parts of the PurC HVML interpreter
(`Source/PurC/variant/move-heap.c`, `Source/PurC/interpreter/msg-queue.c`,
`Source/PurC/interpreter/var-mgr.c`, `Source/PurC/interpreter/elements/iterate.c`,
`Source/PurC/interpreter/elements/sort.c`, `Source/PurC/interpreter/elements/erase.c`,
`Source/PurC/interpreter/timer.cpp`, `Source/PurC/interpreter/body.c`,
`Source/PurC/interpreter/undefined.c`, `Source/PurC/instance/instance.c`) together with
theorems about them.

Conventions of the embedding:

* a C pointer to a variant is the variant node itself, carrying its address
  (`addr`), so that pointer comparisons are comparisons of handles; a cell
  that is held in several places is a node at each of them, and a change of
  the cell in place changes every one of these nodes;
* the `size_t` counters of the heap statistics are natural numbers reduced
  modulo `2^64`, the `unsigned int` reference counts of the singletons are
  reduced modulo `2^32`;
* allocation always succeeds (the out-of-memory paths of the source return
  early and are outside the properties stated here);
* locks are not represented: every function is one atomic step;
* a failed `PC_ASSERT` stops the process: a function that can reach one
  returns an `Option`, and `none` is the stop.
-/

namespace PurC

/-! ## Machine integers -/

/-- Addition of two `size_t` values. -/
def size_add (a b : Nat) : Nat := (a + b) % 18446744073709551616

/-- Subtraction of two `size_t` values (wraps below zero). -/
def size_sub (a b : Nat) : Nat :=
  (a + (18446744073709551616 - b % 18446744073709551616)) % 18446744073709551616

/-- The increment `refc++` of an `unsigned int` reference count. -/
def refc_inc (r : Nat) : Nat := (r + 1) % 4294967296

/-- The decrement `refc--` of an `unsigned int` reference count. -/
def refc_dec (r : Nat) : Nat := (r + 4294967295) % 4294967296

/-! ## Variants -/

/-- Modelled from the spec: the type tags of a variant (section 3, "Variant";
the enum `purc_variant_type` is declared outside the given sources).  The
tuple of the spec has no case in `move-heap.c` and is left out. -/
inductive purc_variant_type where
  | UNDEFINED | NULL | BOOLEAN | NUMBER | LONGINT | ULONGINT | LONGDOUBLE
  | STRING | BSEQUENCE | DYNAMIC | NATIVE | OBJECT | ARRAY | SET
deriving DecidableEq, Repr

/-- The type tags of the variants that have no children. -/
inductive ScalarType where
  | UNDEFINED | NULL | BOOLEAN | NUMBER | LONGINT | ULONGINT | LONGDOUBLE
  | STRING | BSEQUENCE | DYNAMIC | NATIVE
deriving DecidableEq, Repr

/-- The tag of a scalar type. -/
def ScalarType.tag : ScalarType → purc_variant_type
  | .UNDEFINED => .UNDEFINED
  | .NULL => .NULL
  | .BOOLEAN => .BOOLEAN
  | .NUMBER => .NUMBER
  | .LONGINT => .LONGINT
  | .ULONGINT => .ULONGINT
  | .LONGDOUBLE => .LONGDOUBLE
  | .STRING => .STRING
  | .BSEQUENCE => .BSEQUENCE
  | .DYNAMIC => .DYNAMIC
  | .NATIVE => .NATIVE

/-- Modelled from the spec: the macro `IS_CONTAINER` of `private/variant.h`
(outside the given sources); the containers handled by `move-heap.c` are the
array, the object and the set. -/
def IS_CONTAINER (t : purc_variant_type) : Bool :=
  t == .OBJECT || t == .ARRAY || t == .SET

/-- The four singletons of a variant heap (`v_undefined`, `v_null`,
`v_false`, `v_true` of `struct pcvariant_heap`). -/
inductive Singleton where
  | v_undefined | v_null | v_false | v_true
deriving DecidableEq, Repr

/-- A variant heap: the original heap of instance `id`, or the move heap. -/
inductive HeapRef where
  | inst (id : Nat)
  | move
deriving DecidableEq, Repr

mutual
/-- A variant as a tree.  `single h k` is the address of singleton `k` of heap
`h`; the other nodes are allocated cells with address `addr`, reference count
`refc` and `sz` for `sz_ptr[0]`; `extra` is `PCVARIANT_FLAG_EXTRA_SIZE` and
`data` the value of a scalar (the bytes of the union or of the extra buffer). -/
inductive Variant where
  | single (heap : HeapRef) (k : Singleton)
  | leaf (addr : Nat) (type : ScalarType) (refc : Nat) (extra : Bool) (sz : Nat)
      (data : String)
  | array (addr : Nat) (refc : Nat) (sz : Nat) (elems : Members)
  | object (addr : Nat) (refc : Nat) (sz : Nat) (kvs : Pairs)
  | set (addr : Nat) (refc : Nat) (sz : Nat) (elems : Members)
/-- The member nodes of an array or a set, in iteration order. -/
inductive Members where
  | nil
  | cons (val : Variant) (next : Members)
/-- The key/value nodes of an object, in iteration order. -/
inductive Pairs where
  | nil
  | cons (key : Variant) (val : Variant) (next : Pairs)
end

deriving instance DecidableEq for Variant, Members, Pairs

/-- The value a pointer to a variant is compared by. -/
inductive Handle where
  | singleton (heap : HeapRef) (k : Singleton)
  | cell (addr : Nat)
deriving DecidableEq, Repr

/-- The handle (address) of a variant. -/
def Variant.handle : Variant → Handle
  | .single h k => .singleton h k
  | .leaf a _ _ _ _ _ => .cell a
  | .array a _ _ _ => .cell a
  | .object a _ _ _ => .cell a
  | .set a _ _ _ => .cell a

/-- The field `v->type`. -/
def Variant.type : Variant → purc_variant_type
  | .single _ .v_undefined => .UNDEFINED
  | .single _ .v_null => .NULL
  | .single _ .v_false => .BOOLEAN
  | .single _ .v_true => .BOOLEAN
  | .leaf _ t _ _ _ _ => t.tag
  | .array _ _ _ _ => .ARRAY
  | .object _ _ _ _ => .OBJECT
  | .set _ _ _ _ => .SET

/-- The test `v->flags & PCVARIANT_FLAG_EXTRA_SIZE`. -/
def Variant.extra_size : Variant → Bool
  | .leaf _ _ _ e _ _ => e
  | _ => false

/-- The field `v->sz_ptr[0]`, read only for containers and for scalars with an
extra buffer. -/
def Variant.sz_ptr0 : Variant → Nat
  | .single _ _ => 0
  | .leaf _ _ _ _ sz _ => sz
  | .array _ _ sz _ => sz
  | .object _ _ sz _ => sz
  | .set _ _ sz _ => sz

/-- Whether a variant is a singleton of some heap. -/
def Variant.isSingleton : Variant → Bool
  | .single _ _ => true
  | _ => false

/-- The scalar type of a singleton. -/
def Singleton.scalar_type : Singleton → ScalarType
  | .v_undefined => .UNDEFINED
  | .v_null => .NULL
  | .v_false => .BOOLEAN
  | .v_true => .BOOLEAN

/-- The value of a singleton (the field `b` of the two booleans). -/
def Singleton.data : Singleton → String
  | .v_undefined => ""
  | .v_null => ""
  | .v_false => "false"
  | .v_true => "true"

/-! ## Deep equality -/

mutual
/-- The value of a variant without addresses, heaps and reference counts. -/
inductive Content where
  | scalar (type : ScalarType) (data : String)
  | array (elems : ContentList)
  | object (kvs : ContentPairs)
  | set (elems : ContentList)
/-- The values of the members of an array or a set. -/
inductive ContentList where
  | nil
  | cons (val : Content) (next : ContentList)
/-- The values of the keys and values of an object. -/
inductive ContentPairs where
  | nil
  | cons (key : Content) (val : Content) (next : ContentPairs)
end

deriving instance DecidableEq for Content, ContentList, ContentPairs

mutual
/-- The value of a variant: its type and data, and the values of its
children in order. -/
def Variant.content : Variant → Content
  | .single _ k => .scalar k.scalar_type k.data
  | .leaf _ t _ _ _ d => .scalar t d
  | .array _ _ _ elems => .array (Members.content elems)
  | .object _ _ _ kvs => .object (Pairs.content kvs)
  | .set _ _ _ elems => .set (Members.content elems)
/-- The values of member nodes. -/
def Members.content : Members → ContentList
  | .nil => .nil
  | .cons v next => .cons (Variant.content v) (Members.content next)
/-- The values of key/value nodes. -/
def Pairs.content : Pairs → ContentPairs
  | .nil => .nil
  | .cons k v next => .cons (Variant.content k) (Variant.content v) (Pairs.content next)
end

/-- Modelled from the spec: `deep_equal` of section 8: two variants are
deep-equal when they have the same type and value and their children are
pairwise deep-equal, whatever their addresses and reference counts. -/
def deep_equal (a b : Variant) : Bool := a.content == b.content

/-- Whether two variants are containers of the same kind. -/
def same_container_kind : Variant → Variant → Bool
  | .array _ _ _ _, .array _ _ _ _ => true
  | .object _ _ _ _, .object _ _ _ _ => true
  | .set _ _ _ _, .set _ _ _ _ => true
  | _, _ => false

/-! ## Messages and the message queue (`msg-queue.c`) -/

/-- The value `PCRDR_MSG_TYPE_VOID`. -/
def PCRDR_MSG_TYPE_VOID : Nat := 0
/-- The value `PCRDR_MSG_TYPE_REQUEST`. -/
def PCRDR_MSG_TYPE_REQUEST : Nat := 1
/-- The value `PCRDR_MSG_TYPE_RESPONSE`. -/
def PCRDR_MSG_TYPE_RESPONSE : Nat := 2
/-- The value `PCRDR_MSG_TYPE_EVENT`. -/
def PCRDR_MSG_TYPE_EVENT : Nat := 3
/-- The value `PCRDR_MSG_TARGET_THREAD`. -/
def PCRDR_MSG_TARGET_THREAD : Nat := 6

/-- The message structure `struct pcrdr_msg` of `purc-pcrdr.h`; the enums are
kept as their integer values, the nullable variants as options. -/
structure pcrdr_msg where
  owner : Nat
  type : Nat
  target : Nat
  elementType : Nat
  dataType : Nat
  retCode : Nat
  targetValue : Nat
  resultValue : Nat
  operation : Option Variant
  event : Option Variant
  element : Option Variant
  property : Option Variant
  requestId : Option Variant
  data : Option Variant
deriving DecidableEq

/-- The queue `struct pcinst_msg_queue`: five lists and the running count.
Every counted message is a live allocation, so the counts of this section stay
far below `2^63` and are plain natural numbers. -/
structure pcinst_msg_queue where
  state : Nat
  nr_msgs : Nat
  req_msgs : List pcrdr_msg
  res_msgs : List pcrdr_msg
  event_msgs : List pcrdr_msg
  timer_msgs : List pcrdr_msg
  msgs : List pcrdr_msg
deriving DecidableEq

/-- The function `pcinst_msg_queue_create` (the allocation succeeds). -/
def pcinst_msg_queue_create : pcinst_msg_queue :=
  { state := 0, nr_msgs := 0, req_msgs := [], res_msgs := [], event_msgs := [],
    timer_msgs := [], msgs := [] }

/-- The function `grind_msg_list`: unlinks and releases every message of a
list and returns how many there were (the loop counts one per node). -/
def grind_msg_list : List pcrdr_msg → Nat
  | [] => 0
  | _ :: rest => grind_msg_list rest + 1

/-- The function `pcinst_msg_queue_destroy`: the count it returns (the queue
itself is freed). -/
def pcinst_msg_queue_destroy (queue : pcinst_msg_queue) : Nat :=
  let nr := 0
  let nr := nr + grind_msg_list queue.req_msgs
  let nr := nr + grind_msg_list queue.res_msgs
  let nr := nr + grind_msg_list queue.event_msgs
  let nr := nr + grind_msg_list queue.timer_msgs
  let nr := nr + grind_msg_list queue.msgs
  nr

/-- The function `is_timer_event_msg`. -/
def is_timer_event_msg (_msg : pcrdr_msg) : Bool := false

/-- The function `pcinst_msg_queue_append`: `list_add_tail` to the list
selected by the message type. -/
def pcinst_msg_queue_append (queue : pcinst_msg_queue) (msg : pcrdr_msg) :
    pcinst_msg_queue :=
  match msg.type with
  | 0 => { queue with msgs := queue.msgs ++ [msg], nr_msgs := queue.nr_msgs + 1 }
  | 1 => { queue with req_msgs := queue.req_msgs ++ [msg],
                      nr_msgs := queue.nr_msgs + 1 }
  | 2 => { queue with res_msgs := queue.res_msgs ++ [msg],
                      nr_msgs := queue.nr_msgs + 1 }
  | 3 =>
    if is_timer_event_msg msg then
      { queue with timer_msgs := queue.timer_msgs ++ [msg],
                   nr_msgs := queue.nr_msgs + 1 }
    else
      { queue with event_msgs := queue.event_msgs ++ [msg],
                   nr_msgs := queue.nr_msgs + 1 }
  | _ => { queue with msgs := queue.msgs ++ [msg], nr_msgs := queue.nr_msgs + 1 }

/-- The function `pcinst_msg_queue_prepend`: `list_add` (at the head) to the
list selected by the message type. -/
def pcinst_msg_queue_prepend (queue : pcinst_msg_queue) (msg : pcrdr_msg) :
    pcinst_msg_queue :=
  match msg.type with
  | 0 => { queue with msgs := msg :: queue.msgs, nr_msgs := queue.nr_msgs + 1 }
  | 1 => { queue with req_msgs := msg :: queue.req_msgs,
                      nr_msgs := queue.nr_msgs + 1 }
  | 2 => { queue with res_msgs := msg :: queue.res_msgs,
                      nr_msgs := queue.nr_msgs + 1 }
  | 3 =>
    if is_timer_event_msg msg then
      { queue with timer_msgs := msg :: queue.timer_msgs,
                   nr_msgs := queue.nr_msgs + 1 }
    else
      { queue with event_msgs := msg :: queue.event_msgs,
                   nr_msgs := queue.nr_msgs + 1 }
  | _ => { queue with msgs := msg :: queue.msgs, nr_msgs := queue.nr_msgs + 1 }

/-- One call that puts a message in a queue. -/
inductive QueueOp where
  | append (msg : pcrdr_msg)
  | prepend (msg : pcrdr_msg)

/-- Runs one call on a queue. -/
def QueueOp.run (queue : pcinst_msg_queue) : QueueOp → pcinst_msg_queue
  | .append msg => pcinst_msg_queue_append queue msg
  | .prepend msg => pcinst_msg_queue_prepend queue msg

/-- Runs a sequence of calls, first to last. -/
def run_queue_ops (queue : pcinst_msg_queue) (ops : List QueueOp) : pcinst_msg_queue :=
  ops.foldl QueueOp.run queue

/-- Appends the messages of a list, first to last. -/
def append_all (queue : pcinst_msg_queue) (ms : List pcrdr_msg) : pcinst_msg_queue :=
  ms.foldl pcinst_msg_queue_append queue

/-- The number of messages a queue holds in its five lists. -/
def pcinst_msg_queue.holding (queue : pcinst_msg_queue) : Nat :=
  queue.req_msgs.length + queue.res_msgs.length + queue.event_msgs.length +
    queue.timer_msgs.length + queue.msgs.length

/-! ## Variant heaps and the move heap (`move-heap.c`) -/

/-- The statistics `struct purc_variant_stat` (the fields the move protocol
touches): count and bytes per type, and the totals. -/
structure purc_variant_stat where
  nr_values : purc_variant_type → Nat
  sz_mem : purc_variant_type → Nat
  nr_total_values : Nat
  sz_total_mem : Nat

/-- The heap `struct pcvariant_heap`: the reference counts of the four
singletons and the statistics. -/
structure pcvariant_heap where
  v_undefined : Nat
  v_null : Nat
  v_false : Nat
  v_true : Nat
  stat : purc_variant_stat

/-- The memory the move protocol works on: the original heap
(`inst->org_vrt_heap`) of every instance, the static `move_heap`, and the next
address the allocator hands out. -/
structure World where
  heaps : Nat → pcvariant_heap
  move_heap : pcvariant_heap
  next_addr : Nat

/-- The statement pair `sz_mem[t] -= n; sz_total_mem -= n`. -/
def stat_sub_mem (s : purc_variant_stat) (t : purc_variant_type) (n : Nat) :
    purc_variant_stat :=
  { s with sz_mem := fun u => if u = t then size_sub (s.sz_mem u) n else s.sz_mem u,
           sz_total_mem := size_sub s.sz_total_mem n }

/-- The statement pair `sz_mem[t] += n; sz_total_mem += n`. -/
def stat_add_mem (s : purc_variant_stat) (t : purc_variant_type) (n : Nat) :
    purc_variant_stat :=
  { s with sz_mem := fun u => if u = t then size_add (s.sz_mem u) n else s.sz_mem u,
           sz_total_mem := size_add s.sz_total_mem n }

/-- The statement pair `nr_values[t]--; nr_total_values--`. -/
def stat_dec_nr (s : purc_variant_stat) (t : purc_variant_type) : purc_variant_stat :=
  { s with nr_values := fun u => if u = t then size_sub (s.nr_values u) 1 else s.nr_values u,
           nr_total_values := size_sub s.nr_total_values 1 }

/-- The statement pair `nr_values[t]++; nr_total_values++`. -/
def stat_inc_nr (s : purc_variant_stat) (t : purc_variant_type) : purc_variant_stat :=
  { s with nr_values := fun u => if u = t then size_add (s.nr_values u) 1 else s.nr_values u,
           nr_total_values := size_add s.nr_total_values 1 }

/-- The heap a reference denotes. -/
def World.heap (w : World) : HeapRef → pcvariant_heap
  | .inst i => w.heaps i
  | .move => w.move_heap

/-- Stores a heap. -/
def World.set_heap (w : World) (h : HeapRef) (hp : pcvariant_heap) : World :=
  match h with
  | .inst i => { w with heaps := fun j => if j = i then hp else w.heaps j }
  | .move => { w with move_heap := hp }

/-- Stores the statistics of a heap. -/
def World.set_stat (w : World) (h : HeapRef) (s : purc_variant_stat) : World :=
  w.set_heap h { w.heap h with stat := s }

/-- The reference count of a singleton of a heap. -/
def pcvariant_heap.singleton_refc (hp : pcvariant_heap) : Singleton → Nat
  | .v_undefined => hp.v_undefined
  | .v_null => hp.v_null
  | .v_false => hp.v_false
  | .v_true => hp.v_true

/-- Stores the reference count of a singleton of a heap. -/
def pcvariant_heap.set_singleton_refc (hp : pcvariant_heap) (k : Singleton) (r : Nat) :
    pcvariant_heap :=
  match k with
  | .v_undefined => { hp with v_undefined := r }
  | .v_null => { hp with v_null := r }
  | .v_false => { hp with v_false := r }
  | .v_true => { hp with v_true := r }

/-- The field `v->refc`: stored in the cell, or in the heap for a singleton. -/
def World.refc (w : World) : Variant → Nat
  | .single h k => (w.heap h).singleton_refc k
  | .leaf _ _ r _ _ _ => r
  | .array _ r _ _ => r
  | .object _ r _ _ => r
  | .set _ r _ _ => r

/-- The statements `v->refc--; retv->refc++` for singleton `k` of heap `src`
(`v`) and of heap `dst` (`retv`). -/
def World.swap_singleton (w : World) (src dst : HeapRef) (k : Singleton) : World :=
  let w1 := w.set_heap src ((w.heap src).set_singleton_refc k
    (refc_dec ((w.heap src).singleton_refc k)))
  w1.set_heap dst ((w1.heap dst).set_singleton_refc k
    (refc_inc ((w1.heap dst).singleton_refc k)))

/-- The function `mvheap_init_once`: the initial move heap (a static, hence
zeroed, structure), for a given `sizeof(purc_variant)`. -/
def mvheap_init_once (sizeof_variant : Nat) : pcvariant_heap :=
  { v_undefined := 0, v_null := 0, v_false := 0, v_true := 0,
    stat :=
      { nr_values := fun _ => 0,
        sz_mem := fun t =>
          if t = .UNDEFINED then sizeof_variant
          else if t = .NULL then sizeof_variant
          else if t = .BOOLEAN then sizeof_variant * 2
          else 0,
        nr_total_values := 4,
        sz_total_mem := 4 * sizeof_variant } }

/-- The six assertions of `mvheap_cleanup_once`. -/
def mvheap_cleanup_once (sizeof_variant : Nat) (move_heap : pcvariant_heap) : Bool :=
  move_heap.v_undefined == 0 && move_heap.v_null == 0 && move_heap.v_true == 0 &&
  move_heap.v_false == 0 && move_heap.stat.nr_total_values == 4 &&
  move_heap.stat.sz_total_mem == 4 * sizeof_variant

/-- The condition under which `sz_ptr[0]` bytes are accounted besides the
cell: `IS_CONTAINER(v->type) || ((v->type == STRING || v->type == BSEQUENCE)
&& (v->flags & PCVARIANT_FLAG_EXTRA_SIZE))`. -/
def has_extra_bytes (v : Variant) : Bool :=
  IS_CONTAINER v.type ||
    ((v.type == .STRING || v.type == .BSEQUENCE) && v.extra_size)

/-- The function `move_variant_in`: moves the statistics of one cell from the
heap of instance `inst` to the move heap. -/
def move_variant_in (sizeof_variant : Nat) (inst : Nat) (v : Variant) (w : World) : World :=
  let t := v.type
  let org := (w.heaps inst).stat
  let mv := w.move_heap.stat
  let org := if has_extra_bytes v then stat_sub_mem org t v.sz_ptr0 else org
  let mv := if has_extra_bytes v then stat_add_mem mv t v.sz_ptr0 else mv
  let org := stat_dec_nr org t
  let mv := stat_inc_nr mv t
  let org := stat_sub_mem org t sizeof_variant
  let mv := stat_add_mem mv t sizeof_variant
  (w.set_stat (.inst inst) org).set_stat .move mv

/-- The clone branch of `move_or_clone_immutable`: `pcvariant_alloc`, `memcpy`
of the cell, `refc = 1` and a copy of the extra buffer, at address `addr`. -/
def clone_cell (addr : Nat) : Variant → Variant
  | .single _ k => .leaf addr k.scalar_type 1 false 0 k.data
  | .leaf _ t _ e sz d => .leaf addr t 1 e sz d
  | v => v

/-- The function `move_or_clone_immutable`; `none` is `PURC_VARIANT_INVALID`. -/
def move_or_clone_immutable (sizeof_variant : Nat) (inst : Nat) (v : Variant) (w : World) :
    Option Variant × World :=
  if IS_CONTAINER v.type then (none, w)
  else if v.handle = .singleton (.inst inst) .v_undefined then
    (some (.single .move .v_undefined), w.swap_singleton (.inst inst) .move .v_undefined)
  else if v.handle = .singleton (.inst inst) .v_null then
    (some (.single .move .v_null), w.swap_singleton (.inst inst) .move .v_null)
  else if v.handle = .singleton (.inst inst) .v_false then
    (some (.single .move .v_false), w.swap_singleton (.inst inst) .move .v_false)
  else if v.handle = .singleton (.inst inst) .v_true then
    (some (.single .move .v_true), w.swap_singleton (.inst inst) .move .v_true)
  else if w.refc v = 1 then
    (some v, move_variant_in sizeof_variant inst v w)
  else
    let retv := clone_cell w.next_addr v
    let mv := w.move_heap.stat
    let mv := if (v.type == .STRING || v.type == .BSEQUENCE) && v.extra_size
      then stat_add_mem mv v.type v.sz_ptr0 else mv
    let mv := stat_inc_nr mv v.type
    let mv := stat_add_mem mv v.type sizeof_variant
    (some retv, { w with next_addr := w.next_addr + 1 }.set_stat .move mv)

/-- The accounting of one new cell of type `t` with `extra` extra bytes in the
move heap, the heap in use between `pcvariant_use_move_heap` and
`pcvariant_use_norm_heap`. -/
def account_in_move_heap (sizeof_variant : Nat) (t : purc_variant_type) (extra : Nat)
    (w : World) : World :=
  w.set_stat .move
    (stat_add_mem (stat_add_mem (stat_inc_nr w.move_heap.stat t) t extra) t sizeof_variant)

mutual
/-- Modelled from the spec: `purc_variant_container_clone_recursively`, of the
variant library outside the given sources; section 4.A says of it "deep-clone
it into the move heap".  Every cell of the value is copied into a new cell
with reference count 1, accounted in the move heap; a singleton becomes a
reference to the singleton of the move heap. -/
def purc_variant_container_clone_recursively (sizeof_variant : Nat) (w : World) :
    Variant → Variant × World
  | .single _ k =>
    (.single .move k,
      w.set_heap .move (w.move_heap.set_singleton_refc k
        (refc_inc (w.move_heap.singleton_refc k))))
  | .leaf _ t _ e sz d =>
    (.leaf w.next_addr t 1 e sz d,
      account_in_move_heap sizeof_variant t.tag
        (if (t.tag == .STRING || t.tag == .BSEQUENCE) && e then sz else 0)
        { w with next_addr := w.next_addr + 1 })
  | .array _ _ sz elems =>
    let r := clone_members sizeof_variant
      (account_in_move_heap sizeof_variant .ARRAY sz { w with next_addr := w.next_addr + 1 })
      elems
    (.array w.next_addr 1 sz r.1, r.2)
  | .object _ _ sz kvs =>
    let r := clone_pairs sizeof_variant
      (account_in_move_heap sizeof_variant .OBJECT sz { w with next_addr := w.next_addr + 1 })
      kvs
    (.object w.next_addr 1 sz r.1, r.2)
  | .set _ _ sz elems =>
    let r := clone_members sizeof_variant
      (account_in_move_heap sizeof_variant .SET sz { w with next_addr := w.next_addr + 1 })
      elems
    (.set w.next_addr 1 sz r.1, r.2)
/-- Modelled from the spec: the deep clone of the members of an array or set. -/
def clone_members (sizeof_variant : Nat) (w : World) : Members → Members × World
  | .nil => (.nil, w)
  | .cons v next =>
    let r := purc_variant_container_clone_recursively sizeof_variant w v
    let q := clone_members sizeof_variant r.2 next
    (.cons r.1 q.1, q.2)
/-- Modelled from the spec: the deep clone of the key/value nodes of an object. -/
def clone_pairs (sizeof_variant : Nat) (w : World) : Pairs → Pairs × World
  | .nil => (.nil, w)
  | .cons k v next =>
    let rk := purc_variant_container_clone_recursively sizeof_variant w k
    let rv := purc_variant_container_clone_recursively sizeof_variant rk.2 v
    let q := clone_pairs sizeof_variant rv.2 next
    (.cons rk.1 rv.1 q.1, q.2)
end

/-- The structure `struct travel_context`; `vrts_to_unref` holds the variants
appended with `pcutils_arrlist_append`, oldest first. -/
structure travel_context where
  inst : Nat
  vrts_to_unref : List Variant
  el : Nat

/-- The call `pcutils_arrlist_append(ctxt->vrts_to_unref, v)`. -/
def travel_context.append (ctxt : travel_context) (v : Variant) : travel_context :=
  { ctxt with vrts_to_unref := ctxt.vrts_to_unref ++ [v] }

/-- What a traversal function leaves behind: its boolean result, the node it
walked as it is after the in-place updates, the context and the memory. -/
structure Travel (α : Type) where
  ok : Bool
  node : α
  ctxt : travel_context
  world : World

mutual
/-- The function `move_or_clone_mutable_descendants_in_array`, on the member
nodes of the array. -/
def move_or_clone_mutable_descendants_in_array (sizeof_variant : Nat)
    (ctxt : travel_context) (w : World) : Members → Travel Members
  | .nil => ⟨true, .nil, ctxt, w⟩
  | .cons v next =>
    match v with
    | .array a refc sz elems =>
      if refc = 1 then
        let r := move_or_clone_mutable_descendants_in_array sizeof_variant ctxt
          (move_variant_in sizeof_variant ctxt.inst (.array a refc sz elems) w) elems
        ⟨r.ok, .cons (.array a refc sz r.node) next, r.ctxt, r.world⟩
      else
        let c := purc_variant_container_clone_recursively sizeof_variant w
          (.array a refc sz elems)
        let r := move_or_clone_mutable_descendants_in_array sizeof_variant
          (ctxt.append (.array a refc sz elems)) c.2 next
        ⟨r.ok, .cons c.1 r.node, r.ctxt, r.world⟩
    | .object a refc sz kvs =>
      if refc = 1 then
        let r := move_or_clone_mutable_descendants_in_object sizeof_variant ctxt
          (move_variant_in sizeof_variant ctxt.inst (.object a refc sz kvs) w) kvs
        ⟨r.ok, .cons (.object a refc sz r.node) next, r.ctxt, r.world⟩
      else
        let c := purc_variant_container_clone_recursively sizeof_variant w
          (.object a refc sz kvs)
        let r := move_or_clone_mutable_descendants_in_array sizeof_variant
          (ctxt.append (.object a refc sz kvs)) c.2 next
        ⟨r.ok, .cons c.1 r.node, r.ctxt, r.world⟩
    | .set a refc sz elems =>
      if refc = 1 then
        let r := move_or_clone_mutable_descendants_in_set sizeof_variant ctxt
          (move_variant_in sizeof_variant ctxt.inst (.set a refc sz elems) w) elems
        ⟨r.ok, .cons (.set a refc sz r.node) next, r.ctxt, r.world⟩
      else
        let c := purc_variant_container_clone_recursively sizeof_variant w
          (.set a refc sz elems)
        let r := move_or_clone_mutable_descendants_in_array sizeof_variant
          (ctxt.append (.set a refc sz elems)) c.2 next
        ⟨r.ok, .cons c.1 r.node, r.ctxt, r.world⟩
    | .single h k => ⟨true, .cons (.single h k) next, ctxt, w⟩
    | .leaf a t refc e sz d => ⟨true, .cons (.leaf a t refc e sz d) next, ctxt, w⟩
/-- The function `move_or_clone_mutable_descendants_in_object`, on the
key/value nodes of the object. -/
def move_or_clone_mutable_descendants_in_object (sizeof_variant : Nat)
    (ctxt : travel_context) (w : World) : Pairs → Travel Pairs
  | .nil => ⟨true, .nil, ctxt, w⟩
  | .cons k v next =>
    match v with
    | .array a refc sz elems =>
      if refc = 1 then
        let r := move_or_clone_mutable_descendants_in_array sizeof_variant ctxt
          (move_variant_in sizeof_variant ctxt.inst (.array a refc sz elems) w) elems
        ⟨r.ok, .cons k (.array a refc sz r.node) next, r.ctxt, r.world⟩
      else
        let c := purc_variant_container_clone_recursively sizeof_variant w
          (.array a refc sz elems)
        let r := move_or_clone_mutable_descendants_in_object sizeof_variant
          (ctxt.append (.array a refc sz elems)) c.2 next
        ⟨r.ok, .cons k c.1 r.node, r.ctxt, r.world⟩
    | .object a refc sz kvs =>
      if refc = 1 then
        let r := move_or_clone_mutable_descendants_in_object sizeof_variant ctxt
          (move_variant_in sizeof_variant ctxt.inst (.object a refc sz kvs) w) kvs
        ⟨r.ok, .cons k (.object a refc sz r.node) next, r.ctxt, r.world⟩
      else
        let c := purc_variant_container_clone_recursively sizeof_variant w
          (.object a refc sz kvs)
        let r := move_or_clone_mutable_descendants_in_object sizeof_variant
          (ctxt.append (.object a refc sz kvs)) c.2 next
        ⟨r.ok, .cons k c.1 r.node, r.ctxt, r.world⟩
    | .set a refc sz elems =>
      if refc = 1 then
        let r := move_or_clone_mutable_descendants_in_set sizeof_variant ctxt
          (move_variant_in sizeof_variant ctxt.inst (.set a refc sz elems) w) elems
        ⟨r.ok, .cons k (.set a refc sz r.node) next, r.ctxt, r.world⟩
      else
        let c := purc_variant_container_clone_recursively sizeof_variant w
          (.set a refc sz elems)
        let r := move_or_clone_mutable_descendants_in_object sizeof_variant
          (ctxt.append (.set a refc sz elems)) c.2 next
        ⟨r.ok, .cons k c.1 r.node, r.ctxt, r.world⟩
    | .single h s => ⟨true, .cons k (.single h s) next, ctxt, w⟩
    | .leaf a t refc e sz d => ⟨true, .cons k (.leaf a t refc e sz d) next, ctxt, w⟩
/-- The function `move_or_clone_mutable_descendants_in_set`, on the member
nodes of the set. -/
def move_or_clone_mutable_descendants_in_set (sizeof_variant : Nat)
    (ctxt : travel_context) (w : World) : Members → Travel Members
  | .nil => ⟨true, .nil, ctxt, w⟩
  | .cons v next =>
    match v with
    | .array a refc sz elems =>
      if refc = 1 then
        let r := move_or_clone_mutable_descendants_in_array sizeof_variant ctxt
          (move_variant_in sizeof_variant ctxt.inst (.array a refc sz elems) w) elems
        ⟨r.ok, .cons (.array a refc sz r.node) next, r.ctxt, r.world⟩
      else
        let c := purc_variant_container_clone_recursively sizeof_variant w
          (.array a refc sz elems)
        let r := move_or_clone_mutable_descendants_in_set sizeof_variant
          (ctxt.append (.array a refc sz elems)) c.2 next
        ⟨r.ok, .cons c.1 r.node, r.ctxt, r.world⟩
    | .object a refc sz kvs =>
      if refc = 1 then
        let r := move_or_clone_mutable_descendants_in_object sizeof_variant ctxt
          (move_variant_in sizeof_variant ctxt.inst (.object a refc sz kvs) w) kvs
        ⟨r.ok, .cons (.object a refc sz r.node) next, r.ctxt, r.world⟩
      else
        let c := purc_variant_container_clone_recursively sizeof_variant w
          (.object a refc sz kvs)
        let r := move_or_clone_mutable_descendants_in_set sizeof_variant
          (ctxt.append (.object a refc sz kvs)) c.2 next
        ⟨r.ok, .cons c.1 r.node, r.ctxt, r.world⟩
    | .set a refc sz elems =>
      if refc = 1 then
        let r := move_or_clone_mutable_descendants_in_set sizeof_variant ctxt
          (move_variant_in sizeof_variant ctxt.inst (.set a refc sz elems) w) elems
        ⟨r.ok, .cons (.set a refc sz r.node) next, r.ctxt, r.world⟩
      else
        let c := purc_variant_container_clone_recursively sizeof_variant w
          (.set a refc sz elems)
        let r := move_or_clone_mutable_descendants_in_set sizeof_variant
          (ctxt.append (.set a refc sz elems)) c.2 next
        ⟨r.ok, .cons c.1 r.node, r.ctxt, r.world⟩
    | .single h k => ⟨true, .cons (.single h k) next, ctxt, w⟩
    | .leaf a t refc e sz d => ⟨true, .cons (.leaf a t refc e sz d) next, ctxt, w⟩
end

/-- The function `move_or_clone_mutable_descendants`. -/
def move_or_clone_mutable_descendants (sizeof_variant : Nat) (ctxt : travel_context)
    (w : World) : Variant → Travel Variant
  | .array a refc sz elems =>
    let r := move_or_clone_mutable_descendants_in_array sizeof_variant ctxt w elems
    ⟨r.ok, .array a refc sz r.node, r.ctxt, r.world⟩
  | .object a refc sz kvs =>
    let r := move_or_clone_mutable_descendants_in_object sizeof_variant ctxt w kvs
    ⟨r.ok, .object a refc sz r.node, r.ctxt, r.world⟩
  | .set a refc sz elems =>
    let r := move_or_clone_mutable_descendants_in_set sizeof_variant ctxt w elems
    ⟨r.ok, .set a refc sz r.node, r.ctxt, r.world⟩
  | v => ⟨true, v, ctxt, w⟩

/-- The `default:` case of the loop of
`move_or_clone_immutable_descendants_in_object`: key and value are both handed
to `move_or_clone_immutable`; the result is `none` when one of them comes back
invalid, else the key and the value the node holds afterwards. -/
def move_or_clone_immutable_pair (sizeof_variant : Nat) (ctxt : travel_context) (w : World)
    (k v : Variant) : Option (Variant × Variant × travel_context) × World :=
  let rk := move_or_clone_immutable sizeof_variant ctxt.inst k w
  let rv := move_or_clone_immutable sizeof_variant ctxt.inst v rk.2
  match rk.1, rv.1 with
  | some retk, some retv =>
    let ctxt1 := if retk.handle ≠ k.handle then ctxt.append k else ctxt
    let ctxt2 := if retv.handle ≠ v.handle then ctxt1.append v else ctxt1
    (some (if retk.handle ≠ k.handle then retk else k,
           if retv.handle ≠ v.handle then retv else v, ctxt2), rv.2)
  | _, _ => (none, rv.2)

mutual
/-- The function `move_or_clone_immutable_descendants_in_array`, on the member
nodes of the array. -/
def move_or_clone_immutable_descendants_in_array (sizeof_variant : Nat)
    (ctxt : travel_context) (w : World) : Members → Travel Members
  | .nil => ⟨true, .nil, ctxt, w⟩
  | .cons v next =>
    match v with
    | .array a refc sz elems =>
      let r := move_or_clone_immutable_descendants_in_array sizeof_variant ctxt w elems
      ⟨r.ok, .cons (.array a refc sz r.node) next, r.ctxt, r.world⟩
    | .object a refc sz kvs =>
      let r := move_or_clone_immutable_descendants_in_object sizeof_variant ctxt w kvs
      ⟨r.ok, .cons (.object a refc sz r.node) next, r.ctxt, r.world⟩
    | .set a refc sz elems =>
      let r := move_or_clone_immutable_descendants_in_set sizeof_variant ctxt w elems
      ⟨r.ok, .cons (.set a refc sz r.node) next, r.ctxt, r.world⟩
    | .single h k =>
      match move_or_clone_immutable sizeof_variant ctxt.inst (.single h k) w with
      | (none, w1) => ⟨false, .cons (.single h k) next, ctxt, w1⟩
      | (some retv, w1) =>
        if retv.handle ≠ (Variant.single h k).handle then
          let r := move_or_clone_immutable_descendants_in_array sizeof_variant
            (ctxt.append (.single h k)) w1 next
          ⟨r.ok, .cons retv r.node, r.ctxt, r.world⟩
        else
          let r := move_or_clone_immutable_descendants_in_array sizeof_variant ctxt w1 next
          ⟨r.ok, .cons (.single h k) r.node, r.ctxt, r.world⟩
    | .leaf a t refc e sz d =>
      match move_or_clone_immutable sizeof_variant ctxt.inst (.leaf a t refc e sz d) w with
      | (none, w1) => ⟨false, .cons (.leaf a t refc e sz d) next, ctxt, w1⟩
      | (some retv, w1) =>
        if retv.handle ≠ (Variant.leaf a t refc e sz d).handle then
          let r := move_or_clone_immutable_descendants_in_array sizeof_variant
            (ctxt.append (.leaf a t refc e sz d)) w1 next
          ⟨r.ok, .cons retv r.node, r.ctxt, r.world⟩
        else
          let r := move_or_clone_immutable_descendants_in_array sizeof_variant ctxt w1 next
          ⟨r.ok, .cons (.leaf a t refc e sz d) r.node, r.ctxt, r.world⟩
/-- The function `move_or_clone_immutable_descendants_in_object`, on the
key/value nodes of the object. -/
def move_or_clone_immutable_descendants_in_object (sizeof_variant : Nat)
    (ctxt : travel_context) (w : World) : Pairs → Travel Pairs
  | .nil => ⟨true, .nil, ctxt, w⟩
  | .cons k v next =>
    match v with
    | .array a refc sz elems =>
      let r := move_or_clone_immutable_descendants_in_array sizeof_variant ctxt w elems
      ⟨r.ok, .cons k (.array a refc sz r.node) next, r.ctxt, r.world⟩
    | .object a refc sz kvs =>
      let r := move_or_clone_immutable_descendants_in_object sizeof_variant ctxt w kvs
      ⟨r.ok, .cons k (.object a refc sz r.node) next, r.ctxt, r.world⟩
    | .set a refc sz elems =>
      let r := move_or_clone_immutable_descendants_in_set sizeof_variant ctxt w elems
      ⟨r.ok, .cons k (.set a refc sz r.node) next, r.ctxt, r.world⟩
    | .single h s =>
      match move_or_clone_immutable_pair sizeof_variant ctxt w k (.single h s) with
      | (none, w1) => ⟨false, .cons k (.single h s) next, ctxt, w1⟩
      | (some (k1, v1, ctxt1), w1) =>
        let r := move_or_clone_immutable_descendants_in_object sizeof_variant ctxt1 w1 next
        ⟨r.ok, .cons k1 v1 r.node, r.ctxt, r.world⟩
    | .leaf a t refc e sz d =>
      match move_or_clone_immutable_pair sizeof_variant ctxt w k (.leaf a t refc e sz d) with
      | (none, w1) => ⟨false, .cons k (.leaf a t refc e sz d) next, ctxt, w1⟩
      | (some (k1, v1, ctxt1), w1) =>
        let r := move_or_clone_immutable_descendants_in_object sizeof_variant ctxt1 w1 next
        ⟨r.ok, .cons k1 v1 r.node, r.ctxt, r.world⟩
/-- The function `move_or_clone_immutable_descendants_in_set`, on the member
nodes of the set. -/
def move_or_clone_immutable_descendants_in_set (sizeof_variant : Nat)
    (ctxt : travel_context) (w : World) : Members → Travel Members
  | .nil => ⟨true, .nil, ctxt, w⟩
  | .cons v next =>
    match v with
    | .array a refc sz elems =>
      let r := move_or_clone_immutable_descendants_in_array sizeof_variant ctxt w elems
      ⟨r.ok, .cons (.array a refc sz r.node) next, r.ctxt, r.world⟩
    | .object a refc sz kvs =>
      let r := move_or_clone_immutable_descendants_in_object sizeof_variant ctxt w kvs
      ⟨r.ok, .cons (.object a refc sz r.node) next, r.ctxt, r.world⟩
    | .set a refc sz elems =>
      let r := move_or_clone_immutable_descendants_in_set sizeof_variant ctxt w elems
      ⟨r.ok, .cons (.set a refc sz r.node) next, r.ctxt, r.world⟩
    | .single h k =>
      match move_or_clone_immutable sizeof_variant ctxt.inst (.single h k) w with
      | (none, w1) => ⟨false, .cons (.single h k) next, ctxt, w1⟩
      | (some retv, w1) =>
        if retv.handle ≠ (Variant.single h k).handle then
          let r := move_or_clone_immutable_descendants_in_set sizeof_variant
            (ctxt.append (.single h k)) w1 next
          ⟨r.ok, .cons retv r.node, r.ctxt, r.world⟩
        else
          let r := move_or_clone_immutable_descendants_in_set sizeof_variant ctxt w1 next
          ⟨r.ok, .cons (.single h k) r.node, r.ctxt, r.world⟩
    | .leaf a t refc e sz d =>
      match move_or_clone_immutable sizeof_variant ctxt.inst (.leaf a t refc e sz d) w with
      | (none, w1) => ⟨false, .cons (.leaf a t refc e sz d) next, ctxt, w1⟩
      | (some retv, w1) =>
        if retv.handle ≠ (Variant.leaf a t refc e sz d).handle then
          let r := move_or_clone_immutable_descendants_in_set sizeof_variant
            (ctxt.append (.leaf a t refc e sz d)) w1 next
          ⟨r.ok, .cons retv r.node, r.ctxt, r.world⟩
        else
          let r := move_or_clone_immutable_descendants_in_set sizeof_variant ctxt w1 next
          ⟨r.ok, .cons (.leaf a t refc e sz d) r.node, r.ctxt, r.world⟩
end

/-- The function `move_or_clone_immutable_descendants`. -/
def move_or_clone_immutable_descendants (sizeof_variant : Nat) (ctxt : travel_context)
    (w : World) : Variant → Travel Variant
  | .array a refc sz elems =>
    let r := move_or_clone_immutable_descendants_in_array sizeof_variant ctxt w elems
    ⟨r.ok, .array a refc sz r.node, r.ctxt, r.world⟩
  | .object a refc sz kvs =>
    let r := move_or_clone_immutable_descendants_in_object sizeof_variant ctxt w kvs
    ⟨r.ok, .object a refc sz r.node, r.ctxt, r.world⟩
  | .set a refc sz elems =>
    let r := move_or_clone_immutable_descendants_in_set sizeof_variant ctxt w elems
    ⟨r.ok, .set a refc sz r.node, r.ctxt, r.world⟩
  | v => ⟨true, v, ctxt, w⟩

/-- What `pcvariant_move_heap_in` leaves behind: the returned handle (`none`
is `PURC_VARIANT_INVALID`), the argument `v` as the call leaves it, the
variants `purc_variant_unref` is called on (first `v` when `retv != v`, then
the elements of `vrts_to_unref` freed through `cb_free_element`), and the
memory. -/
structure MoveIn where
  retv : Option Variant
  source : Variant
  unref : List Variant
  world : World

/-- The function `pcvariant_move_heap_in`, for the current instance `inst`. -/
def pcvariant_move_heap_in (sizeof_variant : Nat) (inst : Nat) (v : Variant) (w : World) :
    MoveIn :=
  let ctxt : travel_context := ⟨inst, [], 0⟩
  if IS_CONTAINER v.type then
    if w.refc v = 1 then
      let r1 := move_or_clone_mutable_descendants sizeof_variant { ctxt with el := 0 }
        (move_variant_in sizeof_variant inst v w) v
      let r2 := move_or_clone_immutable_descendants sizeof_variant { r1.ctxt with el := 0 }
        r1.world r1.node
      ⟨some r2.node, r2.node, r2.ctxt.vrts_to_unref, r2.world⟩
    else
      let c := purc_variant_container_clone_recursively sizeof_variant w v
      let r2 := move_or_clone_immutable_descendants sizeof_variant { ctxt with el := 0 } c.2 v
      ⟨some c.1, r2.node,
        (if c.1.handle ≠ v.handle then [r2.node] else []) ++ r2.ctxt.vrts_to_unref, r2.world⟩
  else
    match move_or_clone_immutable sizeof_variant inst v w with
    | (none, w1) => ⟨none, v, [], w1⟩
    | (some retv, w1) => ⟨some retv, v, if retv.handle ≠ v.handle then [v] else [], w1⟩

/-- The function `pcvariant_move_heap_out`, for the current instance `inst`. -/
def pcvariant_move_heap_out (sizeof_variant : Nat) (inst : Nat) (v : Variant) (w : World) :
    Variant × World :=
  if v.handle = .singleton .move .v_undefined then
    (.single (.inst inst) .v_undefined, w.swap_singleton .move (.inst inst) .v_undefined)
  else if v.handle = .singleton .move .v_null then
    (.single (.inst inst) .v_null, w.swap_singleton .move (.inst inst) .v_null)
  else if v.handle = .singleton .move .v_false then
    (.single (.inst inst) .v_false, w.swap_singleton .move (.inst inst) .v_false)
  else if v.handle = .singleton .move .v_true then
    (.single (.inst inst) .v_true, w.swap_singleton .move (.inst inst) .v_true)
  else
    let t := v.type
    let org := (w.heaps inst).stat
    let mv := w.move_heap.stat
    let org := if has_extra_bytes v then stat_add_mem org t v.sz_ptr0 else org
    let mv := if has_extra_bytes v then stat_sub_mem mv t v.sz_ptr0 else mv
    let org := stat_inc_nr org t
    let mv := stat_dec_nr mv t
    let org := stat_add_mem org t sizeof_variant
    let mv := stat_sub_mem mv t sizeof_variant
    (v, (w.set_stat (.inst inst) org).set_stat .move mv)

/-! ## The variable manager and name resolution (`var-mgr.c`) -/

/-- Modelled from the spec: the error codes named in `var-mgr.c`, in `instance.c`, in the
element hooks and in section 7 (the header that numbers them is outside the
given sources). -/
inductive purc_error where
  | OK | OUT_OF_MEMORY | ARGUMENT_MISSED | NOT_FOUND | WRONG_DATA_TYPE | INVALID_VALUE
  | DUPLICATED | NOT_SUPPORTED | NOT_IMPLEMENTED | NOT_EXISTS | NO_INSTANCE
deriving DecidableEq, Repr

/-- The enum `var_event_type`. -/
inductive var_event_type where
  | VAR_EVENT_TYPE_ATTACHED | VAR_EVENT_TYPE_DETACHED | VAR_EVENT_TYPE_DISPLACED
  | VAR_EVENT_TYPE_EXCEPT
deriving DecidableEq, Repr

/-- The record `struct var_observe`; a stack is named by a number. -/
structure var_observe where
  name : String
  type : var_event_type
  stack : Nat
deriving DecidableEq, Repr

/-- The manager `struct pcvarmgr`: the key/value nodes of the object variant
`mgr->object` and the observer records. -/
structure pcvarmgr where
  object : Pairs
  var_observers : List var_observe
deriving DecidableEq

/-- Modelled from the spec: `purc_variant_get_string_const` of the variant
library, the characters of a string variant. -/
def purc_variant_get_string_const : Variant → Option String
  | .leaf _ .STRING _ _ _ d => some d
  | _ => none

/-- Modelled from the spec: the lookup of a key among the key/value nodes of
an object ("ordered mapping from string keys to variants, unique keys"): the
value of the first node whose key holds the given characters. -/
def pairs_get_by_ckey : Pairs → String → Option Variant
  | .nil, _ => none
  | .cons k v next, name =>
    if purc_variant_get_string_const k = some name then some v
    else pairs_get_by_ckey next name

/-- Modelled from the spec: `purc_variant_object_get_by_ckey` of the variant
library; `none` is `PURC_VARIANT_INVALID`.  A miss leaves the error code as it
is in this embedding: every path of the callers below that ends sets or
clears the code itself. -/
def purc_variant_object_get_by_ckey (obj : Variant) (name : String) : Option Variant :=
  match obj with
  | .object _ _ _ kvs => pairs_get_by_ckey kvs name
  | _ => none

/-- Modelled from the spec: `purc_variant_make_string` of the variant library:
a new string cell at address `addr` (whether the characters sit in the cell or
in an extra buffer is not represented). -/
def purc_variant_make_string (addr : Nat) (s : String) : Variant :=
  .leaf addr .STRING 1 false 0 s

/-- Modelled from the spec: `purc_variant_object_set` on the key/value nodes:
the value of an existing key is replaced, a new key is added at the end
("unique keys, insertion-ordered"). -/
def pairs_set : Pairs → Variant → Variant → Pairs
  | .nil, k, v => .cons k v .nil
  | .cons k0 v0 next, k, v =>
    if purc_variant_get_string_const k0 = purc_variant_get_string_const k then .cons k0 v next
    else .cons k0 v0 (pairs_set next k v)

/-- Modelled from the spec: the removal of a key from the key/value nodes. -/
def pairs_remove : Pairs → String → Pairs
  | .nil, _ => .nil
  | .cons k v next, name =>
    if purc_variant_get_string_const k = some name then next
    else .cons k v (pairs_remove next name)

mutual
/-- Whether a variant holds the container cell of handle `h`: it is that cell
or one of its descendants is. -/
def Variant.holds_cell (h : Handle) : Variant → Bool
  | .single _ _ => false
  | .leaf _ _ _ _ _ _ => false
  | .array a _ _ elems => Handle.cell a == h || Members.holds_cell h elems
  | .object a _ _ kvs => Handle.cell a == h || Pairs.holds_cell h kvs
  | .set a _ _ elems => Handle.cell a == h || Members.holds_cell h elems
/-- Whether one of the member nodes holds the cell. -/
def Members.holds_cell (h : Handle) : Members → Bool
  | .nil => false
  | .cons v next => Variant.holds_cell h v || Members.holds_cell h next
/-- Whether one of the values of the key/value nodes holds the cell. -/
def Pairs.holds_cell (h : Handle) : Pairs → Bool
  | .nil => false
  | .cons _ v next => Variant.holds_cell h v || Pairs.holds_cell h next
end

mutual
/-- A change of the container cell of handle `h` in place, seen from a variant
that may hold the cell in several places: every place that holds the cell
shows its new state `new`; nothing else changes. -/
def Variant.displace_cell (h : Handle) (new : Variant) : Variant → Variant
  | .single hp k => .single hp k
  | .leaf a t r e sz d => .leaf a t r e sz d
  | .array a r sz elems =>
    if Handle.cell a = h then new else .array a r sz (Members.displace_cell h new elems)
  | .object a r sz kvs =>
    if Handle.cell a = h then new else .object a r sz (Pairs.displace_cell h new kvs)
  | .set a r sz elems =>
    if Handle.cell a = h then new else .set a r sz (Members.displace_cell h new elems)
/-- The change of a cell in place, seen from member nodes. -/
def Members.displace_cell (h : Handle) (new : Variant) : Members → Members
  | .nil => .nil
  | .cons v next => .cons (Variant.displace_cell h new v) (Members.displace_cell h new next)
/-- The change of a cell in place, seen from key/value nodes (the keys are
strings, which are no containers). -/
def Pairs.displace_cell (h : Handle) (new : Variant) : Pairs → Pairs
  | .nil => .nil
  | .cons k v next => .cons k (Variant.displace_cell h new v) (Pairs.displace_cell h new next)
end

/-- Modelled from the spec: `purc_variant_container_displace` of the variant
library, which is outside the given sources (section 4.A, "Displace
semantics": "For containers, `displace(dst, src)` replaces the element
contents of `dst` with those of `src` in place, preserving the identity (and
thus any references) of `dst`"; "Failure modes": a "wrong type in argument
position" returns invalid and sets the corresponding error).  The result is
the cell of `dst` after the call: the same address and reference count with
the members of `src`; `none` when the call returns false and changes nothing,
which is the case when `dst` is no container or `src` is not of its kind.
The flag `silently` is false at the call of `pcvarmgr_add`. -/
def purc_variant_container_displace : Variant → Variant → Option Variant
  | .array a refc _ _, .array _ _ sz elems => some (.array a refc sz elems)
  | .object a refc _ _, .object _ _ sz kvs => some (.object a refc sz kvs)
  | .set a refc _ _, .set _ _ sz elems => some (.set a refc sz elems)
  | _, _ => none

/-- The function `pcvarmgr_remove_ex`; the removal
`purc_variant_object_remove_by_static_ckey` is modelled from the spec: a
missing key is an error unless `silently`. -/
def pcvarmgr_remove_ex (mgr : pcvarmgr) (name : String) (silently : Bool)
    (err : purc_error) : Bool × pcvarmgr × purc_error :=
  match pairs_get_by_ckey mgr.object name with
  | some _ => (true, { mgr with object := pairs_remove mgr.object name }, err)
  | none => if silently then (true, mgr, err) else (false, mgr, .NOT_FOUND)

/-- The function `pcvarmgr_add` (the pointers `mgr`, `name` and `variant` are
not null); `k_addr` is the address of the cell `purc_variant_make_string`
allocates for the key.  For a name that is bound already the call hands the
bound value `v` to `purc_variant_container_displace`, which changes the cell
of `v` in place: every place of `mgr->object` that holds this cell, under the
name or elsewhere, shows the new contents. -/
def pcvarmgr_add (mgr : pcvarmgr) (name : String) (variant : Variant) (k_addr : Nat)
    (err : purc_error) : Bool × pcvarmgr × purc_error :=
  if variant.type = .UNDEFINED then pcvarmgr_remove_ex mgr name true err
  else
    let k := purc_variant_make_string k_addr name
    match pairs_get_by_ckey mgr.object name with
    | none => (true, { mgr with object := pairs_set mgr.object k variant }, .OK)
    | some v =>
      match purc_variant_container_displace v variant with
      | some v1 =>
        (true, { mgr with object := Pairs.displace_cell v.handle v1 mgr.object }, err)
      | none => (false, mgr, .WRONG_DATA_TYPE)

/-- The function `pcvarmgr_get` (the pointers are not null). -/
def pcvarmgr_get (mgr : pcvarmgr) (name : String) (err : purc_error) :
    Option Variant × purc_error :=
  match pairs_get_by_ckey mgr.object name with
  | some v => (some v, err)
  | none => (none, .NOT_FOUND)

/-- An element of the vDOM with its scope variables (`none` when the element
has no variable manager) and its chain of parents. -/
inductive pcvdom_element where
  | root (tag_name : String) (vars : Option pcvarmgr)
  | child (tag_name : String) (vars : Option pcvarmgr) (parent : pcvdom_element)
deriving DecidableEq

/-- The function `pcvdom_element_get_variables`: the scope variables of an
element. -/
def pcvdom_element_get_variables : pcvdom_element → Option pcvarmgr
  | .root _ m => m
  | .child _ m _ => m

/-- The function `pcvdom_element_parent`. -/
def pcvdom_element_parent : pcvdom_element → Option pcvdom_element
  | .root _ _ => none
  | .child _ _ p => some p

/-- Modelled from the spec: `pcintr_get_scope_variable`, the binding of a name
among the scope variables of one element. -/
def pcintr_get_scope_variable (elem : pcvdom_element) (name : String) : Option Variant :=
  match pcvdom_element_get_variables elem with
  | some mgr => pairs_get_by_ckey mgr.object name
  | none => none

/-- The frame `struct pcintr_stack_frame`, as far as name resolution reads it:
`scope`, `pos` and the symbol variable `!` (`none` for a null pointer or
`PURC_VARIANT_INVALID`). -/
structure pcintr_stack_frame where
  scope : Option pcvdom_element
  pos : Option pcvdom_element
  exclamation_var : Option Variant
deriving DecidableEq

/-- The stack `struct pcintr_stack`: the bottom frame (the one running), its
parents from the nearest on, the variables of the document (`none` when
`stack->vdom` is null) and the variables of the instance
(`pcinst_get_variables`, created on first use). -/
structure pcintr_stack where
  bottom_frame : pcintr_stack_frame
  parents : List pcintr_stack_frame
  vdom : Option pcvarmgr
  inst_variables : pcvarmgr
deriving DecidableEq

/-- The function `_find_named_scope_var_in_vdom` (`elem` and `name` not null). -/
def _find_named_scope_var_in_vdom (name : String) (err : purc_error) :
    pcvdom_element → Option Variant × purc_error
  | .root t m =>
    match pcintr_get_scope_variable (.root t m) name with
    | some v => (some v, err)
    | none => (none, .NOT_FOUND)
  | .child t m p =>
    match pcintr_get_scope_variable (.child t m p) name with
    | some v => (some v, err)
    | none => _find_named_scope_var_in_vdom name err p

/-- The loop at label `again` of `_find_named_scope_var`: `elem` is the
element looked at, `parents` the frames above the current one. -/
def _find_named_scope_var_again (name : String) (err : purc_error) (elem : pcvdom_element) :
    List pcintr_stack_frame → Option Variant × purc_error
  | [] =>
    match pcintr_get_scope_variable elem name with
    | some v => (some v, err)
    | none => (none, .NOT_FOUND)
  | frame :: rest =>
    match pcintr_get_scope_variable elem name with
    | some v => (some v, err)
    | none =>
      match frame.scope with
      | some s => _find_named_scope_var_in_vdom name err s
      | none =>
        match frame.pos with
        | some e => _find_named_scope_var_again name err e rest
        | none => (none, .NOT_FOUND)

/-- The function `_find_named_scope_var`. -/
def _find_named_scope_var (frame : pcintr_stack_frame) (parents : List pcintr_stack_frame)
    (name : String) (err : purc_error) : Option Variant × purc_error :=
  match frame.scope with
  | some s => _find_named_scope_var_in_vdom name err s
  | none =>
    match frame.pos with
    | none => (none, .NOT_FOUND)
    | some elem => _find_named_scope_var_again name err elem parents

/-- The function `find_doc_buildin_var`; `pcvdom_document_get_variable` is the
lookup among the variables of the document. -/
def find_doc_buildin_var (vdom : Option pcvarmgr) (name : String) (err : purc_error) :
    Option Variant × purc_error :=
  match vdom with
  | none => (none, .NOT_FOUND)
  | some mgr =>
    match pairs_get_by_ckey mgr.object name with
    | some v => (some v, err)
    | none => (none, .NOT_FOUND)

/-- The function `find_inst_var`. -/
def find_inst_var (varmgr : pcvarmgr) (name : String) (err : purc_error) :
    Option Variant × purc_error :=
  match pcvarmgr_get varmgr name err with
  | (some v, e) => (some v, e)
  | (none, _) => (none, .NOT_FOUND)

/-- The function `_find_named_temp_var`, on the frame `p` and the frames
above it. -/
def _find_named_temp_var (name : String) : List pcintr_stack_frame → Option Variant
  | [] => none
  | p :: rest =>
    match p.exclamation_var with
    | none => _find_named_temp_var name rest
    | some tmp =>
      if tmp.type ≠ .OBJECT then _find_named_temp_var name rest
      else
        match purc_variant_object_get_by_ckey tmp name with
        | none => _find_named_temp_var name rest
        | some v => some v

/-- The function `pcintr_find_named_var` (`stack` and `name` not null). -/
def pcintr_find_named_var (stack : pcintr_stack) (name : String) (err : purc_error) :
    Option Variant × purc_error :=
  match _find_named_temp_var name (stack.bottom_frame :: stack.parents) with
  | some v => (some v, .OK)
  | none =>
    match _find_named_scope_var stack.bottom_frame stack.parents name err with
    | (some v, _) => (some v, .OK)
    | (none, e1) =>
      match find_doc_buildin_var stack.vdom name e1 with
      | (some v, _) => (some v, .OK)
      | (none, e2) =>
        match find_inst_var stack.inst_variables name e2 with
        | (some v, _) => (some v, .OK)
        | (none, _) => (none, .NOT_FOUND)

/-! ### The resolution order, level by level -/

/-- The binding of a name in the `!` variable of one frame: the variable is an
object and binds the name. -/
def temp_binding (name : String) (p : pcintr_stack_frame) : Option Variant :=
  match p.exclamation_var with
  | some tmp => purc_variant_object_get_by_ckey tmp name
  | none => none

/-- Level 1: the `!` variables of the bottom frame and of its ancestors; the
nearest frame that binds the name wins. -/
def temp_level (stack : pcintr_stack) (name : String) : Option Variant :=
  (stack.bottom_frame :: stack.parents).findSome? (temp_binding name)

/-- An element followed by its parents in the vDOM, nearest first. -/
def element_chain : pcvdom_element → List pcvdom_element
  | .root t m => [.root t m]
  | .child t m p => .child t m p :: element_chain p

/-- The elements that enclose a frame, nearest first: the element of each
frame going up the stack, until a frame names a scope element, from which the
chain goes on through the vDOM, or until the frame of the document, which has
no element. -/
def enclosing_elements : List pcintr_stack_frame → List pcvdom_element
  | [] => []
  | frame :: rest =>
    match frame.scope with
    | some s => element_chain s
    | none =>
      match frame.pos with
      | some e => e :: enclosing_elements rest
      | none => []

/-- Level 2: the scope variables of the nearest enclosing element that binds
the name. -/
def scope_level (stack : pcintr_stack) (name : String) : Option Variant :=
  (enclosing_elements (stack.bottom_frame :: stack.parents)).findSome?
    (fun e => pcintr_get_scope_variable e name)

/-- Level 3: the variables of the document. -/
def doc_level (stack : pcintr_stack) (name : String) : Option Variant :=
  match stack.vdom with
  | some mgr => pairs_get_by_ckey mgr.object name
  | none => none

/-- Level 4: the variables of the instance. -/
def inst_level (stack : pcintr_stack) (name : String) : Option Variant :=
  pairs_get_by_ckey stack.inst_variables.object name

/-- The binding of the first level that binds the name. -/
def first_level_binding (stack : pcintr_stack) (name : String) : Option Variant :=
  match temp_level stack name with
  | some v => some v
  | none =>
    match scope_level stack name with
    | some v => some v
    | none =>
      match doc_level stack name with
      | some v => some v
      | none => inst_level stack name

/-- The size of the extra buffer of a variant: `sz_ptr[0]` for a string or
byte sequence with `PCVARIANT_FLAG_EXTRA_SIZE`, nothing otherwise. -/
def extra_buffer_size (v : Variant) : Nat :=
  if (v.type == .STRING || v.type == .BSEQUENCE) && v.extra_size then v.sz_ptr0 else 0

/-- A cell of type `t` that takes `bytes` bytes is accounted in the statistics
`org`, and the statistics `mv` have room for it: moving its count and bytes
from `org` to `mv` wraps no counter. -/
def transfer_fits (org mv : purc_variant_stat) (t : purc_variant_type) (bytes : Nat) : Prop :=
  1 ≤ org.nr_values t ∧ org.nr_values t < 18446744073709551616 ∧
  1 ≤ org.nr_total_values ∧ org.nr_total_values < 18446744073709551616 ∧
  bytes ≤ org.sz_mem t ∧ org.sz_mem t < 18446744073709551616 ∧
  bytes ≤ org.sz_total_mem ∧ org.sz_total_mem < 18446744073709551616 ∧
  mv.nr_values t + 1 < 18446744073709551616 ∧
  mv.nr_total_values + 1 < 18446744073709551616 ∧
  mv.sz_mem t + bytes < 18446744073709551616 ∧
  mv.sz_total_mem + bytes < 18446744073709551616

/-! ## Moving messages between instances (`purc-pcrdr.h`, move buffer) -/

/-- The flag `PCINST_MOVE_BUFFER_BROADCAST`. -/
def PCINST_MOVE_BUFFER_BROADCAST : Nat := 1

/-- Modelled from the spec: the entry of a live instance that called
`purc_inst_create_move_buffer` in the table of move buffers: its endpoint
atom, the flags it gave and its message queue. -/
structure move_buffer where
  atom : Nat
  flags : Nat
  queue : pcinst_msg_queue
deriving DecidableEq

/-- Whether a move buffer was created with `PCINST_MOVE_BUFFER_BROADCAST`. -/
def move_buffer.broadcast (mb : move_buffer) : Bool :=
  mb.flags &&& PCINST_MOVE_BUFFER_BROADCAST != 0

mutual
/-- The addresses of the cells of a variant. -/
def Variant.addrs : Variant → List Nat
  | .single _ _ => []
  | .leaf a _ _ _ _ _ => [a]
  | .array a _ _ elems => a :: Members.addrs elems
  | .object a _ _ kvs => a :: Pairs.addrs kvs
  | .set a _ _ elems => a :: Members.addrs elems
/-- The addresses of the cells of member nodes. -/
def Members.addrs : Members → List Nat
  | .nil => []
  | .cons v next => Variant.addrs v ++ Members.addrs next
/-- The addresses of the cells of key/value nodes. -/
def Pairs.addrs : Pairs → List Nat
  | .nil => []
  | .cons k v next => Variant.addrs k ++ (Variant.addrs v ++ Pairs.addrs next)
end

mutual
/-- Modelled from the spec: the copy of a variant that a cloned message
carries to the instance `owner` ("cloned per subscribed instance", "without
aliasing"): every cell is copied to a new cell with reference count 1 at the
next free address; a singleton becomes the singleton of the heap of `owner`
(rule 1 of the move protocol). -/
def copy_variant (owner : Nat) (next : Nat) : Variant → Variant × Nat
  | .single _ k => (.single (.inst owner) k, next)
  | .leaf _ t _ e sz d => (.leaf next t 1 e sz d, next + 1)
  | .array _ _ sz elems =>
    let r := copy_members owner (next + 1) elems
    (.array next 1 sz r.1, r.2)
  | .object _ _ sz kvs =>
    let r := copy_pairs owner (next + 1) kvs
    (.object next 1 sz r.1, r.2)
  | .set _ _ sz elems =>
    let r := copy_members owner (next + 1) elems
    (.set next 1 sz r.1, r.2)
/-- Modelled from the spec: the copy of member nodes. -/
def copy_members (owner : Nat) (next : Nat) : Members → Members × Nat
  | .nil => (.nil, next)
  | .cons v rest =>
    let r := copy_variant owner next v
    let q := copy_members owner r.2 rest
    (.cons r.1 q.1, q.2)
/-- Modelled from the spec: the copy of key/value nodes. -/
def copy_pairs (owner : Nat) (next : Nat) : Pairs → Pairs × Nat
  | .nil => (.nil, next)
  | .cons k v rest =>
    let rk := copy_variant owner next k
    let rv := copy_variant owner rk.2 v
    let q := copy_pairs owner rv.2 rest
    (.cons rk.1 rv.1 q.1, q.2)
end

/-- The copy of a nullable variant of a message. -/
def copy_option (owner : Nat) (next : Nat) : Option Variant → Option Variant × Nat
  | none => (none, next)
  | some v => (some (copy_variant owner next v).1, (copy_variant owner next v).2)

/-- The addresses of the cells of a nullable variant. -/
def option_addrs : Option Variant → List Nat
  | none => []
  | some v => v.addrs

/-- The addresses of the cells of the variants of a message. -/
def pcrdr_msg.addrs (msg : pcrdr_msg) : List Nat :=
  option_addrs msg.operation ++ option_addrs msg.event ++ option_addrs msg.element ++
    option_addrs msg.property ++ option_addrs msg.requestId ++ option_addrs msg.data

/-- Modelled from the spec: `pcrdr_clone_message` as used for a broadcast
(section 8: the clone "is semantically equal" to the message; section 4.C:
"cloned per subscribed instance"): the header is copied, the clone belongs to
`owner`, and each variant is copied with `copy_variant`. -/
def pcrdr_clone_message (owner : Nat) (next : Nat) (msg : pcrdr_msg) : pcrdr_msg × Nat :=
  let r1 := copy_option owner next msg.operation
  let r2 := copy_option owner r1.2 msg.event
  let r3 := copy_option owner r2.2 msg.element
  let r4 := copy_option owner r3.2 msg.property
  let r5 := copy_option owner r4.2 msg.requestId
  let r6 := copy_option owner r5.2 msg.data
  ({ msg with owner := owner, operation := r1.1, event := r2.1, element := r3.1,
              property := r4.1, requestId := r5.1, data := r6.1 }, r6.2)

/-- Modelled from the spec: the broadcast branch of `purc_inst_move_message`
(section 4.C: the event "is cloned per subscribed instance (filtered by the
BROADCAST flag of each receiver) and delivered, returning the total count"):
the count, the table afterwards and the next free address. -/
def broadcast_event (msg : pcrdr_msg) : Nat → List move_buffer → Nat × List move_buffer × Nat
  | next, [] => (0, [], next)
  | next, mb :: rest =>
    if mb.broadcast then
      let c := pcrdr_clone_message mb.atom next msg
      let r := broadcast_event msg c.2 rest
      (r.1 + 1, { mb with queue := pcinst_msg_queue_append mb.queue c.1 } :: r.2.1, r.2.2)
    else
      let r := broadcast_event msg next rest
      (r.1, mb :: r.2.1, r.2.2)

/-- Modelled from the spec: the branch `target_atom ≠ 0` of
`purc_inst_move_message`: "the message is placed in that instance's
appropriate list"; the count is 0 when no live instance has the atom. -/
def move_to_instance (inst_to : Nat) (msg : pcrdr_msg) :
    List move_buffer → Nat × List move_buffer
  | [] => (0, [])
  | mb :: rest =>
    if mb.atom = inst_to then
      (1, { mb with queue := pcinst_msg_queue_append mb.queue { msg with owner := inst_to } }
            :: rest)
    else
      ((move_to_instance inst_to msg rest).1, mb :: (move_to_instance inst_to msg rest).2)

/-- Modelled from the spec: `purc_inst_move_message`, declared in
`purc-pcrdr.h` and implemented outside the given sources, on the table of move
buffers of the live instances: the number of messages moved, the table
afterwards and the next free address. -/
def purc_inst_move_message (inst_to : Nat) (msg : pcrdr_msg) (table : List move_buffer)
    (next : Nat) : Nat × List move_buffer × Nat :=
  if inst_to = 0 then
    if msg.type = PCRDR_MSG_TYPE_EVENT then broadcast_event msg next table
    else (0, table, next)
  else
    ((move_to_instance inst_to msg table).1, (move_to_instance inst_to msg table).2, next)

/-- The move buffer `after` is the move buffer `before` with exactly one new
message `c`, a copy of the event `e`: `c` was appended to the queue, it sits
last in the event list, the running count grew by one, and `c` has the target,
the target value and the event string of `e`. -/
def received_copy (e : pcrdr_msg) (before after : move_buffer) (c : pcrdr_msg) : Prop :=
  after.atom = before.atom ∧ after.flags = before.flags ∧
  after.queue = pcinst_msg_queue_append before.queue c ∧
  after.queue.event_msgs = before.queue.event_msgs ++ [c] ∧
  after.queue.nr_msgs = before.queue.nr_msgs + 1 ∧
  after.queue.holding = before.queue.holding + 1 ∧
  c.target = e.target ∧ c.targetValue = e.targetValue ∧
  c.event.map Variant.content = e.event.map Variant.content

/-! ## Example data -/

/-- The heap of an instance that holds, besides its four singletons (counted
the way `mvheap_init_once` counts those of the move heap), `n_arr` arrays with
8 bytes of member storage each and `n_num` numbers without extra buffer. -/
def heap_with (sizeof_variant n_arr n_num : Nat) : pcvariant_heap :=
  { v_undefined := 0, v_null := 0, v_false := 0, v_true := 0,
    stat :=
      { nr_values := fun t =>
          if t = .ARRAY then n_arr else if t = .NUMBER then n_num else 0,
        sz_mem := fun t =>
          if t = .UNDEFINED then sizeof_variant
          else if t = .NULL then sizeof_variant
          else if t = .BOOLEAN then sizeof_variant * 2
          else if t = .ARRAY then n_arr * (sizeof_variant + 8)
          else if t = .NUMBER then n_num * sizeof_variant
          else 0,
        nr_total_values := 4 + n_arr + n_num,
        sz_total_mem := 4 * sizeof_variant + n_arr * (sizeof_variant + 8) +
          n_num * sizeof_variant } }

/-- A memory in which every instance has the heap `hp`, the move heap is as
`mvheap_init_once` leaves it and the allocator is at address 1000. -/
def world_with (sizeof_variant : Nat) (hp : pcvariant_heap) : World :=
  { heaps := fun _ => hp, move_heap := mvheap_init_once sizeof_variant, next_addr := 1000 }

/-- A number cell at address `addr` with reference count `refc`. -/
def number_cell (addr refc : Nat) (data : String) : Variant :=
  .leaf addr .NUMBER refc false 0 data

/-- The array `[1]`, every cell with reference count 1. -/
def array_of_one : Variant :=
  .array 1 1 8 (.cons (number_cell 2 1 "1") .nil)

/-- The array `[[1], [2]]`, every cell with reference count 1. -/
def array_of_arrays : Variant :=
  .array 1 1 8
    (.cons (.array 2 1 8 (.cons (number_cell 3 1 "1") .nil))
      (.cons (.array 4 1 8 (.cons (number_cell 5 1 "2") .nil)) .nil))

/-- The array `[1, 2]` with reference count 2, whose first member has
reference count 1 and whose second member has reference count 2. -/
def shared_array : Variant :=
  .array 1 2 8 (.cons (number_cell 2 1 "1") (.cons (number_cell 3 2 "2") .nil))

/-- A manager that binds `x` to an empty array at address 7 and `y` to a
number. -/
def mgr_xy : pcvarmgr :=
  { object := .cons (.leaf 1 .STRING 1 false 0 "x") (.array 7 1 0 .nil)
      (.cons (.leaf 2 .STRING 1 false 0 "y") (.leaf 3 .NUMBER 1 false 0 "1") .nil),
    var_observers := [] }

/-- A manager that binds `x` and `z` to the same empty array, the cell at
address 7. -/
def mgr_xz : pcvarmgr :=
  { object := .cons (.leaf 1 .STRING 1 false 0 "x") (.array 7 2 0 .nil)
      (.cons (.leaf 2 .STRING 1 false 0 "z") (.array 7 2 0 .nil) .nil),
    var_observers := [] }

instance (org mv : purc_variant_stat) (t : purc_variant_type) (bytes : Nat) :
    Decidable (transfer_fits org mv t bytes) := by
  unfold transfer_fits
  infer_instance

/-- A string cell with a 12-byte extra buffer and reference count 1. -/
def string_cell : Variant :=
  .leaf 5 .STRING 1 true 12 "hello, world"

/-- The heap of an instance that holds its four singletons and the one string
`string_cell`. -/
def heap_with_string (sizeof_variant : Nat) : pcvariant_heap :=
  { v_undefined := 0, v_null := 0, v_false := 0, v_true := 0,
    stat :=
      { nr_values := fun t => if t = .STRING then 1 else 0,
        sz_mem := fun t =>
          if t = .UNDEFINED then sizeof_variant
          else if t = .NULL then sizeof_variant
          else if t = .BOOLEAN then sizeof_variant * 2
          else if t = .STRING then sizeof_variant + 12
          else 0,
        nr_total_values := 5,
        sz_total_mem := 5 * sizeof_variant + 12 } }

/-- A memory in which every instance holds one reference to its singleton
`null` and nothing else. -/
def null_world : World :=
  { heaps := fun _ => { heap_with 40 0 0 with v_null := 1 },
    move_heap := mvheap_init_once 40, next_addr := 1000 }

/-- The move of `shared_array` out of instance 0, which holds it and its two
members, `sizeof(purc_variant)` being 40. -/
def shared_array_moved_in : MoveIn :=
  pcvariant_move_heap_in 40 0 shared_array (world_with 40 (heap_with 40 1 2))

/-- The move of `array_of_arrays` out of instance 0, which holds its five
cells, `sizeof(purc_variant)` being 40. -/
def array_of_arrays_moved_in : MoveIn :=
  pcvariant_move_heap_in 40 0 array_of_arrays (world_with 40 (heap_with 40 3 2))

/-- The move of `array_of_one` out of instance 0, which holds its two cells,
`sizeof(purc_variant)` being 40. -/
def array_of_one_moved_in : MoveIn :=
  pcvariant_move_heap_in 40 0 array_of_one (world_with 40 (heap_with 40 1 1))

/-- The memory after `array_of_one` went into the move heap and came back
to instance 0 (`none` if the move-in returned the invalid variant). -/
def array_of_one_round_trip : Option World :=
  array_of_one_moved_in.retv.map
    (fun m => (pcvariant_move_heap_out 40 0 m array_of_one_moved_in.world).2)

/-- The event of the test `instance.threads`: target THREAD, target value 1,
event string "test" (a string cell at address 10). -/
def test_event : pcrdr_msg :=
  { owner := 1, type := PCRDR_MSG_TYPE_EVENT, target := PCRDR_MSG_TARGET_THREAD,
    elementType := 0, dataType := 0, retCode := 0, targetValue := 1, resultValue := 0,
    operation := none, event := some (.leaf 10 .STRING 1 false 0 "test"),
    element := none, property := none, requestId := none, data := none }

/-- A table of three live instances with empty queues: the instances with the
atoms 1 and 3 created their move buffer with the BROADCAST flag, the instance
with the atom 2 without it. -/
def test_table : List move_buffer :=
  [ { atom := 1, flags := PCINST_MOVE_BUFFER_BROADCAST, queue := pcinst_msg_queue_create },
    { atom := 2, flags := 0, queue := pcinst_msg_queue_create },
    { atom := 3, flags := PCINST_MOVE_BUFFER_BROADCAST, queue := pcinst_msg_queue_create } ]

/-! ## Element attributes (`elements/sort.c`, `elements/erase.c`, `elements/iterate.c`) -/

/-- Modelled from the spec: the interned attribute names that the element hooks
compare with `pchvml_keyword(PCHVML_KEYWORD_ENUM(HVML, ...))` (the keyword
table is outside the given sources); `other` is any other atom. -/
inductive hvml_keyword where
  | ON | BY | WITH | AGAINST | AT | ONLYIF | WHILE | NOSETOTAIL
  | CASESENSITIVELY | CASEINSENSITIVELY | ASCENDINGLY | ASC | DESCENDINGLY | DESC
  | other (name : String)
deriving DecidableEq, Repr

deriving instance DecidableEq for Except

/-- The record `struct pcvdom_attr` as far as the hooks use it: the name of the
attribute and the result of `pcintr_eval_vdom_attr` on it, either the value or
the error that the failed evaluation leaves behind.  The evaluator is outside
the given sources.  Where the hooks read `val`, an attribute evaluates to the
same result every time; the hooks of `iterate.on_stack` take the evaluator as
a parameter that reads the stack, and `val` is then the result of an
evaluation that does not.  The name is an atom other than 0 and the operator
of the attribute is `PCHVML_ATTRIBUTE_OPERATOR`, which the hooks assert of
every attribute they are handed. -/
structure pcvdom_attr where
  key : hvml_keyword
  val : Except purc_error Variant
deriving DecidableEq

/-- The test `purc_variant_is_undefined`. -/
def purc_variant_is_undefined (v : Variant) : Bool := v.type == .UNDEFINED

/-- The test `purc_variant_is_string`. -/
def purc_variant_is_string (v : Variant) : Bool := v.type == .STRING

/-- The test `purc_variant_is_object`. -/
def purc_variant_is_object (v : Variant) : Bool := v.type == .OBJECT

/-- The members of an array or a set as a list. -/
def Members.toList : Members → List Variant
  | .nil => []
  | .cons v next => v :: next.toList

/-- The member nodes holding the variants of a list. -/
def Members.ofList : List Variant → Members
  | [] => .nil
  | v :: rest => .cons v (Members.ofList rest)

/-- The key/value nodes of an object as a list. -/
def Pairs.toList : Pairs → List (Variant × Variant)
  | .nil => []
  | .cons k v next => (k, v) :: next.toList

namespace sort

/-- The record `struct sort_key`; `key` is `none` for the null pointer. -/
structure sort_key where
  key : Option String
  by_number : Bool
deriving DecidableEq, Repr

/-- The frame context `struct ctxt_for_sort` (the fields `on`, `by`, `with`
carry an underscore, their names being reserved words here; `curr` is the
cursor of `select_child`: the index of the child that it returned last). -/
structure ctxt_for_sort where
  on_ : Option Variant
  by_ : Option Variant
  with_ : Option Variant
  against : Option Variant
  casesensitively : Bool
  ascendingly : Bool
  keys : Option (List sort_key)
  curr : Option Nat
deriving DecidableEq

/-- The function `process_attr_on` of `sort.c`: the result, the context and the
last error. -/
def process_attr_on (ctxt : ctxt_for_sort) (val : Option Variant) (err : purc_error) :
    Int × ctxt_for_sort × purc_error :=
  if ctxt.on_.isSome then (-1, ctxt, .DUPLICATED)
  else match val with
    | none => (-1, ctxt, .INVALID_VALUE)
    | some v => (0, { ctxt with on_ := some v }, err)

/-- The function `process_attr_by` of `sort.c`. -/
def process_attr_by (ctxt : ctxt_for_sort) (val : Option Variant) (err : purc_error) :
    Int × ctxt_for_sort × purc_error :=
  if ctxt.by_.isSome then (-1, ctxt, .DUPLICATED)
  else match val with
    | none => (-1, ctxt, .INVALID_VALUE)
    | some v => (0, { ctxt with by_ := some v }, err)

/-- The function `process_attr_with` of `sort.c`. -/
def process_attr_with (ctxt : ctxt_for_sort) (val : Option Variant) (err : purc_error) :
    Int × ctxt_for_sort × purc_error :=
  if ctxt.with_.isSome then (-1, ctxt, .DUPLICATED)
  else match val with
    | none => (-1, ctxt, .INVALID_VALUE)
    | some v => (0, { ctxt with with_ := some v }, err)

/-- The function `process_attr_against` of `sort.c`. -/
def process_attr_against (ctxt : ctxt_for_sort) (val : Option Variant) (err : purc_error) :
    Int × ctxt_for_sort × purc_error :=
  if ctxt.against.isSome then (-1, ctxt, .DUPLICATED)
  else match val with
    | none => (-1, ctxt, .INVALID_VALUE)
    | some v => (0, { ctxt with against := some v }, err)

/-- The assertion `PC_ASSERT(purc_variant_is_undefined(val))` that
`attr_found_val` of `sort.c` makes for each flag attribute: it holds for a
value that is the singleton `undefined`. -/
def flag_value_is_undefined (val : Option Variant) : Bool :=
  match val with
  | some v => purc_variant_is_undefined v
  | none => false

/-- The function `attr_found_val` of `sort.c`: the result, the context and the
last error.  The flag attributes (`casesensitively`, `caseinsensitively`,
`ascendingly` or `asc`, `descendingly` or `desc`) assert that their value is
undefined before they set their flag: `none` is the failed assertion. -/
def attr_found_val (ctxt : ctxt_for_sort) (name : hvml_keyword) (val : Option Variant)
    (err : purc_error) : Option (Int × ctxt_for_sort × purc_error) :=
  if name = .ON then some (process_attr_on ctxt val err)
  else if name = .BY then some (process_attr_by ctxt val err)
  else if name = .WITH then some (process_attr_with ctxt val err)
  else if name = .AGAINST then some (process_attr_against ctxt val err)
  else if name = .CASESENSITIVELY then
    if flag_value_is_undefined val then some (0, { ctxt with casesensitively := true }, err)
    else none
  else if name = .CASEINSENSITIVELY then
    if flag_value_is_undefined val then some (0, { ctxt with casesensitively := false }, err)
    else none
  else if name = .ASCENDINGLY ∨ name = .ASC then
    if flag_value_is_undefined val then some (0, { ctxt with ascendingly := true }, err)
    else none
  else if name = .DESCENDINGLY ∨ name = .DESC then
    if flag_value_is_undefined val then some (0, { ctxt with ascendingly := false }, err)
    else none
  else some (-1, ctxt, .NOT_IMPLEMENTED)

/-- The function `attr_found` of `sort.c`: an attribute whose evaluation fails
is refused before `attr_found_val` is reached; `none` is the failed assertion
of `attr_found_val`. -/
def attr_found (ctxt : ctxt_for_sort) (attr : pcvdom_attr) (err : purc_error) :
    Option (Int × ctxt_for_sort × purc_error) :=
  match attr.val with
  | .error e => some (-1, ctxt, e)
  | .ok v =>
    match attr_found_val ctxt attr.key (some v) err with
    | none => none
    | some r => some (if r.1 ≠ 0 then -1 else 0, r.2.1, r.2.2)

/-- Modelled from the spec: `pcintr_vdom_walk_attrs` with the callback
`attr_found`: the attributes are visited in document order and the walk stops
at the first callback that fails; `none` is a failed assertion of a
callback. -/
def walk_attrs (ctxt : ctxt_for_sort) (err : purc_error) :
    List pcvdom_attr → Option (Int × ctxt_for_sort × purc_error)
  | [] => some (0, ctxt, err)
  | a :: rest =>
    match attr_found ctxt a err with
    | none => none
    | some r => if r.1 ≠ 0 then some r else walk_attrs r.2.1 r.2.2 rest

end sort

namespace erase

/-- The frame context `struct ctxt_for_erase`. -/
structure ctxt_for_erase where
  on_ : Option Variant
  at_ : Option Variant
deriving DecidableEq

/-- The function `process_attr_on` of `erase.c`. -/
def process_attr_on (ctxt : ctxt_for_erase) (val : Option Variant) (err : purc_error) :
    Int × ctxt_for_erase × purc_error :=
  if ctxt.on_.isSome then (-1, ctxt, .DUPLICATED)
  else match val with
    | none => (-1, ctxt, .INVALID_VALUE)
    | some v => (0, { ctxt with on_ := some v }, err)

/-- The function `process_attr_at` of `erase.c`. -/
def process_attr_at (ctxt : ctxt_for_erase) (val : Option Variant) (err : purc_error) :
    Int × ctxt_for_erase × purc_error :=
  if ctxt.at_.isSome then (-1, ctxt, .DUPLICATED)
  else match val with
    | none => (-1, ctxt, .INVALID_VALUE)
    | some v => (0, { ctxt with at_ := some v }, err)

/-- The function `attr_found_val` of `erase.c`. -/
def attr_found_val (ctxt : ctxt_for_erase) (name : hvml_keyword) (val : Option Variant)
    (err : purc_error) : Int × ctxt_for_erase × purc_error :=
  if name = .ON then process_attr_on ctxt val err
  else if name = .AT then process_attr_at ctxt val err
  else (-1, ctxt, .NOT_IMPLEMENTED)

/-- The function `attr_found` of `erase.c`. -/
def attr_found (ctxt : ctxt_for_erase) (attr : pcvdom_attr) (err : purc_error) :
    Int × ctxt_for_erase × purc_error :=
  match attr.val with
  | .error e => (-1, ctxt, e)
  | .ok v =>
    let r := attr_found_val ctxt attr.key (some v) err
    (if r.1 ≠ 0 then -1 else 0, r.2.1, r.2.2)

/-- Modelled from the spec: `pcintr_vdom_walk_attrs` with the callback
`attr_found` of `erase.c`. -/
def walk_attrs (ctxt : ctxt_for_erase) (err : purc_error) :
    List pcvdom_attr → Int × ctxt_for_erase × purc_error
  | [] => (0, ctxt, err)
  | a :: rest =>
    let r := attr_found ctxt a err
    if r.1 ≠ 0 then r else walk_attrs r.2.1 r.2.2 rest

end erase

/-! ## The iterate element (`elements/iterate.c`) -/

namespace iterate

/-- Modelled from the spec: the operations of an executor (`struct
purc_exec_ops` of `purc-executor.h`, section 4.E: "the executor plugin
supplies create/begin/next/value/destroy").  An instance is of type `Inst`, an
iterator of type `Iter` carries the position; an operation that returns null
leaves an error behind. -/
structure purc_exec_ops (Inst Iter : Type) where
  create : Variant → Except purc_error Inst
  it_begin : Inst → String → Except purc_error Iter
  it_value : Inst → Iter → Except purc_error Variant
  it_next : Inst → Iter → Option String → Except purc_error Iter
  destroy : Inst → Bool

/-- The frame context `struct ctxt_for_iterate`; `curr` is the index of the
child that `select_child` returned last. -/
structure ctxt_for_iterate (Inst Iter : Type) where
  curr : Option Nat
  on_ : Option Variant
  onlyif_attr : Option pcvdom_attr
  while_attr : Option pcvdom_attr
  with_attr : Option pcvdom_attr
  rule_attr : Option pcvdom_attr
  with_ : Option Variant
  ops : Option (purc_exec_ops Inst Iter)
  exec_inst : Option Inst
  it : Option Iter
  stop : Bool
  with_set : Bool
  by_set : Bool
  nosetotail : Bool

/-- The zeroed context that `calloc` returns in `after_pushed`. -/
def ctxt_for_iterate.calloc {Inst Iter : Type} : ctxt_for_iterate Inst Iter :=
  { curr := none, on_ := none, onlyif_attr := none, while_attr := none, with_attr := none,
    rule_attr := none, with_ := none, ops := none, exec_inst := none, it := none,
    stop := false, with_set := false, by_set := false, nosetotail := false }

/-- The function `process_attr_on` of `iterate.c` (the input variable of the
stack, set by `pcintr_set_input_var`, is not represented). -/
def process_attr_on {Inst Iter : Type} (ctxt : ctxt_for_iterate Inst Iter)
    (val : Option Variant) (err : purc_error) :
    Int × ctxt_for_iterate Inst Iter × purc_error :=
  if ctxt.on_.isSome then (-1, ctxt, .DUPLICATED)
  else match val with
    | none => (-1, ctxt, .INVALID_VALUE)
    | some v => (0, { ctxt with on_ := some v }, err)

/-- The function `process_attr_by` of `iterate.c`. -/
def process_attr_by {Inst Iter : Type} (ctxt : ctxt_for_iterate Inst Iter)
    (val : Option Variant) (attr : pcvdom_attr) (err : purc_error) :
    Int × ctxt_for_iterate Inst Iter × purc_error :=
  if ctxt.with_set then (-1, ctxt, .NOT_SUPPORTED)
  else if ctxt.rule_attr.isSome then (-1, ctxt, .DUPLICATED)
  else match val with
    | none => (-1, ctxt, .INVALID_VALUE)
    | some _ => (0, { ctxt with rule_attr := some attr, by_set := true }, err)

/-- The function `process_attr_onlyif` of `iterate.c`; the value is unused. -/
def process_attr_onlyif {Inst Iter : Type} (ctxt : ctxt_for_iterate Inst Iter)
    (_val : Option Variant) (attr : pcvdom_attr) (err : purc_error) :
    Int × ctxt_for_iterate Inst Iter × purc_error :=
  if ctxt.by_set then (-1, ctxt, .NOT_SUPPORTED)
  else if ctxt.onlyif_attr.isSome then (-1, ctxt, .DUPLICATED)
  else (0, { ctxt with onlyif_attr := some attr, with_set := true }, err)

/-- The function `process_attr_while` of `iterate.c`; the value is unused. -/
def process_attr_while {Inst Iter : Type} (ctxt : ctxt_for_iterate Inst Iter)
    (_val : Option Variant) (attr : pcvdom_attr) (err : purc_error) :
    Int × ctxt_for_iterate Inst Iter × purc_error :=
  if ctxt.by_set then (-1, ctxt, .NOT_SUPPORTED)
  else if ctxt.while_attr.isSome then (-1, ctxt, .DUPLICATED)
  else (0, { ctxt with while_attr := some attr, with_set := true }, err)

/-- The function `process_attr_with` of `iterate.c`; the value is unused. -/
def process_attr_with {Inst Iter : Type} (ctxt : ctxt_for_iterate Inst Iter)
    (_val : Option Variant) (attr : pcvdom_attr) (err : purc_error) :
    Int × ctxt_for_iterate Inst Iter × purc_error :=
  if ctxt.with_attr.isSome then (-1, ctxt, .DUPLICATED)
  else (0, { ctxt with with_attr := some attr, with_set := true }, err)

/-- The function `attr_found_val` of `iterate.c`. -/
def attr_found_val {Inst Iter : Type} (ctxt : ctxt_for_iterate Inst Iter)
    (name : hvml_keyword) (val : Option Variant) (attr : pcvdom_attr) (err : purc_error) :
    Int × ctxt_for_iterate Inst Iter × purc_error :=
  if name = .ON then process_attr_on ctxt val err
  else if name = .BY then process_attr_by ctxt val attr err
  else if name = .ONLYIF then process_attr_onlyif ctxt val attr err
  else if name = .WHILE then process_attr_while ctxt val attr err
  else if name = .WITH then process_attr_with ctxt val attr err
  else if name = .NOSETOTAIL then (0, { ctxt with nosetotail := true }, err)
  else (-1, ctxt, .NOT_IMPLEMENTED)

/-- The function `attr_found` of `iterate.c`. -/
def attr_found {Inst Iter : Type} (ctxt : ctxt_for_iterate Inst Iter)
    (attr : pcvdom_attr) (err : purc_error) :
    Int × ctxt_for_iterate Inst Iter × purc_error :=
  match attr.val with
  | .error e => (-1, ctxt, e)
  | .ok v =>
    let r := attr_found_val ctxt attr.key (some v) attr err
    (if r.1 ≠ 0 then -1 else 0, r.2.1, r.2.2)

/-- Modelled from the spec: `pcintr_vdom_walk_attrs` with the callback
`attr_found` of `iterate.c`: the attributes are visited in document order and
the walk stops at the first callback that fails. -/
def walk_attrs {Inst Iter : Type} (ctxt : ctxt_for_iterate Inst Iter) (err : purc_error) :
    List pcvdom_attr → Int × ctxt_for_iterate Inst Iter × purc_error
  | [] => (0, ctxt, err)
  | a :: rest =>
    let r := attr_found ctxt a err
    if r.1 ≠ 0 then r else walk_attrs r.2.1 r.2.2 rest

/-- The part of `struct pcintr_stack_frame` that the hooks of `iterate.c` use:
the context and the symbol variables `?` and `%`. -/
structure frame (Inst Iter : Type) where
  ctxt : Option (ctxt_for_iterate Inst Iter)
  question_var : Option Variant
  percent_var : Nat

/-- Modelled from the spec: `pcintr_set_question_var` ("the loop variable `?`
is set from `value`"); it succeeds. -/
def pcintr_set_question_var {Inst Iter : Type} (fr : frame Inst Iter) (val : Variant) :
    frame Inst Iter :=
  { fr with question_var := some val }

/-- Modelled from the spec: `pcintr_inc_percent_var` ("the counter `%`
incremented on each iteration"); it succeeds. -/
def pcintr_inc_percent_var {Inst Iter : Type} (fr : frame Inst Iter) : frame Inst Iter :=
  { fr with percent_var := fr.percent_var + 1 }

/-- The functions of other modules that the hooks call: the executor registry
`purc_get_executor`, the cast `purc_variant_cast_to_longint` (value and the
flag `force`) and the instance whose `undefined` singleton
`purc_variant_make_undefined` returns. -/
structure externals (Inst Iter : Type) where
  purc_get_executor : String → Except purc_error (purc_exec_ops Inst Iter)
  purc_variant_cast_to_longint : Variant → Bool → Option Int
  inst : Nat

/-- The rule that `post_process_by_rule` and `on_popping` read from the
attribute `by`: no rule without the attribute, otherwise the characters of its
value; a failed evaluation leaves its error behind, a value that is not a
string leaves the last error as it is. -/
def eval_rule (rule_attr : Option pcvdom_attr) (err : purc_error) :
    Except purc_error (Option String) :=
  match rule_attr with
  | none => .ok none
  | some a =>
    match a.val with
    | .error e => .error e
    | .ok val =>
      match purc_variant_get_string_const val with
      | none => .error err
      | some s => .ok (some s)

/-- The function `check_stop`. -/
def check_stop (val : Variant) : Bool :=
  if purc_variant_is_undefined val then true
  else if val.type == .NULL then true
  else if val.type == .BOOLEAN then
    (match val with
     | .single _ .v_false => true
     | _ => false)
  else false

/-- The function `check_onlyif`: `none` is a failed `PC_ASSERT` (the process
aborts), otherwise the result and the flag `*stop`. -/
def check_onlyif {Inst Iter : Type} (E : externals Inst Iter) (onlyif : pcvdom_attr) :
    Option (Int × Bool) :=
  match onlyif.val with
  | .error _ => none
  | .ok val =>
    match E.purc_variant_cast_to_longint val true with
    | none => some (-1, false)
    | some i64 => some (0, if i64 ≠ 0 then false else true)

/-- The function `check_while`: the result and the flag `*stop`. -/
def check_while {Inst Iter : Type} (E : externals Inst Iter) (_while : pcvdom_attr) :
    Int × Bool :=
  match _while.val with
  | .error _ => (-1, false)
  | .ok val =>
    match E.purc_variant_cast_to_longint val false with
    | none => (-1, false)
    | some i64 => (0, if i64 ≠ 0 then false else true)

/-- The function `re_eval_with`: `none` is a failed `PC_ASSERT`, otherwise the
result, the flag `*stop` and the frame. -/
def re_eval_with {Inst Iter : Type} (fr : frame Inst Iter) (with_ : pcvdom_attr) :
    Option (Int × Bool × frame Inst Iter) :=
  match with_.val with
  | .error _ => none
  | .ok val =>
    if check_stop val then none
    else some (0, false, pcintr_set_question_var fr val)

/-- The function `post_process` (the mode of `with`, `onlyif`, `while`): `none`
is a failed `PC_ASSERT`, otherwise the result, the context, the frame and the
last error. -/
def post_process {Inst Iter : Type} (E : externals Inst Iter)
    (ctxt : ctxt_for_iterate Inst Iter) (fr : frame Inst Iter) (err : purc_error) :
    Option (Int × ctxt_for_iterate Inst Iter × frame Inst Iter × purc_error) :=
  if ctxt.by_set then none
  else if ctxt.on_.isNone then some (-1, ctxt, fr, .ARGUMENT_MISSED)
  else
    let guard : Option Bool :=
      match ctxt.onlyif_attr with
      | none => some false
      | some a =>
        match check_onlyif E a with
        | none => none
        | some (r, stop) => if r ≠ 0 then none else some stop
    match guard with
    | none => none
    | some true => some (0, { ctxt with stop := true }, fr, err)
    | some false =>
      match ctxt.with_attr with
      | none => none
      | some a =>
        match re_eval_with fr a with
        | none => none
        | some (r, stop, fr1) =>
          if r ≠ 0 then none
          else if stop then none
          else some (0, ctxt, fr1, err)

/-- The function `post_process_by_rule` (the mode of a rule): the result, the
context, the frame and the last error. -/
def post_process_by_rule {Inst Iter : Type} (E : externals Inst Iter)
    (ctxt : ctxt_for_iterate Inst Iter) (fr : frame Inst Iter) (err : purc_error) :
    Int × ctxt_for_iterate Inst Iter × frame Inst Iter × purc_error :=
  match ctxt.on_ with
  | none => (-1, ctxt, fr, .ARGUMENT_MISSED)
  | some on_v =>
    let with_ : Except purc_error Variant :=
      match ctxt.with_attr with
      | some a => a.val
      | none => .ok (.single (.inst E.inst) .v_undefined)
    match with_ with
    | .error e => (-1, ctxt, fr, e)
    | .ok w =>
      let ctxt1 := { ctxt with with_ := some w }
      match eval_rule ctxt1.rule_attr err with
      | .error e => (-1, ctxt1, fr, e)
      | .ok r =>
        let rule := r.getD "RANGE: FROM 0"
        match E.purc_get_executor rule with
        | .error e => (-1, ctxt1, fr, e)
        | .ok ops =>
          let ctxt2 := { ctxt1 with ops := some ops }
          match ops.create on_v with
          | .error e => (-1, ctxt2, fr, e)
          | .ok exec_inst =>
            let ctxt3 := { ctxt2 with exec_inst := some exec_inst }
            match ops.it_begin exec_inst rule with
            | .error e => (-1, ctxt3, fr, e)
            | .ok it =>
              let ctxt4 := { ctxt3 with it := some it }
              match ops.it_value exec_inst it with
              | .error e => (-1, ctxt4, fr, e)
              | .ok value => (0, ctxt4, pcintr_set_question_var fr value, err)

/-- The hook `after_pushed` of `iterate.c` for a stack without a pending
exception: `none` is a failed `PC_ASSERT`, otherwise the frame (with its
context) and the last error. -/
def after_pushed {Inst Iter : Type} (E : externals Inst Iter) (attrs : List pcvdom_attr)
    (fr : frame Inst Iter) (err : purc_error) : Option (frame Inst Iter × purc_error) :=
  let r := walk_attrs ctxt_for_iterate.calloc err attrs
  if r.1 ≠ 0 then some ({ fr with ctxt := some r.2.1 }, r.2.2)
  else
    let ctxt := r.2.1
    let ctxt := if ctxt.by_set = false ∧ ctxt.with_set = false then { ctxt with by_set := true }
      else ctxt
    if ctxt.by_set then
      let p := post_process_by_rule E ctxt fr .OK
      some ({ p.2.2.1 with ctxt := some p.2.1 }, p.2.2.2)
    else
      match post_process E ctxt fr .OK with
      | none => none
      | some p => some ({ p.2.2.1 with ctxt := some p.2.1 }, p.2.2.2)

/-- The function `on_popping_with`: `none` is a failed `PC_ASSERT`. -/
def on_popping_with {Inst Iter : Type} (E : externals Inst Iter)
    (ctxt : ctxt_for_iterate Inst Iter) (fr : frame Inst Iter) (err : purc_error) :
    Option (Bool × frame Inst Iter × purc_error) :=
  if ctxt.stop then some (true, fr, err)
  else
    let guard : Option Bool :=
      match ctxt.while_attr with
      | none => some false
      | some a => if (check_while E a).1 ≠ 0 then none else some (check_while E a).2
    match guard with
    | none => none
    | some true => some (true, { fr with ctxt := some { ctxt with stop := true } }, err)
    | some false =>
      if ctxt.with_attr.isNone then none
      else some (false, pcintr_inc_percent_var fr, err)

/-- The hook `on_popping` of `iterate.c`: `none` is a failed `PC_ASSERT` or a
call through a null function pointer, otherwise the result, the frame and the
last error. -/
def on_popping {Inst Iter : Type} (E : externals Inst Iter) (fr : frame Inst Iter)
    (err : purc_error) : Option (Bool × frame Inst Iter × purc_error) :=
  match fr.ctxt with
  | none => some (true, fr, err)
  | some ctxt =>
    if ctxt.by_set = false then on_popping_with E ctxt fr err
    else
      match ctxt.exec_inst, ctxt.it with
      | none, _ => some (true, fr, err)
      | some _, none => some (true, fr, err)
      | some exec_inst, some it =>
        match eval_rule ctxt.rule_attr err with
        | .error e => some (true, fr, e)
        | .ok rule =>
          match ctxt.ops with
          | none => none
          | some ops =>
            match ops.it_next exec_inst it rule with
            | .error e =>
              some (true, { fr with ctxt := some { ctxt with it := none } },
                if e = .NOT_EXISTS then .OK else e)
            | .ok it1 => some (false, { fr with ctxt := some { ctxt with it := some it1 } }, err)

/-- The function `rerun_with`: `none` is a failed `PC_ASSERT` (the input
variable that `nosetotail` feeds is not represented). -/
def rerun_with {Inst Iter : Type} (E : externals Inst Iter)
    (ctxt : ctxt_for_iterate Inst Iter) (fr : frame Inst Iter) (err : purc_error) :
    Option (Bool × frame Inst Iter × purc_error) :=
  match ctxt.with_attr with
  | none => none
  | some w =>
    let guard : Option Bool :=
      match ctxt.onlyif_attr with
      | none => some false
      | some a =>
        match check_onlyif E a with
        | none => none
        | some (r, stop) => if r ≠ 0 then none else some stop
    match guard with
    | none => none
    | some true => some (true, { fr with ctxt := some { ctxt with stop := true } }, err)
    | some false =>
      match re_eval_with fr w with
      | none => none
      | some (r, stop, fr1) =>
        if r ≠ 0 then none
        else if stop then none
        else some (true, fr1, err)

/-- The hook `rerun` of `iterate.c`: `none` is a failed `PC_ASSERT` or a call
through a null function pointer. -/
def rerun {Inst Iter : Type} (E : externals Inst Iter) (fr : frame Inst Iter)
    (err : purc_error) : Option (Bool × frame Inst Iter × purc_error) :=
  match fr.ctxt with
  | none => some (false, fr, err)
  | some ctxt =>
    if ctxt.with_set then rerun_with E ctxt fr err
    else
      match ctxt.exec_inst with
      | none => none
      | some exec_inst =>
        let fr1 := pcintr_inc_percent_var fr
        match ctxt.it with
        | none => none
        | some it =>
          match ctxt.ops with
          | none => none
          | some ops =>
            match ops.it_value exec_inst it with
            | .error e => some (false, fr1, e)
            | .ok value => some (true, pcintr_set_question_var fr1 value, err)

/-- The kinds of child node that `select_child` meets below an element. -/
inductive pcvdom_node where
  | element (id : Nat)
  | content
  | comment
deriving DecidableEq, Repr

/-- The loop `again:` of `select_child`: the first element among the nodes,
the head of which has index `i`, with its index. -/
def next_element : List pcvdom_node → Nat → Option (Nat × Nat)
  | [], _ => none
  | .element id :: _, i => some (i, id)
  | .content :: rest, i => next_element rest (i + 1)
  | .comment :: rest, i => next_element rest (i + 1)

/-- The hook `select_child` of `iterate.c` on an element with the given
children, for a stack without a back anchor: the selected element (`none` for
the null pointer), the frame and the last error. -/
def select_child {Inst Iter : Type} (children : List pcvdom_node) (fr : frame Inst Iter)
    (err : purc_error) : Option Nat × frame Inst Iter × purc_error :=
  match fr.ctxt with
  | none => (none, fr, err)
  | some ctxt =>
    if ctxt.stop then (none, fr, err)
    else
      let start := match ctxt.curr with
        | none => 0
        | some i => i + 1
      match next_element (children.drop start) start with
      | none => (none, { fr with ctxt := some { ctxt with curr := none } }, .OK)
      | some (i, id) => (some id, { fr with ctxt := some { ctxt with curr := some i } }, err)

/-! ### The run of an iterate frame -/

/-- How the run of a frame ends: with a result, with an abort of the process
(a failed `PC_ASSERT`), or with the fuel of the embedding used up. -/
inductive Run (α : Type) where
  | done (a : α)
  | abort
  | out_of_fuel

/-- What the run of an iterate frame leaves: for every run of the body the
values of `?` and `%` at its start and the child elements it visited, the
frame and the last error. -/
structure loop_result (Inst Iter : Type) where
  runs : List (Option Variant × Nat × List Nat)
  frame : frame Inst Iter
  err : purc_error

/-- Modelled from the spec: one run of the body (section 4.E, `select_child`
"to pick next child to visit", "next element or null"): the hook is called
until it returns null; the children run in frames of their own and leave this
frame and the last error as they are. -/
def select_children {Inst Iter : Type} (children : List pcvdom_node) :
    Nat → frame Inst Iter → purc_error → List Nat × frame Inst Iter × purc_error
  | 0, fr, err => ([], fr, err)
  | n + 1, fr, err =>
    match select_child children fr err with
    | (none, fr1, err1) => ([], fr1, err1)
    | (some id, fr1, err1) =>
      let r := select_children children n fr1 err1
      (id :: r.1, r.2.1, r.2.2)

/-- Modelled from the spec: the loop of the interpreter over a frame that has
been pushed (section 4.E, the table of hooks): the children are selected, then
`on_popping` is asked; when it answers false the frame stays, `rerun` is
called and, when it answers to keep going, the children are selected again. -/
def run_loop {Inst Iter : Type} (E : externals Inst Iter) (children : List pcvdom_node) :
    Nat → frame Inst Iter → purc_error → List (Option Variant × Nat × List Nat) →
    Run (loop_result Inst Iter)
  | 0, _, _, _ => .out_of_fuel
  | n + 1, fr, err, acc =>
    let s := select_children children (children.length + 1) fr err
    let acc1 := acc ++ [(fr.question_var, fr.percent_var, s.1)]
    match on_popping E s.2.1 s.2.2 with
    | none => .abort
    | some (true, fr2, err2) => .done ⟨acc1, fr2, err2⟩
    | some (false, fr2, err2) =>
      match rerun E fr2 err2 with
      | none => .abort
      | some (false, fr3, err3) => .done ⟨acc1, fr3, err3⟩
      | some (true, fr3, err3) => run_loop E children n fr3 err3 acc1

/-- Modelled from the spec: the run of an iterate element: `after_pushed`, and,
unless it leaves an error (section 4.E, "Failure semantics"), the loop. -/
def run_iterate {Inst Iter : Type} (E : externals Inst Iter) (attrs : List pcvdom_attr)
    (children : List pcvdom_node) (fuel : Nat) (fr : frame Inst Iter) (err : purc_error) :
    Run (loop_result Inst Iter) :=
  match after_pushed E attrs fr err with
  | none => .abort
  | some (fr1, err1) =>
    if err1 ≠ .OK then .done ⟨[], fr1, err1⟩
    else run_loop E children fuel fr1 err1 []

/-- The child elements of an element, in document order. -/
def child_elements : List pcvdom_node → List Nat
  | [] => []
  | .element id :: rest => id :: child_elements rest
  | .content :: rest => child_elements rest
  | .comment :: rest => child_elements rest

/-- An iterator of an executor yields the values `vs` and then ends with the
error `e`: `it_value` gives the first value, `it_next` gives an iterator for
the rest or, after the last value, null with `e`. -/
def yields {Inst Iter : Type} (ops : purc_exec_ops Inst Iter) (inst : Inst)
    (rule : Option String) (e : purc_error) : Iter → List Variant → Prop
  | _, [] => False
  | it, [v] => ops.it_value inst it = .ok v ∧ ops.it_next inst it rule = .error e
  | it, v :: w :: rest =>
    ops.it_value inst it = .ok v ∧
      ∃ it1, ops.it_next inst it rule = .ok it1 ∧ yields ops inst rule e it1 (w :: rest)

/-- The runs of the body that the values `vs` give: the `i`-th run has the
`i`-th value in `?` and `p + i` in `%`, and visits the child elements. -/
def runs_of (ids : List Nat) : List Variant → Nat → List (Option Variant × Nat × List Nat)
  | [], _ => []
  | v :: rest, p => (some v, p, ids) :: runs_of ids rest (p + 1)

/-- Modelled from the spec: the executor of the rule `RANGE: FROM 0` on an
array (scenario 3 of section 8): an instance holds the members, an iterator is
an index that starts at 0 and advances by one; past the last member `it_next`
returns null with `NOT_EXISTS`. -/
def range_ops : purc_exec_ops (List Variant) Nat where
  create := (fun v => match v with | .array _ _ _ elems => .ok elems.toList | _ => .error .INVALID_VALUE)
  it_begin := (fun inst _ => if 0 < inst.length then .ok 0 else .error .NOT_EXISTS)
  it_value := (fun inst i => match inst.get? i with | some v => .ok v | none => .error .NOT_EXISTS)
  it_next := (fun inst i _ => if i + 1 < inst.length then .ok (i + 1) else .error .NOT_EXISTS)
  destroy := (fun _ => true)

/-- The other modules of the example: the registry knows the rule
`RANGE: FROM 0`, no value casts to a long integer. -/
def range_externals : externals (List Variant) Nat where
  purc_get_executor := (fun rule => if rule = "RANGE: FROM 0" then .ok range_ops else .error .NOT_EXISTS)
  purc_variant_cast_to_longint := (fun _ _ => none)
  inst := 0

/-- A number cell of the example. -/
def num (addr : Nat) (d : String) : Variant := .leaf addr .NUMBER 1 false 0 d

/-- The array `[3, 1, 2]`. -/
def array_3_1_2 : Variant :=
  .array 10 1 0 (.cons (num 11 "3") (.cons (num 12 "1") (.cons (num 13 "2") .nil)))

/-- The attributes `on=[3,1,2] by="RANGE: FROM 0"`. -/
def attrs_on_by : List pcvdom_attr :=
  [⟨.ON, .ok array_3_1_2⟩, ⟨.BY, .ok (purc_variant_make_string 14 "RANGE: FROM 0")⟩]

/-- The attributes `on=[3,1,2] by="RANGE: FROM 0" with=1`. -/
def attrs_on_by_with : List pcvdom_attr :=
  [⟨.ON, .ok array_3_1_2⟩, ⟨.BY, .ok (purc_variant_make_string 14 "RANGE: FROM 0")⟩,
   ⟨.WITH, .ok (num 15 "1")⟩]

/-- The attributes `on=[3,1,2] with=1 by="RANGE: FROM 0"`. -/
def attrs_on_with_by : List pcvdom_attr :=
  [⟨.ON, .ok array_3_1_2⟩, ⟨.WITH, .ok (num 15 "1")⟩,
   ⟨.BY, .ok (purc_variant_make_string 14 "RANGE: FROM 0")⟩]

/-- A new frame: no context, `?` unset, `%` zero. -/
def new_frame {Inst Iter : Type} : frame Inst Iter :=
  { ctxt := none, question_var := none, percent_var := 0 }

/-! ### Examples for the iterate element -/

/-- The attributes `on=[3,1,2] by="RANGE: FROM 0" with=7`. -/
def attrs_on_by_with7 : List pcvdom_attr :=
  [⟨.ON, .ok array_3_1_2⟩, ⟨.BY, .ok (purc_variant_make_string 14 "RANGE: FROM 0")⟩,
   ⟨.WITH, .ok (num 15 "7")⟩]

/-- The context after the attributes `on`, `by`, `with` in this order. -/
def walk_on_by_with : Int × ctxt_for_iterate (List Variant) Nat × purc_error :=
  walk_attrs ctxt_for_iterate.calloc .OK attrs_on_by_with

/-- The context after the attributes `on`, `with`, `by` in this order. -/
def walk_on_with_by : Int × ctxt_for_iterate (List Variant) Nat × purc_error :=
  walk_attrs ctxt_for_iterate.calloc .OK attrs_on_with_by

/-- The runs of the body that a run of a frame reports, if it ends. -/
def Run.runs {Inst Iter : Type} : Run (loop_result Inst Iter) →
    Option (List (Option Variant × Nat × List Nat))
  | .done r => some r.runs
  | .abort => none
  | .out_of_fuel => none

/-- The last error that a run of a frame reports, if it ends. -/
def Run.err {Inst Iter : Type} : Run (loop_result Inst Iter) → Option purc_error
  | .done r => some r.err
  | .abort => none
  | .out_of_fuel => none

end iterate

/-- Whether `attr_found_val` of `sort.c` has recorded a value attribute in the
context. -/
def sort.recorded (ctxt : sort.ctxt_for_sort) : hvml_keyword → Bool
  | .ON => ctxt.on_.isSome
  | .BY => ctxt.by_.isSome
  | .WITH => ctxt.with_.isSome
  | .AGAINST => ctxt.against.isSome
  | _ => false

/-- Whether `attr_found_val` of `erase.c` has recorded a value attribute in the
context. -/
def erase.recorded (ctxt : erase.ctxt_for_erase) : hvml_keyword → Bool
  | .ON => ctxt.on_.isSome
  | .AT => ctxt.at_.isSome
  | _ => false

/-- Whether `attr_found_val` of `iterate.c` has recorded a value attribute in
the context. -/
def iterate.recorded {Inst Iter : Type} (ctxt : iterate.ctxt_for_iterate Inst Iter) :
    hvml_keyword → Bool
  | .ON => ctxt.on_.isSome
  | .BY => ctxt.rule_attr.isSome
  | .WITH => ctxt.with_attr.isSome
  | .ONLYIF => ctxt.onlyif_attr.isSome
  | .WHILE => ctxt.while_attr.isSome
  | _ => false

/-! ## The erase element (`elements/erase.c`) -/

/-- The tokens that repeated calls of `strtok_r(ctxt, " ", &ctxt)` return: the
maximal runs of characters other than the blank; `cur` holds the characters of
the token being read. -/
def strtok_r_all : List Char → List Char → List String
  | [], cur => if cur.isEmpty then [] else [String.mk cur]
  | c :: rest, cur =>
    if c = ' ' then
      (if cur.isEmpty then strtok_r_all rest [] else String.mk cur :: strtok_r_all rest [])
    else strtok_r_all rest (cur ++ [c])

namespace erase

/-- The test `isspace` of the C library in the "C" locale. -/
def isspace (c : Char) : Bool :=
  c.toNat = 32 || (9 ≤ c.toNat && c.toNat ≤ 13)

/-- The value of the longest prefix of decimal digits, after `acc`. -/
def digits_value : List Char → Nat → Nat
  | [], acc => acc
  | c :: rest, acc =>
    if 48 ≤ c.toNat ∧ c.toNat ≤ 57 then digits_value rest (acc * 10 + (c.toNat - 48)) else acc

/-- The call `strtoll(s, NULL, 10)` of the C library: blanks are skipped, a
sign is read, then the longest run of decimal digits; what follows is ignored;
without a digit the value is 0.  The result is the value and whether `errno`
is set (to `ERANGE`, the value being clamped to the range of `long long`). -/
def strtoll (s : List Char) : Int × Bool :=
  let s1 := s.dropWhile isspace
  let neg := s1.head? = some '-'
  let s2 := if s1.head? = some '-' ∨ s1.head? = some '+' then s1.tail else s1
  let n := digits_value s2 0
  if neg then (if 9223372036854775808 < n then (-9223372036854775808, true) else (-(n : Int), false))
  else (if 9223372036854775807 < n then (9223372036854775807, true) else ((n : Int), false))

/-- The value that `erase` hands to `?`: what `purc_variant_make_ulongint` or
`purc_variant_make_boolean` was called with, or the variant that a native
eraser returned. -/
inductive made where
  | ulongint (n : Nat)
  | boolean (b : Bool)
  | native (v : Variant)
deriving DecidableEq

/-- Modelled from the spec: `purc_variant_array_get_size` and
`purc_variant_set_get_size` ("size"): the number of members. -/
def container_size : Variant → Nat
  | .array _ _ _ elems => elems.toList.length
  | .set _ _ _ elems => elems.toList.length
  | .object _ _ _ kvs => kvs.toList.length
  | _ => 0

/-- Modelled from the spec: `purc_variant_array_remove` and
`purc_variant_set_remove_by_index` ("remove"): the member at the index leaves
the container; the call succeeds for an index below the size. -/
def container_remove : Variant → Nat → Variant
  | .array a r sz elems, i => .array a r sz (Members.ofList (elems.toList.eraseIdx i))
  | .set a r sz elems, i => .set a r sz (Members.ofList (elems.toList.eraseIdx i))
  | v, _ => v

/-- Modelled from the spec: `pcvariant_array_clear`, `pcvariant_set_clear` and
`pcvariant_object_clear` ("clear"): no member stays; the call succeeds. -/
def container_clear : Variant → Variant
  | .array a r sz _ => .array a r sz .nil
  | .set a r sz _ => .set a r sz .nil
  | .object a r sz _ => .object a r sz .nil
  | v => v

/-- Modelled from the spec: `purc_variant_object_remove_by_static_ckey`
("remove"): the key leaves the object; the call reports whether the key was
there (what it reports for an absent key under `silently` is not in the given
sources). -/
def object_remove_by_static_ckey (obj : Variant) (key : String) : Bool × Variant :=
  match obj with
  | .object a r sz kvs =>
    ((pairs_get_by_ckey kvs key).isSome, .object a r sz (pairs_remove kvs key))
  | v => (false, v)

/-- The loop of `object_erase` over the tokens of `at`: a token that starts
with a dot names a key to remove; the count of removals and the object. -/
def object_erase_tokens : List String → Variant → Nat → Nat × Variant
  | [], obj, n => (n, obj)
  | token :: rest, obj, n =>
    if token.data.head? = some '.' then
      (let r := object_remove_by_static_ckey obj (String.mk token.data.tail)
       object_erase_tokens rest r.2 (if r.1 then n + 1 else n))
    else object_erase_tokens rest obj n

/-- The function `object_erase`: the result (`none` is
`PURC_VARIANT_INVALID`), the object and the last error. -/
def object_erase (on_v : Variant) (at_ : Option Variant) (_silently : Bool)
    (err : purc_error) : Option made × Variant × purc_error :=
  match at_ with
  | some a =>
    if purc_variant_is_string a = false then (none, on_v, .INVALID_VALUE)
    else
      let s_at := (purc_variant_get_string_const a).getD ""
      let r := object_erase_tokens (strtok_r_all s_at.data []) on_v 0
      (some (.ulongint r.1), r.2, err)
  | none =>
    let sz := container_size on_v
    if 0 < sz then (some (.ulongint sz), container_clear on_v, err)
    else (some (.ulongint 0), on_v, err)

/-- The function `array_erase`: the result, the array and the last error. -/
def array_erase (on_v : Variant) (at_ : Option Variant) (_silently : Bool)
    (err : purc_error) : Option made × Variant × purc_error :=
  match at_ with
  | some a =>
    if purc_variant_is_string a = false then (none, on_v, .INVALID_VALUE)
    else
      let s := ((purc_variant_get_string_const a).getD "").data
      if s.length ≤ 2 ∨ s.head? ≠ some '[' ∨ s.getLast? ≠ some ']' then
        (none, on_v, .INVALID_VALUE)
      else
        let r := strtoll s.tail
        if r.2 = true ∨ r.1 < 0 then (none, on_v, .INVALID_VALUE)
        else if r.1.toNat < container_size on_v then
          (some (.ulongint 0), container_remove on_v r.1.toNat, err)
        else (none, on_v, .INVALID_VALUE)
  | none => (some (.boolean true), container_clear on_v, err)

/-- The function `set_erase`: the result, the set and the last error. -/
def set_erase (on_v : Variant) (at_ : Option Variant) (_silently : Bool)
    (err : purc_error) : Option made × Variant × purc_error :=
  match at_ with
  | some a =>
    if purc_variant_is_string a = false then (none, on_v, .INVALID_VALUE)
    else
      let s := ((purc_variant_get_string_const a).getD "").data
      if s.length ≤ 2 ∨ s.head? ≠ some '[' ∨ s.getLast? ≠ some ']' then
        (none, on_v, .INVALID_VALUE)
      else
        let r := strtoll s.tail
        if r.2 = true ∨ r.1 < 0 then (none, on_v, .INVALID_VALUE)
        else if r.1.toNat < container_size on_v then
          (some (.ulongint 0), container_remove on_v r.1.toNat, err)
        else (none, on_v, .INVALID_VALUE)
  | none => (some (.boolean true), container_clear on_v, err)

/-- An element of the target document: its attributes by name. -/
structure pcdom_element where
  attrs : List (String × String)
deriving DecidableEq, Repr

/-- Whether an element carries an attribute of the name. -/
def has_attribute (el : pcdom_element) (name : String) : Bool :=
  el.attrs.any (fun kv => kv.1 = name)

/-- Modelled from the spec: `pcintr_util_remove_attribute`, which is outside
the given sources ("remove that attribute from each match", "return value
equals the number removed"): the attribute of the name leaves the element, the
other attributes stay, and the call reports `PURC_ERROR_OK` exactly when the
element carried the attribute. -/
def pcintr_util_remove_attribute (el : pcdom_element) (name : String) :
    purc_error × pcdom_element :=
  (if has_attribute el name then .OK else .NOT_FOUND,
    ⟨el.attrs.filter (fun kv => kv.1 ≠ name)⟩)

/-- The functions of other modules that `element_erase` calls, on a document
that maps the address of an element to the element:
`pcdvobjs_elements_by_css` gives the addresses of the elements that a selector
matches (`none` for the null pointer), `eraser` is the eraser of the native
collection, if it has one. -/
structure externals where
  pcdvobjs_elements_by_css : (Nat → pcdom_element) → String → Option (List Nat)
  eraser : Option ((Nat → pcdom_element) → List Nat → Bool → Option made × (Nat → pcdom_element))

/-- The loop `while (1)` of `element_erase` over the matched elements: the
count of removals that reported `PURC_ERROR_OK` and the document. -/
def remove_attribute_loop (name : String) :
    List Nat → (Nat → pcdom_element) → Nat → Nat × (Nat → pcdom_element)
  | [], doc, n => (n, doc)
  | target :: rest, doc, n =>
    let r := pcintr_util_remove_attribute (doc target) name
    remove_attribute_loop name rest (Function.update doc target r.2)
      (if r.1 = .OK then n + 1 else n)

/-- The function `element_erase`: the result, the document and the last
error. -/
def element_erase (E : externals) (doc : Nat → pcdom_element) (on_v : Variant)
    (at_ : Option Variant) (silently : Bool) (err : purc_error) :
    Option made × (Nat → pcdom_element) × purc_error :=
  let s := (purc_variant_get_string_const on_v).getD ""
  match E.pcdvobjs_elements_by_css doc s with
  | none => (some (.ulongint 0), doc, err)
  | some elems =>
    match at_ with
    | none =>
      (match E.eraser with
       | none => (some (.ulongint 0), doc, err)
       | some eraser => ((eraser doc elems silently).1, (eraser doc elems silently).2, err))
    | some a =>
      if purc_variant_is_string a = false then (none, doc, .INVALID_VALUE)
      else
        match purc_variant_get_string_const a with
        | none => (none, doc, .INVALID_VALUE)
        | some s_at =>
          if "attr.".data.isPrefixOf s_at.data = false then (none, doc, .INVALID_VALUE)
          else
            let r := remove_attribute_loop (String.mk (s_at.data.drop 5)) elems doc 0
            (some (.ulongint r.1), r.2, err)

/-- What `after_pushed` of `erase.c` leaves: the symbol variable `?` when it
was set, the variant `on` and the document after the erasure, the last error;
`aborted` is the failed `PC_ASSERT` of `native_erase`. -/
structure erased where
  question_var : Option made
  on_v : Option Variant
  doc : Nat → pcdom_element
  err : purc_error
  aborted : Bool

/-- The hook `after_pushed` of `erase.c` for a stack without a pending
exception. -/
def after_pushed (E : externals) (doc : Nat → pcdom_element) (attrs : List pcvdom_attr)
    (silently : Bool) (err : purc_error) : erased :=
  let r := walk_attrs ⟨none, none⟩ err attrs
  if r.1 ≠ 0 then ⟨none, r.2.1.on_, doc, r.2.2, false⟩
  else
    match r.2.1.on_ with
    | none => ⟨none, none, doc, .INVALID_VALUE, false⟩
    | some on_v =>
      match on_v.type with
      | .STRING =>
        let x := element_erase E doc on_v r.2.1.at_ silently r.2.2
        ⟨x.1, some on_v, x.2.1, .OK, false⟩
      | .OBJECT =>
        let x := object_erase on_v r.2.1.at_ silently r.2.2
        ⟨x.1, some x.2.1, doc, .OK, false⟩
      | .ARRAY =>
        let x := array_erase on_v r.2.1.at_ silently r.2.2
        ⟨x.1, some x.2.1, doc, .OK, false⟩
      | .SET =>
        let x := set_erase on_v r.2.1.at_ silently r.2.2
        ⟨x.1, some x.2.1, doc, .OK, false⟩
      | .NATIVE => ⟨none, some on_v, doc, r.2.2, true⟩
      | _ => ⟨some (.ulongint 0), some on_v, doc, .OK, false⟩

/-- A number cell of the examples. -/
def num (addr : Nat) (d : String) : Variant := .leaf addr .NUMBER 1 false 0 d

/-- The array `[10, 20, 30]`. -/
def array_10_20_30 : Variant :=
  .array 10 1 0 (.cons (num 11 "10") (.cons (num 12 "20") (.cons (num 13 "30") .nil)))

/-- The array `[10, 30]` in the cell of `array_10_20_30`. -/
def array_10_30 : Variant :=
  .array 10 1 0 (.cons (num 11 "10") (.cons (num 13 "30") .nil))

/-- The empty array in the cell of `array_10_20_30`. -/
def array_empty : Variant := .array 10 1 0 .nil

/-- The set of the members 10, 20, 30. -/
def set_10_20_30 : Variant :=
  .set 10 1 0 (.cons (num 11 "10") (.cons (num 12 "20") (.cons (num 13 "30") .nil)))

/-- The set of the members 10, 30 in the cell of `set_10_20_30`. -/
def set_10_30 : Variant :=
  .set 10 1 0 (.cons (num 11 "10") (.cons (num 13 "30") .nil))

/-- The object `{a: 1, b: 2}`. -/
def object_a_b : Variant :=
  .object 30 1 0 (.cons (purc_variant_make_string 31 "a") (num 32 "1")
    (.cons (purc_variant_make_string 33 "b") (num 34 "2") .nil))

/-- The document of the example: the elements 1 and 2 carry the attribute
`class`, element 3 does not. -/
def doc_example : Nat → pcdom_element :=
  fun a => if a = 1 then ⟨[("class", "x"), ("id", "a")]⟩ else if a = 2 then ⟨[("class", "y")]⟩ else ⟨[]⟩

/-- The other modules of the example: the selector `div` matches the elements
1, 2 and 3, every other selector matches nothing; no native eraser. -/
def externals_example : externals where
  pcdvobjs_elements_by_css := (fun _ s => if s = "div" then some [1, 2, 3] else some [])
  eraser := none

end erase

/-! ## The sort element (`elements/sort.c`) -/

namespace sort

/-- The functions of the variant library that the comparator calls:
`purc_variant_numberify` (a double is represented by an integer, of which only
the order is used; NaN is not represented) and `purc_variant_stringify_alloc`
(`none` when it fails). -/
structure externals where
  purc_variant_numberify : Variant → Int
  purc_variant_stringify_alloc : Variant → Option String

/-- The function `split_key`: one key for every token of the string, none of
them by number yet; `none` is the null pointer. -/
def split_key (key : Option String) : Option (List sort_key) :=
  match key with
  | none => none
  | some k => some ((strtok_r_all k.data []).map (fun token => ⟨some token, false⟩))

/-- The function `comp_number`. -/
def comp_number (l r : Int) (ascendingly : Bool) : Int :=
  if ascendingly then (if l > r then 1 else (if l < r then -1 else 0))
  else (if l > r then -1 else (if l < r then 1 else 0))

/-- The sign of `strcmp` of the C library on two strings. -/
def strcmp : List Char → List Char → Int
  | [], [] => 0
  | [], _ :: _ => -1
  | _ :: _, [] => 1
  | a :: l, b :: r =>
    if a.toNat < b.toNat then -1 else if b.toNat < a.toNat then 1 else strcmp l r

/-- The function `tolower` of the C library in the "C" locale. -/
def tolower (c : Char) : Char :=
  if 65 ≤ c.toNat ∧ c.toNat ≤ 90 then Char.ofNat (c.toNat + 32) else c

/-- The sign of `strcasecmp` of the C library on two strings. -/
def strcasecmp (l r : List Char) : Int := strcmp (l.map tolower) (r.map tolower)

/-- The function `comp_string`; `none` is the null pointer. -/
def comp_string (l r : Option String) (ascendingly casesensitively : Bool) : Int :=
  match l, r with
  | some l, some r =>
    let ret := if casesensitively then strcmp l.data r.data else strcasecmp l.data r.data
    if ascendingly then ret else -ret
  | _, _ => 0

/-- The function `variant_to_string`. -/
def variant_to_string (E : externals) (v : Option Variant) : Option String :=
  match v with
  | none => some "undefined"
  | some v => E.purc_variant_stringify_alloc v

/-- The function `comp_raw`. -/
def comp_raw (E : externals) (l r : Option Variant) (by_number ascendingly casesensitively : Bool) :
    Int :=
  if by_number then
    comp_number
      (match l with
       | some l => E.purc_variant_numberify l
       | none => 0)
      (match r with
       | some r => E.purc_variant_numberify r
       | none => 0)
      ascendingly
  else comp_string (variant_to_string E l) (variant_to_string E r) ascendingly casesensitively

/-- The function `comp_by_key`. -/
def comp_by_key (E : externals) (l r : Variant) (key : String)
    (by_number ascendingly casesensitively : Bool) : Int :=
  comp_raw E
    (if purc_variant_is_object l then purc_variant_object_get_by_ckey l key else none)
    (if purc_variant_is_object r then purc_variant_object_get_by_ckey r key else none)
    by_number ascendingly casesensitively

/-- The loop of `sort_cmp` over the keys that are left: the first comparison
that is not 0, or 0. -/
def sort_cmp_from (E : externals) (ctxt : ctxt_for_sort) (l r : Variant) : List sort_key → Int
  | [] => 0
  | key :: rest =>
    let ret :=
      match key.key with
      | none => comp_raw E (some l) (some r) key.by_number ctxt.ascendingly ctxt.casesensitively
      | some k => comp_by_key E l r k key.by_number ctxt.ascendingly ctxt.casesensitively
    if ret ≠ 0 then ret else sort_cmp_from E ctxt l r rest

/-- The function `sort_cmp`. -/
def sort_cmp (E : externals) (ctxt : ctxt_for_sort) (l r : Variant) : Int :=
  sort_cmp_from E ctxt l r (ctxt.keys.getD [])

/-- The function `sort_as_number`. -/
def sort_as_number (val : Variant) : Bool :=
  match val.type with
  | .NUMBER => true
  | .LONGINT => true
  | .ULONGINT => true
  | .LONGDOUBLE => true
  | _ => false

/-- The inner loop `for (j = key_idx; j < nr_keys; j++)` of `sort_array` and
`sort_set` on the member `val`, with `n` rounds to go: the keys and
`key_idx`. -/
def detect_keys_in (val : Variant) : Nat → Nat → List sort_key → Nat → List sort_key × Nat
  | 0, _, keys, key_idx => (keys, key_idx)
  | n + 1, j, keys, key_idx =>
    match keys.get? j with
    | none => (keys, key_idx)
    | some k =>
      match k.key with
      | none => detect_keys_in val n (j + 1) keys key_idx
      | some name =>
        match purc_variant_object_get_by_ckey val name with
        | some v =>
          detect_keys_in val n (j + 1) (keys.set j { k with by_number := sort_as_number v })
            (key_idx + 1)
        | none => detect_keys_in val n (j + 1) keys key_idx

/-- The outer loop `for (i = 0; i < nr && key_idx < nr_keys; i++)` of
`sort_array` and `sort_set` over the members from index `i` on. -/
def detect_keys : List Variant → List sort_key → Nat → List sort_key
  | [], keys, _ => keys
  | val :: rest, keys, key_idx =>
    if key_idx < keys.length then
      (if purc_variant_is_object val then
        detect_keys rest (detect_keys_in val (keys.length - key_idx) key_idx keys key_idx).1
          (detect_keys_in val (keys.length - key_idx) key_idx keys key_idx).2
      else detect_keys rest keys key_idx)
    else keys

/-- Modelled from the spec: `pcvariant_array_sort` and `pcvariant_set_sort`
with a comparator (section 6, "sorting an array is idempotent and stable with
respect to equal keys"): the members are inserted one by one, a member going
before the first member that the comparator does not put before it. -/
def pcvariant_sort (cmp : Variant → Variant → Int) (members : List Variant) : List Variant :=
  List.insertionSort (fun a b => cmp a b ≤ 0) members

/-- The keys that `sort_array` and `sort_set` leave in the context for the
members `xs` (more than one). -/
def prepare_keys (ctxt : ctxt_for_sort) (xs : List Variant) (against : Option Variant) :
    ctxt_for_sort :=
  let ctxt1 :=
    match against with
    | some ag =>
      if purc_variant_is_string ag then { ctxt with keys := split_key (purc_variant_get_string_const ag) }
      else ctxt
    | none => ctxt
  match ctxt1.keys with
  | none => { ctxt1 with keys := some [⟨none, (xs.head?.map sort_as_number).getD false⟩] }
  | some keys => { ctxt1 with keys := some (detect_keys xs keys 0) }

/-- The function `sort_array`: the context and the array. -/
def sort_array (E : externals) (ctxt : ctxt_for_sort) (array : Variant)
    (against : Option Variant) : ctxt_for_sort × Variant :=
  match array with
  | .array a r sz elems =>
    if elems.toList.length ≤ 1 then (ctxt, array)
    else
      (prepare_keys ctxt elems.toList against,
        .array a r sz (Members.ofList
          (pcvariant_sort (sort_cmp E (prepare_keys ctxt elems.toList against)) elems.toList)))
  | _ => (ctxt, array)

/-- The function `sort_set`: the context and the set. -/
def sort_set (E : externals) (ctxt : ctxt_for_sort) (set : Variant)
    (against : Option Variant) : ctxt_for_sort × Variant :=
  match set with
  | .set a r sz elems =>
    if elems.toList.length ≤ 1 then (ctxt, set)
    else
      (prepare_keys ctxt elems.toList against,
        .set a r sz (Members.ofList
          (pcvariant_sort (sort_cmp E (prepare_keys ctxt elems.toList against)) elems.toList)))
  | _ => (ctxt, set)

/-- What `after_pushed` of `sort.c` leaves: the context it returns (`none` for
the null pointer), the variant `on` after the sort and the last error. -/
structure sorted where
  ctxt : Option ctxt_for_sort
  on_v : Option Variant
  err : purc_error
deriving DecidableEq

/-- The hook `after_pushed` of `sort.c` for a stack without a pending
exception; `none` is a failed assertion of the walk over the attributes. -/
def after_pushed (E : externals) (attrs : List pcvdom_attr) (err : purc_error) :
    Option sorted :=
  match walk_attrs ⟨none, none, none, none, true, true, none, none⟩ err attrs with
  | none => none
  | some r =>
    if r.1 ≠ 0 then some ⟨none, r.2.1.on_, r.2.2⟩
    else
      match r.2.1.on_ with
      | none => some ⟨none, none, r.2.2⟩
      | some on_v =>
        if r.2.1.by_.isSome then some ⟨some r.2.1, some on_v, .OK⟩
        else
          match on_v.type with
          | .ARRAY => some ⟨some (sort_array E r.2.1 on_v r.2.1.against).1,
              some (sort_array E r.2.1 on_v r.2.1.against).2, .OK⟩
          | .SET => some ⟨some (sort_set E r.2.1 on_v r.2.1.against).1,
              some (sort_set E r.2.1 on_v r.2.1.against).2, .OK⟩
          | _ => some ⟨none, some on_v, .INVALID_VALUE⟩

/-- The number that `comp_by_key` compares a member by under a key by number:
the number of the value of the key, 0 without the key. -/
def key_number (E : externals) (k : String) (x : Variant) : Int :=
  match (if purc_variant_is_object x then purc_variant_object_get_by_ckey x k else none) with
  | some v => E.purc_variant_numberify v
  | none => 0

/-- The members of the array or set that a sort leaves. -/
def sorted.members (s : sorted) : List Variant :=
  match s.on_v with
  | some (.array _ _ _ elems) => elems.toList
  | some (.set _ _ _ elems) => elems.toList
  | _ => []

/-- A number cell of the examples. -/
def num (addr : Nat) (d : String) : Variant := .leaf addr .NUMBER 1 false 0 d

/-- The value of the decimal digits of a string. -/
def decimal : List Char → Nat → Nat
  | [], acc => acc
  | c :: rest, acc => decimal rest (acc * 10 + (c.toNat - 48))

/-- Modelled from the spec: the variant library of the examples: a number
cell holds its decimal digits, `numberify` gives their value and `stringify`
the digits themselves. -/
def externals_example : externals where
  purc_variant_numberify := (fun v => match v with | .leaf _ _ _ _ _ d => (decimal d.data 0 : Int) | _ => 0)
  purc_variant_stringify_alloc := (fun v => match v with | .leaf _ _ _ _ _ d => some d | _ => some "")

/-- An object with one member, `{key: value}`, at address `addr`. -/
def obj1 (addr : Nat) (key : String) (value : String) : Variant :=
  .object addr 1 0 (.cons (purc_variant_make_string (addr + 1) key) (num (addr + 2) value) .nil)

/-- An object with two members, `{a: x, b: y}`, at address `addr`. -/
def obj_a_b (addr : Nat) (x y : String) : Variant :=
  .object addr 1 0 (.cons (purc_variant_make_string (addr + 1) "a") (num (addr + 2) x)
    (.cons (purc_variant_make_string (addr + 3) "b") (num (addr + 4) y) .nil))

/-- The array `[{b:1}, {a:10, b:1}, {a:9, b:1}]`. -/
def array_a_b : Variant :=
  .array 200 1 0 (.cons (obj1 210 "b" "1") (.cons (obj_a_b 220 "10" "1")
    (.cons (obj_a_b 230 "9" "1") .nil)))

/-- The array `[{a:10, b:1}, {b:1}, {a:9, b:1}]`: the members of `array_a_b`
with the first two exchanged. -/
def array_a_b_swapped : Variant :=
  .array 200 1 0 (.cons (obj_a_b 220 "10" "1") (.cons (obj1 210 "b" "1")
    (.cons (obj_a_b 230 "9" "1") .nil)))

/-- The sort of `array_a_b` against `a b`: what the hook leaves (it has no flag
attribute, so no assertion stops it; the empty record stands for a stop). -/
def sorted_a_b : sorted :=
  match after_pushed externals_example
    [⟨.ON, .ok array_a_b⟩, ⟨.AGAINST, .ok (purc_variant_make_string 300 "a b")⟩] .OK with
  | some s => s
  | none => ⟨none, none, .OK⟩

/-- The sort of `array_a_b_swapped` against `a b`: what the hook leaves. -/
def sorted_a_b_swapped : sorted :=
  match after_pushed externals_example
    [⟨.ON, .ok array_a_b_swapped⟩, ⟨.AGAINST, .ok (purc_variant_make_string 300 "a b")⟩]
    .OK with
  | some s => s
  | none => ⟨none, none, .OK⟩

end sort

/-! ## The timers of `$TIMERS` (`timer.cpp`) -/

namespace timer

/-- Modelled from the spec: the state of a `PurcTimer` (section 4.D, "timer
handle operations: `set_interval(ms)`, `start`, `start_oneshot`, `stop`,
`is_active`"; the base class `TimerBase` is outside the given sources): the
field `m_interval`, whether the timer is active, whether it repeats and the
period it was started with. -/
structure PurcTimer where
  m_interval : Nat
  active : Bool
  repeating : Bool
  period : Nat
deriving DecidableEq, Repr

/-- The function `pcintr_timer_set_interval` (the parameter is a `uint32_t`). -/
def pcintr_timer_set_interval (timer : PurcTimer) (interval : Nat) : PurcTimer :=
  { timer with m_interval := interval % 4294967296 }

/-- The function `pcintr_timer_get_interval`. -/
def pcintr_timer_get_interval (timer : PurcTimer) : Nat := timer.m_interval

/-- The function `pcintr_timer_start`: `startRepeating` with the interval of
the timer. -/
def pcintr_timer_start (timer : PurcTimer) : PurcTimer :=
  { timer with active := true, repeating := true, period := timer.m_interval }

/-- The function `pcintr_timer_stop`. -/
def pcintr_timer_stop (timer : PurcTimer) : PurcTimer :=
  { timer with active := false }

/-- The function `pcintr_timer_is_active`. -/
def pcintr_timer_is_active (timer : PurcTimer) : Bool := timer.active

/-- The record `struct pcintr_timers` as far as the listeners use it: the map
from an id to its timer. -/
structure pcintr_timers where
  timers_map : String → Option PurcTimer

/-- The function `find_timer`. -/
def find_timer (timers : pcintr_timers) (id : String) : Option PurcTimer :=
  timers.timers_map id

/-- The function `add_timer` (`pcutils_map_find_replace_or_insert` succeeds). -/
def add_timer (timers : pcintr_timers) (id : String) (timer : PurcTimer) : pcintr_timers :=
  { timers with timers_map := Function.update timers.timers_map id (some timer) }

/-- The function `remove_timer`. -/
def remove_timer (timers : pcintr_timers) (id : String) : pcintr_timers :=
  { timers with timers_map := Function.update timers.timers_map id none }

/-- The function `is_euqal` on a variant that is not null: `none` when the
variant is not a string, the null pointer then being handed to `strcmp`. -/
def is_euqal (var : Variant) (comp : String) : Option Bool :=
  match purc_variant_get_string_const var with
  | none => none
  | some s => some (s = comp)

/-- The function `get_inner_timer`: the id and the timer, found in the map or
created and added to it (`uninit` is the value of the field `m_interval`,
which the constructor leaves unset), the map and the last error; the outer
`none` is a null pointer handed to the map. -/
def get_inner_timer (uninit : Nat) (timers : pcintr_timers) (timer_var : Variant)
    (err : purc_error) : Option (Option (String × PurcTimer) × pcintr_timers × purc_error) :=
  match purc_variant_object_get_by_ckey timer_var "id" with
  | none => some (none, timers, .INVALID_VALUE)
  | some id =>
    match purc_variant_get_string_const id with
    | none => none
    | some idstr =>
      match find_timer timers idstr with
      | some timer => some (some (idstr, timer), timers, err)
      | none =>
        some (some (idstr, ⟨uninit, false, false, 0⟩),
          add_timer timers idstr ⟨uninit, false, false, 0⟩, err)

/-- The listener `timers_set_change` with `argv[1]` equal to `nv`; `cast` is
`purc_variant_cast_to_ulongint` without force (`none` when it fails): the
`uint64_t` variable `ret` starts at 0, keeps that value when the cast fails,
and is handed to the `uint32_t` parameter of `pcintr_timer_set_interval`.  The
result, the map and the last error; `none` is a null pointer handed to
`strcmp` or to the map. -/
def timers_set_change (uninit : Nat) (cast : Variant → Option Nat) (timers : pcintr_timers)
    (nv : Variant) (err : purc_error) : Option (Bool × pcintr_timers × purc_error) :=
  match get_inner_timer uninit timers nv err with
  | none => none
  | some (none, timers1, err1) => some (false, timers1, err1)
  | some (some (id, timer), timers1, err1) =>
    let interval := purc_variant_object_get_by_ckey nv "interval"
    let active := purc_variant_object_get_by_ckey nv "active"
    let timer1 :=
      match interval with
      | some i =>
        if pcintr_timer_get_interval timer ≠ (cast i).getD 0 % 18446744073709551616 then
          pcintr_timer_set_interval timer ((cast i).getD 0 % 18446744073709551616)
        else timer
      | none => timer
    let err2 :=
      match interval with
      | some _ => err1
      | none => .OK
    let next_active : Option Bool :=
      match active with
      | some a => is_euqal a "yes"
      | none => some (pcintr_timer_is_active timer1)
    match next_active with
    | none => none
    | some true => some (true, add_timer timers1 id (pcintr_timer_start timer1), err2)
    | some false => some (true, add_timer timers1 id (pcintr_timer_stop timer1), err2)

/-- A string cell of the examples. -/
def str (addr : Nat) (s : String) : Variant := purc_variant_make_string addr s

/-- The value `{id: "clock", active: "no"}` of the test `observe.basic`. -/
def nv_clock_no : Variant :=
  .object 50 1 0 (.cons (str 51 "id") (str 52 "clock") (.cons (str 53 "active") (str 54 "no") .nil))

/-- The value `{id: "clock", interval: 500, active: "yes"}`. -/
def nv_clock_yes : Variant :=
  .object 60 1 0 (.cons (str 61 "id") (str 62 "clock")
    (.cons (str 63 "interval") (.leaf 64 .NUMBER 1 false 0 "500")
      (.cons (str 65 "active") (str 66 "yes") .nil)))

/-- The value `{id: "clock", interval: 4294967796, active: "yes"}`: the
interval is `2^32 + 500`. -/
def nv_clock_wide : Variant :=
  .object 70 1 0 (.cons (str 71 "id") (str 72 "clock")
    (.cons (str 73 "interval") (.leaf 74 .NUMBER 1 false 0 "4294967796")
      (.cons (str 75 "active") (str 76 "yes") .nil)))

/-- The value `{id: "clock", interval: "soon", active: "yes"}`: the interval
is a string, which does not cast to an unsigned integer. -/
def nv_clock_soon : Variant :=
  .object 80 1 0 (.cons (str 81 "id") (str 82 "clock")
    (.cons (str 83 "interval") (str 84 "soon")
      (.cons (str 85 "active") (str 86 "yes") .nil)))

/-- The timers of the test `observe.basic`: the timer `clock` runs with an
interval of 1000. -/
def timers_clock : pcintr_timers :=
  ⟨fun id => if id = "clock" then some ⟨1000, true, true, 1000⟩ else none⟩

/-- Modelled from the spec: a cast to an unsigned integer for the examples: a
number cell gives the value of its decimal digits. -/
def cast_example (v : Variant) : Option Nat :=
  match v with
  | .leaf _ .NUMBER _ _ _ d => some (sort.decimal d.data 0)
  | _ => none

end timer

/-! ## Observers of the variables of a manager (`var-mgr.c`) -/

/-- A message handed to `pcintr_dispatch_message_ex` (outside the given
sources; section 4.B: "enqueuing a message to the observer's own instance"):
the stack it goes to, its type and its sub-type. -/
structure dispatched where
  stack : Nat
  type : String
  sub_type : String
deriving DecidableEq, Repr

/-- The loop `for (i = 0; i < sz; i++)` of the three handlers over the
observer records: a message for every record of the name and of the type. -/
def dispatch_observers (name : String) (type : var_event_type) (sub_type : String) :
    List var_observe → List dispatched
  | [] => []
  | obs :: rest =>
    if name = obs.name ∧ obs.type = type then
      ⟨obs.stack, "change", sub_type⟩ :: dispatch_observers name type sub_type rest
    else dispatch_observers name type sub_type rest

/-- The loop of `find_var_observe_idx` over the records from index `i` on: the
index of the first record of the name, the type and the stack. -/
def find_var_observe_idx_from (name : String) (type : var_event_type) (stack : Nat) :
    List var_observe → Nat → Option Nat
  | [], _ => none
  | obs :: rest, i =>
    if name = obs.name ∧ obs.type = type ∧ obs.stack = stack then some i
    else find_var_observe_idx_from name type stack rest (i + 1)

/-- The function `find_var_observe_idx`; `none` is the result -1. -/
def find_var_observe_idx (mgr : pcvarmgr) (name : String) (type : var_event_type)
    (stack : Nat) : Option Nat :=
  find_var_observe_idx_from name type stack mgr.var_observers 0

/-- The type that `pcvarmgr_add_observer` reads from the name of an event. -/
def observer_type (event : String) : var_event_type :=
  if event = "change:attached" then .VAR_EVENT_TYPE_ATTACHED
  else if event = "change:detached" then .VAR_EVENT_TYPE_DETACHED
  else if event = "change:displaced" then .VAR_EVENT_TYPE_DISPLACED
  else if "except:".data.isPrefixOf event.data then .VAR_EVENT_TYPE_EXCEPT
  else .VAR_EVENT_TYPE_ATTACHED

/-- The function `pcvarmgr_add_observer` called on the stack `stack`
(allocation succeeds): whether it returns `mgr->object`, the manager and the
last error. -/
def pcvarmgr_add_observer (mgr : pcvarmgr) (name : String) (event : String) (stack : Nat)
    (err : purc_error) : Bool × pcvarmgr × purc_error :=
  match (pcvarmgr_get mgr name err).1 with
  | none => (false, mgr, (pcvarmgr_get mgr name err).2)
  | some _ =>
    match find_var_observe_idx mgr name (observer_type event) stack with
    | some _ => (true, mgr, err)
    | none =>
      (true, { mgr with var_observers := mgr.var_observers ++ [⟨name, observer_type event, stack⟩] },
        err)

/-- The entry `struct const_str_atom` of a table of names. -/
structure const_str_atom where
  str : String
  atom : Nat
deriving DecidableEq, Repr

/-- The names of the table `_except_names`, in the order of the table. -/
def _except_names_str : List String :=
  [ "OK", "BadEncoding", "BadHVMLTag", "BadHVMLAttrName", "BadHVMLAttrValue",
    "BadHVMLContent", "BadTargetHTML", "BadTargetXGML", "BadTargetXML", "BadExpression",
    "BadExecutor", "BadName", "NoData", "NotIterable", "BadIndex", "NoSuchKey",
    "DuplicateKey", "ArgumentMissed", "WrongDataType", "InvalidValue",
    "MaxIterationCount", "MaxRecursionDepth", "Unauthorized", "Timeout", "eDOMFailure",
    "LostRenderer", "MemoryFailure", "InternalFailure", "ZeroDivision", "Overflow",
    "Underflow", "InvalidFloat", "AccessDenied", "IOFailure", "TooSmall", "TooMany",
    "TooLong", "TooLarge", "NotDesiredEntity", "InvalidOperand", "EntityNotFound",
    "EntityExists", "NoStorageSpace", "BrokenPipe", "ConnectionAborted",
    "ConnectionRefused", "ConnectionReset", "NameResolutionFailed", "RequestFailed",
    "SystemFault", "OSFailure", "NotReady", "NotImplemented", "Unsupported",
    "Incompleted", "DuplicateName" ]

/-- The constant `PURC_EXCEPT_NR` (its header is outside the given sources):
the compile-time assertion of `instance.c` makes it the size of
`_except_names`; it is a count of enumerators, of type `int`. -/
def PURC_EXCEPT_NR : Int := 56

/-- The table `_except_names` after `except_init_once`: entry `n` holds the
atom that `purc_atom_from_static_string_ex` gave its name, here `atom_of`. -/
def _except_names (atom_of : String → Nat) : List const_str_atom :=
  _except_names_str.map (fun s => ⟨s, atom_of s⟩)

/-- The read `table[id]` of a C array of `table.length` entries with an index
of type `int`: `none` when the index is outside the array, where the read has
no defined result. -/
def array_read {α : Type} (table : List α) (id : Int) : Option α :=
  if 0 ≤ id ∧ id < table.length then table.get? id.toNat else none

/-- The function `purc_get_except_atom_by_id`: the atom it returns, `none`
when it reads outside `_except_names`. -/
def purc_get_except_atom_by_id (atom_of : String → Nat) (id : Int) : Option Nat :=
  if id < PURC_EXCEPT_NR then
    (array_read (_except_names atom_of) id).map (fun e => e.atom)
  else some 0

/-- An assignment of atoms to the exception names: the atoms of a bucket are
handed out from 1 on, in the order of the table. -/
def except_atom_of (s : String) : Nat :=
  _except_names_str.indexOf s + 1

/-! ## Timer events in the message queue (`msg-queue.c`) -/

/-- The reading of "the message carries a `timer-id` metadata field" of the
specification: the data of the message is an object with the key `timer-id`.
The source has no such test; see `is_timer_event_msg`. -/
def carries_timer_id (msg : pcrdr_msg) : Bool :=
  match msg.data with
  | some d => (purc_variant_object_get_by_ckey d "timer-id").isSome
  | none => false

/-- The event `expired:clock` of a timer, with the data
`\x7b "timer-id": "clock" \x7d`. -/
def timer_event : pcrdr_msg :=
  { owner := 1, type := PCRDR_MSG_TYPE_EVENT, target := PCRDR_MSG_TARGET_THREAD,
    elementType := 0, dataType := 0, retCode := 0, targetValue := 1, resultValue := 0,
    operation := none, event := some (purc_variant_make_string 10 "expired:clock"),
    element := none, property := none, requestId := none,
    data := some (.object 11 1 1
      (.cons (purc_variant_make_string 12 "timer-id") (purc_variant_make_string 13 "clock")
        .nil)) }

/-! ## The iterate element with `with`, `onlyif` and `while` (`elements/iterate.c`) -/

namespace iterate

/-- The cast of the examples: a number cell casts to the integer that its
digits spell; any other value casts to 0 with `force` and not at all without. -/
def cast_longint (v : Variant) (force : Bool) : Option Int :=
  match v with
  | .leaf _ .NUMBER _ _ _ d => some (erase.strtoll d.data).1
  | _ => if force then some 0 else none

/-- The other modules of the examples in the mode of `with`: no executor is
registered, the cast is `cast_longint`. -/
def with_externals : externals Unit Unit where
  purc_get_executor := (fun _ => .error .NOT_EXISTS)
  purc_variant_cast_to_longint := cast_longint
  inst := 0

/-- The attributes `on=[3,1,2] with=v`. -/
def attrs_on_with (v : Variant) : List pcvdom_attr :=
  [⟨.ON, .ok array_3_1_2⟩, ⟨.WITH, .ok v⟩]

/-- The attributes `on=[3,1,2] while=1`, without `with`. -/
def attrs_on_while : List pcvdom_attr :=
  [⟨.ON, .ok array_3_1_2⟩, ⟨.WHILE, .ok (num 15 "1")⟩]

/-- The attributes `on=[3,1,2] onlyif=g with=7 while=h`. -/
def attrs_on_onlyif_with_while (g h : String) : List pcvdom_attr :=
  [⟨.ON, .ok array_3_1_2⟩, ⟨.ONLYIF, .ok (num 15 g)⟩, ⟨.WITH, .ok (num 16 "7")⟩,
   ⟨.WHILE, .ok (num 17 h)⟩]

/-- The context that `pcintr_vdom_walk_attrs` leaves for a list of attributes. -/
def ctxt_of (attrs : List pcvdom_attr) : ctxt_for_iterate Unit Unit :=
  (walk_attrs ctxt_for_iterate.calloc .OK attrs).2.1

/-- A frame with the context of a list of attributes, `?` unset and `%` zero. -/
def frame_of (attrs : List pcvdom_attr) : frame Unit Unit :=
  { ctxt := some (ctxt_of attrs), question_var := none, percent_var := 0 }

end iterate

/-! ## The hooks of iterate with the evaluation of the attributes (`elements/iterate.c`) -/

namespace iterate

namespace on_stack

/-- The functions of other modules that the hooks of `iterate.c` call, with
`pcintr_eval_vdom_attr` among them.  Modelled from the spec:
`pcintr_eval_vdom_attr` is outside the given sources; it evaluates the
expression of an attribute on the stack as it is at the call, so the value
may differ from one call to the next: here it reads the symbol variables `?`
and `%` of the frame (the other variables are not represented); a failed
evaluation leaves its error behind. -/
structure externals (Inst Iter : Type) extends iterate.externals Inst Iter where
  pcintr_eval_vdom_attr : Option Variant → Nat → pcvdom_attr → Except purc_error Variant

/-- The call `pcintr_eval_vdom_attr(pcintr_get_stack(), attr)` made while the
frame is `fr`. -/
def eval_vdom_attr {Inst Iter : Type} (E : externals Inst Iter) (fr : frame Inst Iter)
    (attr : pcvdom_attr) : Except purc_error Variant :=
  E.pcintr_eval_vdom_attr fr.question_var fr.percent_var attr

/-- The function `attr_found` of `iterate.c`: the attribute is evaluated, then
handed to `attr_found_val`. -/
def attr_found {Inst Iter : Type} (E : externals Inst Iter) (fr : frame Inst Iter)
    (ctxt : ctxt_for_iterate Inst Iter) (attr : pcvdom_attr) (err : purc_error) :
    Int × ctxt_for_iterate Inst Iter × purc_error :=
  match eval_vdom_attr E fr attr with
  | .error e => (-1, ctxt, e)
  | .ok v =>
    let r := attr_found_val ctxt attr.key (some v) attr err
    (if r.1 ≠ 0 then -1 else 0, r.2.1, r.2.2)

/-- Modelled from the spec: `pcintr_vdom_walk_attrs` with the callback
`attr_found` of `iterate.c`: the attributes are visited in document order and
the walk stops at the first callback that fails. -/
def walk_attrs {Inst Iter : Type} (E : externals Inst Iter) (fr : frame Inst Iter)
    (ctxt : ctxt_for_iterate Inst Iter) (err : purc_error) :
    List pcvdom_attr → Int × ctxt_for_iterate Inst Iter × purc_error
  | [] => (0, ctxt, err)
  | a :: rest =>
    let r := attr_found E fr ctxt a err
    if r.1 ≠ 0 then r else walk_attrs E fr r.2.1 r.2.2 rest

/-- The rule that `post_process_by_rule` and `on_popping` read from the
attribute `by`: no rule without the attribute, otherwise the characters of the
value it evaluates to; a failed evaluation leaves its error behind, a value
that is not a string leaves the last error as it is. -/
def eval_rule {Inst Iter : Type} (E : externals Inst Iter) (fr : frame Inst Iter)
    (rule_attr : Option pcvdom_attr) (err : purc_error) :
    Except purc_error (Option String) :=
  match rule_attr with
  | none => .ok none
  | some a =>
    match eval_vdom_attr E fr a with
    | .error e => .error e
    | .ok val =>
      match purc_variant_get_string_const val with
      | none => .error err
      | some s => .ok (some s)

/-- The function `check_onlyif`: `none` is a failed `PC_ASSERT` (the process
aborts), otherwise the result and the flag `*stop`. -/
def check_onlyif {Inst Iter : Type} (E : externals Inst Iter) (fr : frame Inst Iter)
    (onlyif : pcvdom_attr) : Option (Int × Bool) :=
  match eval_vdom_attr E fr onlyif with
  | .error _ => none
  | .ok val =>
    match E.purc_variant_cast_to_longint val true with
    | none => some (-1, false)
    | some i64 => some (0, if i64 ≠ 0 then false else true)

/-- The function `check_while`: the result and the flag `*stop`. -/
def check_while {Inst Iter : Type} (E : externals Inst Iter) (fr : frame Inst Iter)
    (_while : pcvdom_attr) : Int × Bool :=
  match eval_vdom_attr E fr _while with
  | .error _ => (-1, false)
  | .ok val =>
    match E.purc_variant_cast_to_longint val false with
    | none => (-1, false)
    | some i64 => (0, if i64 ≠ 0 then false else true)

/-- The function `re_eval_with`: `none` is a failed `PC_ASSERT`, otherwise the
result, the flag `*stop` and the frame. -/
def re_eval_with {Inst Iter : Type} (E : externals Inst Iter) (fr : frame Inst Iter)
    (with_ : pcvdom_attr) : Option (Int × Bool × frame Inst Iter) :=
  match eval_vdom_attr E fr with_ with
  | .error _ => none
  | .ok val =>
    if check_stop val then none
    else some (0, false, pcintr_set_question_var fr val)

/-- The function `post_process` (the mode of `with`, `onlyif`, `while`): `none`
is a failed `PC_ASSERT`, otherwise the result, the context, the frame and the
last error. -/
def post_process {Inst Iter : Type} (E : externals Inst Iter)
    (ctxt : ctxt_for_iterate Inst Iter) (fr : frame Inst Iter) (err : purc_error) :
    Option (Int × ctxt_for_iterate Inst Iter × frame Inst Iter × purc_error) :=
  if ctxt.by_set then none
  else if ctxt.on_.isNone then some (-1, ctxt, fr, .ARGUMENT_MISSED)
  else
    let guard : Option Bool :=
      match ctxt.onlyif_attr with
      | none => some false
      | some a =>
        match check_onlyif E fr a with
        | none => none
        | some (r, stop) => if r ≠ 0 then none else some stop
    match guard with
    | none => none
    | some true => some (0, { ctxt with stop := true }, fr, err)
    | some false =>
      match ctxt.with_attr with
      | none => none
      | some a =>
        match re_eval_with E fr a with
        | none => none
        | some (r, stop, fr1) =>
          if r ≠ 0 then none
          else if stop then none
          else some (0, ctxt, fr1, err)

/-- The function `post_process_by_rule` (the mode of a rule): the result, the
context, the frame and the last error. -/
def post_process_by_rule {Inst Iter : Type} (E : externals Inst Iter)
    (ctxt : ctxt_for_iterate Inst Iter) (fr : frame Inst Iter) (err : purc_error) :
    Int × ctxt_for_iterate Inst Iter × frame Inst Iter × purc_error :=
  match ctxt.on_ with
  | none => (-1, ctxt, fr, .ARGUMENT_MISSED)
  | some on_v =>
    let with_ : Except purc_error Variant :=
      match ctxt.with_attr with
      | some a => eval_vdom_attr E fr a
      | none => .ok (.single (.inst E.inst) .v_undefined)
    match with_ with
    | .error e => (-1, ctxt, fr, e)
    | .ok w =>
      let ctxt1 := { ctxt with with_ := some w }
      match eval_rule E fr ctxt1.rule_attr err with
      | .error e => (-1, ctxt1, fr, e)
      | .ok r =>
        let rule := r.getD "RANGE: FROM 0"
        match E.purc_get_executor rule with
        | .error e => (-1, ctxt1, fr, e)
        | .ok ops =>
          let ctxt2 := { ctxt1 with ops := some ops }
          match ops.create on_v with
          | .error e => (-1, ctxt2, fr, e)
          | .ok exec_inst =>
            let ctxt3 := { ctxt2 with exec_inst := some exec_inst }
            match ops.it_begin exec_inst rule with
            | .error e => (-1, ctxt3, fr, e)
            | .ok it =>
              let ctxt4 := { ctxt3 with it := some it }
              match ops.it_value exec_inst it with
              | .error e => (-1, ctxt4, fr, e)
              | .ok value => (0, ctxt4, pcintr_set_question_var fr value, err)

/-- The hook `after_pushed` of `iterate.c` for a stack without a pending
exception: `none` is a failed `PC_ASSERT`, otherwise the frame (with its
context) and the last error.  The walk evaluates every attribute of the
element; the result of `post_process` is not looked at. -/
def after_pushed {Inst Iter : Type} (E : externals Inst Iter) (attrs : List pcvdom_attr)
    (fr : frame Inst Iter) (err : purc_error) : Option (frame Inst Iter × purc_error) :=
  let r := walk_attrs E fr ctxt_for_iterate.calloc err attrs
  if r.1 ≠ 0 then some ({ fr with ctxt := some r.2.1 }, r.2.2)
  else
    let ctxt := r.2.1
    let ctxt := if ctxt.by_set = false ∧ ctxt.with_set = false then { ctxt with by_set := true }
      else ctxt
    if ctxt.by_set then
      let p := post_process_by_rule E ctxt fr .OK
      some ({ p.2.2.1 with ctxt := some p.2.1 }, p.2.2.2)
    else
      match post_process E ctxt fr .OK with
      | none => none
      | some p => some ({ p.2.2.1 with ctxt := some p.2.1 }, p.2.2.2)

/-- The function `on_popping_with`: `none` is a failed `PC_ASSERT`. -/
def on_popping_with {Inst Iter : Type} (E : externals Inst Iter)
    (ctxt : ctxt_for_iterate Inst Iter) (fr : frame Inst Iter) (err : purc_error) :
    Option (Bool × frame Inst Iter × purc_error) :=
  if ctxt.stop then some (true, fr, err)
  else
    let guard : Option Bool :=
      match ctxt.while_attr with
      | none => some false
      | some a => if (check_while E fr a).1 ≠ 0 then none else some (check_while E fr a).2
    match guard with
    | none => none
    | some true => some (true, { fr with ctxt := some { ctxt with stop := true } }, err)
    | some false =>
      if ctxt.with_attr.isNone then none
      else some (false, pcintr_inc_percent_var fr, err)

/-- The hook `on_popping` of `iterate.c`: `none` is a failed `PC_ASSERT` or a
call through a null function pointer, otherwise the result, the frame and the
last error. -/
def on_popping {Inst Iter : Type} (E : externals Inst Iter) (fr : frame Inst Iter)
    (err : purc_error) : Option (Bool × frame Inst Iter × purc_error) :=
  match fr.ctxt with
  | none => some (true, fr, err)
  | some ctxt =>
    if ctxt.by_set = false then on_popping_with E ctxt fr err
    else
      match ctxt.exec_inst, ctxt.it with
      | none, _ => some (true, fr, err)
      | some _, none => some (true, fr, err)
      | some exec_inst, some it =>
        match eval_rule E fr ctxt.rule_attr err with
        | .error e => some (true, fr, e)
        | .ok rule =>
          match ctxt.ops with
          | none => none
          | some ops =>
            match ops.it_next exec_inst it rule with
            | .error e =>
              some (true, { fr with ctxt := some { ctxt with it := none } },
                if e = .NOT_EXISTS then .OK else e)
            | .ok it1 => some (false, { fr with ctxt := some { ctxt with it := some it1 } }, err)

/-- The function `rerun_with`: `none` is a failed `PC_ASSERT` (the input
variable that `nosetotail` feeds is not represented). -/
def rerun_with {Inst Iter : Type} (E : externals Inst Iter)
    (ctxt : ctxt_for_iterate Inst Iter) (fr : frame Inst Iter) (err : purc_error) :
    Option (Bool × frame Inst Iter × purc_error) :=
  match ctxt.with_attr with
  | none => none
  | some w =>
    let guard : Option Bool :=
      match ctxt.onlyif_attr with
      | none => some false
      | some a =>
        match check_onlyif E fr a with
        | none => none
        | some (r, stop) => if r ≠ 0 then none else some stop
    match guard with
    | none => none
    | some true => some (true, { fr with ctxt := some { ctxt with stop := true } }, err)
    | some false =>
      match re_eval_with E fr w with
      | none => none
      | some (r, stop, fr1) =>
        if r ≠ 0 then none
        else if stop then none
        else some (true, fr1, err)

/-- The hook `rerun` of `iterate.c`: `none` is a failed `PC_ASSERT` or a call
through a null function pointer. -/
def rerun {Inst Iter : Type} (E : externals Inst Iter) (fr : frame Inst Iter)
    (err : purc_error) : Option (Bool × frame Inst Iter × purc_error) :=
  match fr.ctxt with
  | none => some (false, fr, err)
  | some ctxt =>
    if ctxt.with_set then rerun_with E ctxt fr err
    else
      match ctxt.exec_inst with
      | none => none
      | some exec_inst =>
        let fr1 := pcintr_inc_percent_var fr
        match ctxt.it with
        | none => none
        | some it =>
          match ctxt.ops with
          | none => none
          | some ops =>
            match ops.it_value exec_inst it with
            | .error e => some (false, fr1, e)
            | .ok value => some (true, pcintr_set_question_var fr1 value, err)

/-- The integer that a guard attribute casts to when its hook evaluates it
while the frame is `fr` (`onlyif` with `force`, `while` without): `none`
without the attribute, when the evaluation fails or when the cast fails. -/
def guard_value {Inst Iter : Type} (E : externals Inst Iter) (fr : frame Inst Iter)
    (force : Bool) (a : Option pcvdom_attr) : Option Int :=
  match a with
  | none => none
  | some g =>
    match eval_vdom_attr E fr g with
    | .error _ => none
    | .ok v => E.purc_variant_cast_to_longint v force

/-- A guard attribute lets the iteration go on: it is absent or casts to an
integer other than 0. -/
def guard_open {Inst Iter : Type} (E : externals Inst Iter) (fr : frame Inst Iter)
    (force : Bool) (a : Option pcvdom_attr) : Bool :=
  match a with
  | none => true
  | some g =>
    match guard_value E fr force (some g) with
    | some i => decide (i ≠ 0)
    | none => false

/-- An evaluation that does not read the stack: every attribute evaluates to
the value its record holds.  With it the hooks above are the hooks of the
section on the iterate element. -/
def constant {Inst Iter : Type} (E : iterate.externals Inst Iter) : externals Inst Iter :=
  { toexternals := E, pcintr_eval_vdom_attr := (fun _ _ a => a.val) }

/-- The other modules of the examples in the mode of `with`, with an
evaluation that reads `%`: the attribute `with` evaluates to 7 while `%` is 0
and to 8 afterwards; every other attribute evaluates to the value its record
holds. -/
def externals_example : externals Unit Unit :=
  { toexternals := with_externals,
    pcintr_eval_vdom_attr := (fun _ p a =>
      if a.key = .WITH then (if p = 0 then .ok (num 16 "7") else .ok (num 18 "8"))
      else a.val) }

/-- The attributes `on=[3,1,2] onlyif=0 with=e`, where the evaluation of `e`
fails and leaves the error INVALID_VALUE behind. -/
def attrs_with_fails : List pcvdom_attr :=
  [⟨.ON, .ok array_3_1_2⟩, ⟨.ONLYIF, .ok (num 15 "0")⟩, ⟨.WITH, .error .INVALID_VALUE⟩]

/-- The attributes `onlyif=0 with=7`, without `on`. -/
def attrs_without_on : List pcvdom_attr :=
  [⟨.ONLYIF, .ok (num 15 "0")⟩, ⟨.WITH, .ok (num 16 "7")⟩]

/-- The attributes `on=[3,1,2] onlyif=0 with=7`. -/
def attrs_onlyif_zero : List pcvdom_attr :=
  [⟨.ON, .ok array_3_1_2⟩, ⟨.ONLYIF, .ok (num 15 "0")⟩, ⟨.WITH, .ok (num 16 "7")⟩]

end on_stack

end iterate

/-! ## Adding and removing the observer of a named variable (`var-mgr.c`) -/

/-- The function `pcvarmgr_dispatch_except`: the messages it dispatches (the
two strings are made without failure). -/
def pcvarmgr_dispatch_except (mgr : pcvarmgr) (name : String) (except_ : String) :
    List dispatched :=
  dispatch_observers name .VAR_EVENT_TYPE_EXCEPT except_ mgr.var_observers

/-- The type that `pcvarmgr_remove_observer` reads from the name of an event:
the chain of comparisons has the three `change:` events and no case for
`except:`. -/
def remove_observer_type (event : String) : var_event_type :=
  if event = "change:attached" then .VAR_EVENT_TYPE_ATTACHED
  else if event = "change:detached" then .VAR_EVENT_TYPE_DETACHED
  else if event = "change:displaced" then .VAR_EVENT_TYPE_DISPLACED
  else .VAR_EVENT_TYPE_ATTACHED

/-- The function `pcvarmgr_remove_observer` called on the stack `stack`:
whether it returns `mgr->object`, the manager and the last error. -/
def pcvarmgr_remove_observer (mgr : pcvarmgr) (name : String) (event : String) (stack : Nat)
    (err : purc_error) : Bool × pcvarmgr × purc_error :=
  match (pcvarmgr_get mgr name err).1 with
  | none => (false, mgr, (pcvarmgr_get mgr name err).2)
  | some _ =>
    match find_var_observe_idx mgr name (remove_observer_type event) stack with
    | some idx => (true, { mgr with var_observers := mgr.var_observers.eraseIdx idx }, err)
    | none => (false, mgr, err)

/-- The two managers that `find_named_var_mgr` chooses between. -/
inductive named_var_mgr where
  | document
  | instance_
deriving DecidableEq, Repr

/-- The function `find_named_var_mgr`: the manager of the document when it
binds the name, else the manager of the instance when that one does. -/
def find_named_var_mgr (stack : pcintr_stack) (name : String) (err : purc_error) :
    Option named_var_mgr × purc_error :=
  match find_doc_buildin_var stack.vdom name err with
  | (some _, _) => (some .document, .OK)
  | (none, e1) =>
    match find_inst_var stack.inst_variables name e1 with
    | (some _, _) => (some .instance_, .OK)
    | (none, e2) => (none, e2)

/-- The function `pcintr_add_named_var_observer` for the stack `stack` with
the number `id` (`stack` and `name` are not null): whether it returns the
observed object, the stack and the last error. -/
def pcintr_add_named_var_observer (stack : pcintr_stack) (id : Nat) (name : String)
    (event : String) (err : purc_error) : Bool × pcintr_stack × purc_error :=
  match find_named_var_mgr stack name err with
  | (some .document, e) =>
    (match stack.vdom with
     | some mgr =>
       let r := pcvarmgr_add_observer mgr name event id e
       (r.1, { stack with vdom := some r.2.1 }, r.2.2)
     | none => (false, stack, e))
  | (some .instance_, e) =>
    let r := pcvarmgr_add_observer stack.inst_variables name event id e
    (r.1, { stack with inst_variables := r.2.1 }, r.2.2)
  | (none, e) => (false, stack, e)

/-- The second half of `pcintr_remove_named_var_observer`: the removal from
the manager of the instance. -/
def remove_inst_var_observer (stack : pcintr_stack) (id : Nat) (name : String)
    (event : String) (err : purc_error) : Bool × pcintr_stack × purc_error :=
  match find_inst_var stack.inst_variables name err with
  | (some _, _) =>
    let r := pcvarmgr_remove_observer stack.inst_variables name event id .OK
    (r.1, { stack with inst_variables := r.2.1 }, r.2.2)
  | (none, e) => (false, stack, e)

/-- The function `pcintr_remove_named_var_observer` for the stack `stack`
with the number `id`: the removal is tried on the manager of the document and,
when that returns the invalid variant, on the manager of the instance. -/
def pcintr_remove_named_var_observer (stack : pcintr_stack) (id : Nat) (name : String)
    (event : String) (err : purc_error) : Bool × pcintr_stack × purc_error :=
  match find_doc_buildin_var stack.vdom name err, stack.vdom with
  | (some _, _), some mgr =>
    let r := pcvarmgr_remove_observer mgr name event id .OK
    if r.1 then (true, { stack with vdom := some r.2.1 }, r.2.2)
    else remove_inst_var_observer { stack with vdom := some r.2.1 } id name event r.2.2
  | (_, e), _ => remove_inst_var_observer stack id name event e

/-- The observer records of the two managers of a stack: those of the
document, then those of the instance. -/
def pcintr_stack.observers (stack : pcintr_stack) : List var_observe × List var_observe :=
  ((match stack.vdom with
    | some mgr => mgr.var_observers
    | none => []), stack.inst_variables.var_observers)

/-- A stack whose document binds `x` to an empty array and whose instance
binds nothing; the observer records of the document are `obs`. -/
def stack_with_x (obs : List var_observe) : pcintr_stack :=
  { bottom_frame := { scope := none, pos := none, exclamation_var := none },
    parents := [],
    vdom := some ⟨.cons (purc_variant_make_string 1 "x") (.array 7 1 0 .nil) .nil, obs⟩,
    inst_variables := ⟨.nil, []⟩ }

/-- The stack after the stack `id` adds an observer and removes it right
away. -/
def add_then_remove (stack : pcintr_stack) (id : Nat) (name : String) (event : String) :
    pcintr_stack :=
  (pcintr_remove_named_var_observer
    (pcintr_add_named_var_observer stack id name event .OK).2.1 id name event
    (pcintr_add_named_var_observer stack id name event .OK).2.2).2.1

/-! ## The mode of the document (`interpreter/body.c`, `interpreter/undefined.c`) -/

/-- Modelled from the spec: the modes of `stack->mode` (the enum is declared
outside the given sources), in the order of the chain of section 3:
"`BEFORE_HVML → BEFORE_HEAD → IN_HEAD → AFTER_HEAD → IN_BODY → AFTER_BODY →
AFTER_HVML`". -/
inductive stack_vdom_mode where
  | STACK_VDOM_BEFORE_HVML
  | STACK_VDOM_BEFORE_HEAD
  | STACK_VDOM_IN_HEAD
  | STACK_VDOM_AFTER_HEAD
  | STACK_VDOM_IN_BODY
  | STACK_VDOM_AFTER_BODY
  | STACK_VDOM_AFTER_HVML
deriving DecidableEq, Repr

/-- The position of a mode in the chain. -/
def stack_vdom_mode.rank : stack_vdom_mode → Nat
  | .STACK_VDOM_BEFORE_HVML => 0
  | .STACK_VDOM_BEFORE_HEAD => 1
  | .STACK_VDOM_IN_HEAD => 2
  | .STACK_VDOM_AFTER_HEAD => 3
  | .STACK_VDOM_IN_BODY => 4
  | .STACK_VDOM_AFTER_BODY => 5
  | .STACK_VDOM_AFTER_HVML => 6

/-- The immediate successor of a mode in the chain; the last mode has none. -/
def stack_vdom_mode.successor : stack_vdom_mode → Option stack_vdom_mode
  | .STACK_VDOM_BEFORE_HVML => some .STACK_VDOM_BEFORE_HEAD
  | .STACK_VDOM_BEFORE_HEAD => some .STACK_VDOM_IN_HEAD
  | .STACK_VDOM_IN_HEAD => some .STACK_VDOM_AFTER_HEAD
  | .STACK_VDOM_AFTER_HEAD => some .STACK_VDOM_IN_BODY
  | .STACK_VDOM_IN_BODY => some .STACK_VDOM_AFTER_BODY
  | .STACK_VDOM_AFTER_BODY => some .STACK_VDOM_AFTER_HVML
  | .STACK_VDOM_AFTER_HVML => none

/-- A child node of an element of the vDOM with what the hooks of `body.c` and
`undefined.c` read from it: an element (named by a number), a content node
with the result of `pcvcm_eval` on its expression (`none` when `content->vcm`
is null; the evaluator is outside the given sources), or a comment. -/
inductive pcvdom_node where
  | element (id : Nat)
  | content (vcm : Option (Except purc_error Variant))
  | comment
deriving DecidableEq

/-- The kind of a child node, which is all that the hooks of `iterate.c` and
`sort.c` read from it. -/
def pcvdom_node.kind : pcvdom_node → iterate.pcvdom_node
  | .element id => .element id
  | .content _ => .content
  | .comment => .comment

namespace body

/-- The frame context `struct ctxt_for_body`; `curr` is the index of the child
that `select_child` looked at last. -/
structure ctxt_for_body where
  curr : Option Nat
deriving DecidableEq, Repr

/-- Modelled from the spec: `pcintr_vdom_walk_attrs` with the callback
`attr_found` of `body.c`, which hands every attribute to
`pcintr_set_edom_attribute` (outside the given sources; here `set`, with the
error a failure leaves): the attributes are visited in document order and the
walk stops at the first failure. -/
def walk_attrs (set : pcvdom_attr → Except purc_error Unit) (err : purc_error) :
    List pcvdom_attr → Int × purc_error
  | [] => (0, err)
  | a :: rest =>
    match set a with
    | .error e => (-1, e)
    | .ok _ => walk_attrs set err rest

/-- The hook `after_pushed` of `body.c` (the allocation succeeds): `none` is a
failed `PC_ASSERT`, otherwise the mode of the stack, the context it returns
(`none` for the null pointer) and the last error. -/
def after_pushed (set : pcvdom_attr → Except purc_error Unit) (mode : stack_vdom_mode)
    (attrs : List pcvdom_attr) (err : purc_error) :
    Option (stack_vdom_mode × Option ctxt_for_body × purc_error) :=
  let switched : Option stack_vdom_mode :=
    match mode with
    | .STACK_VDOM_BEFORE_HVML => none
    | .STACK_VDOM_BEFORE_HEAD => some .STACK_VDOM_IN_BODY
    | .STACK_VDOM_IN_HEAD => none
    | .STACK_VDOM_AFTER_HEAD => some .STACK_VDOM_IN_BODY
    | .STACK_VDOM_IN_BODY => none
    | .STACK_VDOM_AFTER_BODY => none
    | .STACK_VDOM_AFTER_HVML => none
  match switched with
  | none => none
  | some mode1 =>
    if (walk_attrs set err attrs).1 ≠ 0 then some (mode1, none, (walk_attrs set err attrs).2)
    else some (mode1, some ⟨none⟩, .OK)

/-- The hook `on_popping` of `body.c`: `none` is a failed `PC_ASSERT`,
otherwise the result, the mode of the stack and the context of the frame. -/
def on_popping (mode : stack_vdom_mode) (_ctxt : Option ctxt_for_body) :
    Option (Bool × stack_vdom_mode × Option ctxt_for_body) :=
  if mode = .STACK_VDOM_IN_BODY then some (true, .STACK_VDOM_AFTER_BODY, none)
  else none

end body

namespace undefined

/-- The switch on `stack->mode` at the head of the hook `after_pushed` of
`undefined.c`: `none` is a failed `PC_ASSERT`, otherwise the mode of the
stack.  The rest of the hook builds the element of the eDOM and assigns no
mode. -/
def after_pushed_mode (mode : stack_vdom_mode) : Option stack_vdom_mode :=
  match mode with
  | .STACK_VDOM_BEFORE_HVML => none
  | .STACK_VDOM_BEFORE_HEAD => some .STACK_VDOM_IN_BODY
  | .STACK_VDOM_IN_HEAD => some .STACK_VDOM_IN_HEAD
  | .STACK_VDOM_AFTER_HEAD => some .STACK_VDOM_IN_BODY
  | .STACK_VDOM_IN_BODY => some .STACK_VDOM_IN_BODY
  | .STACK_VDOM_AFTER_BODY => none
  | .STACK_VDOM_AFTER_HVML => none

/-- The frame context `struct ctxt_for_undefined`; `curr` is the index of the
child that `select_child` looked at last. -/
structure ctxt_for_undefined where
  curr : Option Nat
  href : Option Variant
deriving DecidableEq

/-- The hook `on_popping` of `undefined.c`: the result, the mode of the stack,
which it does not touch, and the context of the frame. -/
def on_popping (mode : stack_vdom_mode) (_ctxt : Option ctxt_for_undefined) :
    Bool × stack_vdom_mode × Option ctxt_for_undefined :=
  (true, mode, none)

end undefined

/-! ## The selection of the children (`elements/sort.c`, `interpreter/body.c`, `interpreter/undefined.c`) -/

namespace sort

/-- The hook `select_child` of `sort.c` on an element with the given children,
for a stack without a back anchor; `except_` is whether `stack->except` is
set.  The result `none` is a failed `PC_ASSERT`, otherwise the selected
element (`none` for the null pointer), the context of the frame and the last
error. -/
def select_child (children : List iterate.pcvdom_node) (except_ : Bool)
    (ctxt : Option ctxt_for_sort) (err : purc_error) :
    Option (Option Nat × Option ctxt_for_sort × purc_error) :=
  match ctxt with
  | none => some (none, none, err)
  | some c =>
    let start := match c.curr with
      | none => 0
      | some i => i + 1
    match iterate.next_element (children.drop start) start with
    | none => some (none, some { c with curr := none }, .OK)
    | some (i, id) =>
      if except_ then none else some (some id, some { c with curr := some i }, err)

end sort

namespace body

/-- The function `on_content` of `body.c`: the texts appended to the element
of the eDOM so far and the last error, which the function clears after the
evaluation; `none` is a failed `PC_ASSERT` (the evaluation failed, or the
value is not a string). -/
def on_content (vcm : Option (Except purc_error Variant)) (edom : List String)
    (err : purc_error) : Option (List String × purc_error) :=
  match vcm with
  | none => some (edom, err)
  | some (.error _) => none
  | some (.ok v) =>
    if purc_variant_is_string v then
      some (edom ++ [(purc_variant_get_string_const v).getD ""], .OK)
    else none

/-- The loop `again:` of `select_child` of `body.c` over the nodes that follow
the cursor, the head of which has index `i`: the cursor it ends with, the
selected element, the texts of the eDOM and the last error; `none` is a
failed `PC_ASSERT`. -/
def select_loop (except_ : Bool) :
    List pcvdom_node → Nat → List String → purc_error →
      Option (Option (Nat × Nat) × List String × purc_error)
  | [], _, edom, _ => some (none, edom, .OK)
  | .element id :: _, i, edom, err =>
    if except_ then none else some (some (i, id), edom, err)
  | .content vcm :: rest, i, edom, err =>
    match on_content vcm edom err with
    | none => none
    | some (edom1, err1) => select_loop except_ rest (i + 1) edom1 err1
  | .comment :: rest, i, edom, err => select_loop except_ rest (i + 1) edom err

/-- The hook `select_child` of `body.c`: `none` is a failed `PC_ASSERT` or the
use of a null context, otherwise the selected element (`none` for the null
pointer), the context, the texts of the eDOM and the last error. -/
def select_child (children : List pcvdom_node) (except_ : Bool)
    (ctxt : Option ctxt_for_body) (edom : List String) (err : purc_error) :
    Option (Option Nat × ctxt_for_body × List String × purc_error) :=
  match ctxt with
  | none => none
  | some c =>
    let start := match c.curr with
      | none => 0
      | some i => i + 1
    match select_loop except_ (children.drop start) start edom err with
    | none => none
    | some (none, edom1, err1) => some (none, { c with curr := none }, edom1, err1)
    | some (some (i, id), edom1, err1) => some (some id, { c with curr := some i }, edom1, err1)

end body

namespace undefined

/-- The function `on_content` of `undefined.c`; `stringify` is
`purc_variant_stringify_alloc` (outside the given sources; `none` when it
fails).  The result is the list of the texts and chunks added to the element
of the eDOM so far and the last error, which the function clears after the
evaluation; `none` is a failed `PC_ASSERT`. -/
def on_content (stringify : Variant → Option String)
    (vcm : Option (Except purc_error Variant)) (edom : List String) (err : purc_error) :
    Option (List String × purc_error) :=
  match vcm with
  | none => some (edom, err)
  | some (.error _) => none
  | some (.ok v) =>
    if purc_variant_is_string v then
      some (edom ++ [(purc_variant_get_string_const v).getD ""], .OK)
    else
      match stringify v with
      | none => none
      | some sv => some (edom ++ [sv], .OK)

/-- The loop `again:` of `select_child` of `undefined.c` over the nodes that
follow the cursor, the head of which has index `i`; the step from a node to
its sibling clears the last error. -/
def select_loop (stringify : Variant → Option String) (except_ : Bool) :
    List pcvdom_node → Nat → List String → purc_error →
      Option (Option (Nat × Nat) × List String × purc_error)
  | [], _, edom, _ => some (none, edom, .OK)
  | .element id :: _, i, edom, err =>
    if except_ then none else some (some (i, id), edom, err)
  | .content vcm :: rest, i, edom, err =>
    match on_content stringify vcm edom err with
    | none => none
    | some (edom1, _) =>
      if except_ then none else select_loop stringify except_ rest (i + 1) edom1 .OK
  | .comment :: rest, i, edom, _ =>
    if except_ then none else select_loop stringify except_ rest (i + 1) edom .OK

/-- The hook `select_child` of `undefined.c`: `none` is a failed `PC_ASSERT`
or the use of a null context. -/
def select_child (stringify : Variant → Option String) (children : List pcvdom_node)
    (except_ : Bool) (ctxt : Option ctxt_for_undefined) (edom : List String)
    (err : purc_error) :
    Option (Option Nat × ctxt_for_undefined × List String × purc_error) :=
  if except_ then none
  else
    match ctxt with
    | none => none
    | some c =>
      let start := match c.curr with
        | none => 0
        | some i => i + 1
      let err0 := match c.curr with
        | none => err
        | some _ => .OK
      match select_loop stringify except_ (children.drop start) start edom err0 with
      | none => none
      | some (none, edom1, err1) => some (none, { c with curr := none }, edom1, err1)
      | some (some (i, id), edom1, err1) =>
        some (some id, { c with curr := some i }, edom1, err1)

end undefined

/-- Successive calls of a hook `select_child`, with `step` for one call on the
state of the frame: the elements returned before the first null and the state
after it; `none` when a call is stopped by an assertion (or when `n` calls
return no null). -/
def select_until_null {σ : Type} (step : σ → Option (Option Nat × σ)) :
    Nat → σ → Option (List Nat × σ)
  | 0, _ => none
  | n + 1, s =>
    match step s with
    | none => none
    | some (none, s1) => some ([], s1)
    | some (some id, s1) =>
      match select_until_null step n s1 with
      | none => none
      | some (ids, s2) => some (id :: ids, s2)

/-- One call of `select_child` of `iterate.c` as a step on the frame. -/
def iterate.select_step {Inst Iter : Type} (children : List PurC.pcvdom_node)
    (fr : iterate.frame Inst Iter) : Option (Option Nat × iterate.frame Inst Iter) :=
  some ((iterate.select_child (children.map PurC.pcvdom_node.kind) fr .OK).1,
    (iterate.select_child (children.map PurC.pcvdom_node.kind) fr .OK).2.1)

/-- One call of `select_child` of `sort.c` as a step on the context. -/
def sort.select_step (children : List pcvdom_node) (ctxt : Option sort.ctxt_for_sort) :
    Option (Option Nat × Option sort.ctxt_for_sort) :=
  (sort.select_child (children.map pcvdom_node.kind) false ctxt .OK).map
    (fun r => (r.1, r.2.1))

/-- One call of `select_child` of `body.c` as a step on the context and the
texts of the eDOM. -/
def body.select_step (children : List pcvdom_node)
    (s : Option body.ctxt_for_body × List String) :
    Option (Option Nat × Option body.ctxt_for_body × List String) :=
  (body.select_child children false s.1 s.2 .OK).map (fun r => (r.1, some r.2.1, r.2.2.1))

/-- One call of `select_child` of `undefined.c` as a step on the context and
the texts of the eDOM. -/
def undefined.select_step (stringify : Variant → Option String)
    (children : List pcvdom_node) (s : Option undefined.ctxt_for_undefined × List String) :
    Option (Option Nat × Option undefined.ctxt_for_undefined × List String) :=
  (undefined.select_child stringify children false s.1 s.2 .OK).map
    (fun r => (r.1, some r.2.1, r.2.2.1))

/-- The child elements of an element, in document order. -/
def element_children : List pcvdom_node → List Nat
  | [] => []
  | .element id :: rest => id :: element_children rest
  | .content _ :: rest => element_children rest
  | .comment :: rest => element_children rest

/-- The children `text, <5>, comment, <6>` of an element, the text being the
string "a". -/
def children_text : List pcvdom_node :=
  [.content (some (.ok (purc_variant_make_string 20 "a"))), .element 5, .comment, .element 6]

/-- The children `$n, <5>, comment, <6>` of an element, the expression `$n`
evaluating to the number 1. -/
def children_number : List pcvdom_node :=
  [.content (some (.ok (iterate.num 20 "1"))), .element 5, .comment, .element 6]

/-- A `purc_variant_stringify_alloc` for the examples: the characters of a
scalar. -/
def stringify_example (v : Variant) : Option String :=
  match v with
  | .leaf _ _ _ _ _ d => some d
  | _ => none

/-! ## The expiration of a timer (`timer.cpp`) -/

namespace timer

/-- Modelled from the spec: the states of a coroutine that `PurcTimer::fired`
tests (the enum is declared outside the given sources; section 3,
"Coroutine": "ready | running | waiting"). -/
inductive pcintr_coroutine_state where
  | CO_STATE_READY
  | CO_STATE_RUN
  | CO_STATE_WAIT
deriving DecidableEq, Repr

/-- What `PurcTimer::fired` and `PurcTimer::processed` read and write: the
members `m_fired` and `m_for_yielded`, whether the timer of the run loop is
active, whether `m_cancel` is registered, and three counts: the messages
posted with `pcintr_post_msg_to_target`, the runs of `on_event_fire` and the
calls of `pcintr_resume`.  The counter `m_fired` is an `int`; it stays between
-1 and 1 here, far from its bounds. -/
structure fire_state where
  m_fired : Int
  m_for_yielded : Bool
  active : Bool
  cancel_registered : Bool
  posted : Nat
  delivered : Nat
  resumed : Nat
deriving DecidableEq, Repr

/-- The timer that the constructor of `PurcTimer` leaves, once started. -/
def fire_state.create (for_yielded : Bool) : fire_state :=
  { m_fired := 0, m_for_yielded := for_yielded, active := true,
    cancel_registered := !for_yielded, posted := 0, delivered := 0, resumed := 0 }

/-- The method `PurcTimer::processed`: `none` is the failed `PC_ASSERT`. -/
def processed (s : fire_state) : Option fire_state :=
  if s.m_fired - 1 ≥ 0 then some { s with m_fired := s.m_fired - 1 } else none

/-- The function `on_event_fire`, the delivery of a posted message:
`pcintr_timer_processed`, then the callback of the timer, which is outside the
given sources and is counted only. -/
def on_event_fire (s : fire_state) : Option fire_state :=
  match processed s with
  | none => none
  | some s1 => some { s1 with delivered := s1.delivered + 1 }

/-- The method `PurcTimer::fired`, the expiration of the timer: `exited` is
`m_coroutine->stack.exited`, `current` is whether `pcintr_get_coroutine()`
returns a coroutine and `state` is `m_coroutine->state`, which the calls made
here leave as it is.  The result `none` is a failed `PC_ASSERT`. -/
def fired (exited current : Bool) (state : pcintr_coroutine_state) (s : fire_state) :
    Option fire_state :=
  if s.m_fired ≠ 0 then some s
  else if exited then
    if s.m_for_yielded then none
    else some { s with cancel_registered := false, active := false }
  else if current then none
  else
    match state with
    | .CO_STATE_WAIT =>
      if s.m_for_yielded then
        some { s with m_fired := s.m_fired + 1, active := false, resumed := s.resumed + 1 }
      else some { s with m_fired := s.m_fired + 1, posted := s.posted + 1 }
    | .CO_STATE_READY => some { s with m_fired := s.m_fired + 1, posted := s.posted + 1 }
    | .CO_STATE_RUN => none

/-- What happens to a timer: it expires, or the message of an expiration is
delivered. -/
inductive fire_event where
  | expire (exited current : Bool) (state : pcintr_coroutine_state)
  | deliver
deriving DecidableEq, Repr

/-- One event on a timer; `none` is a failed `PC_ASSERT`. -/
def fire_step (s : fire_state) : fire_event → Option fire_state
  | .expire exited current state => fired exited current state s
  | .deliver => on_event_fire s

/-- The states that a timer goes through in a sequence of events, the first
one included, up to the end or to a failed `PC_ASSERT`. -/
def fire_states (s : fire_state) : List fire_event → List fire_state
  | [] => [s]
  | e :: rest =>
    match fire_step s e with
    | none => [s]
    | some s1 => s :: fire_states s1 rest

/-- A completion only follows a posted delivery: at every delivery of the
sequence a posted message has not been delivered yet. -/
def deliveries_follow_posts (s : fire_state) : List fire_event → Bool
  | [] => true
  | e :: rest =>
    (match e with
     | .deliver => decide (s.delivered < s.posted)
     | .expire _ _ _ => true) &&
    (match fire_step s e with
     | none => true
     | some s1 => deliveries_follow_posts s1 rest)

/-- A timer of `$TIMERS` expires three times while its coroutine is ready, the
last two times before the delivery; after the delivery it expires again. -/
def fire_example : List fire_event :=
  [.expire false false .CO_STATE_READY, .expire false false .CO_STATE_READY,
   .expire false false .CO_STATE_WAIT, .deliver, .expire false false .CO_STATE_READY]

/-- The state of the timer of `fire_example` after its first expiration. -/
def fire_example_state : fire_state :=
  { m_fired := 1, m_for_yielded := false, active := true, cancel_registered := true,
    posted := 1, delivered := 0, resumed := 0 }

/-- What every state of a timer satisfies: `m_fired` is 0 or 1 and covers the
messages that are posted and not delivered. -/
def fire_inv (s : fire_state) : Prop :=
  (s.m_fired = 0 ∨ s.m_fired = 1) ∧ s.delivered ≤ s.posted ∧
    (s.posted : Int) - s.delivered ≤ s.m_fired

end timer

/-! ## The creation of an instance (`instance/instance.c`) -/

/-- The part of `struct pcinst` that `instance.c` reads and writes when an
instance is created: `linked` is whether `node.prev` or `node.next` is set,
`local_data_map` whether the map exists.  The list `inited` is not a field of
the structure: it records the indices of the modules of the table whose
callback `init_instance` was called on the instance, in the order of the
calls. -/
structure pcinst where
  modules : Nat
  runner_name : Option String
  app_name : Option String
  linked : Bool
  errcode : purc_error
  endpoint_atom : Nat
  local_data_map : Bool
  max_conns : Nat
  cache_quota : Nat
  enable_remote_fetcher : Nat
  inited : List Nat
deriving DecidableEq, Repr

/-- The record `struct pcmodule` as far as the creation of an instance reads
it: the bits `id` and the callback `init_instance` (`none` for the null
pointer), which returns 0 when it succeeds.  The callbacks of the modules are
outside the given sources. -/
structure pcmodule where
  id : Nat
  init_instance : Option (pcinst → Int)

/-- The record `struct hvml_app`: the list `instances` holds the threads whose
instance is linked, in list order (every thread has one instance, its
thread-local `inst`). -/
structure hvml_app where
  instances : List Nat
  init_ok : Bool
  name : Option String
deriving DecidableEq, Repr

/-- The state of the process around `purc_init_ex`, after `init_once` has
run: the flag `_init_ok`, the record `_app`, the thread-local `inst` of every
thread and the strings of the atom bucket `PURC_ATOM_BUCKET_USER` (atom `n + 1`
is the `n`-th string). -/
structure process where
  _init_ok : Bool
  _app : hvml_app
  inst : Nat → pcinst
  atoms : List String

/-- The constants and functions of other modules that `purc_init_ex` uses:
the masks `PURC_MODULE_ALL` and `PURC_HAVE_FETCHER_R`, the first argument of
the command line as `pcutils_get_cmdline_arg` gives it (empty when it gives
nothing) and `purc_assemble_endpoint_name` on a host, an app and a runner
(`none` when it returns 0). -/
structure instance_externals where
  PURC_MODULE_ALL : Nat
  PURC_HAVE_FETCHER_R : Nat
  cmdline_arg : String
  purc_assemble_endpoint_name : String → String → String → Option String

/-- The constant `PCRDR_LOCALHOST`. -/
def PCRDR_LOCALHOST : String := "localhost"

/-- The constant `FETCHER_MAX_CONNS`. -/
def FETCHER_MAX_CONNS : Nat := 100

/-- The constant `FETCHER_CACHE_QUOTA`. -/
def FETCHER_CACHE_QUOTA : Nat := 10240

/-- Modelled from the spec: `purc_atom_try_string_ex` on a bucket (section 3,
"Atom": "interned string"): the atom of a string that is interned, else 0. -/
def purc_atom_try_string_ex (atoms : List String) (s : String) : Nat :=
  if s ∈ atoms then atoms.indexOf s + 1 else 0

/-- Modelled from the spec: `purc_atom_from_string_ex` on a bucket: the atom
of the string, interned on the way when it was not; the allocation succeeds. -/
def purc_atom_from_string_ex (atoms : List String) (s : String) : Nat × List String :=
  if s ∈ atoms then (atoms.indexOf s + 1, atoms) else (atoms.length + 1, atoms ++ [s])

/-- The function `app_set_name` (`strdup` succeeds). -/
def app_set_name (app : hvml_app) (app_name : String) : purc_error × hvml_app :=
  match app.name with
  | some name => if name ≠ app_name then (.DUPLICATED, app) else (.OK, app)
  | none => (.OK, { app with name := some app_name })

/-- The loop `list_for_each_entry` of `app_new_inst` over the instances of
the list. -/
def app_new_inst_scan (P : process) (t : Nat) (runner_name : String) : List Nat → purc_error
  | [] => .OK
  | p :: rest =>
    if p = t then .DUPLICATED
    else if (P.inst p).runner_name = some runner_name then .DUPLICATED
    else app_new_inst_scan P t runner_name rest

/-- The function `app_new_inst` on the thread `t` (its thread-local instance
exists, `strdup` succeeds): the result, the process and `*pcurr_inst`. -/
def app_new_inst (P : process) (t : Nat) (runner_name : String) :
    purc_error × process × Option Nat :=
  if (P.inst t).modules ≠ 0 ∨ (P.inst t).runner_name.isSome then (.DUPLICATED, P, none)
  else if (P.inst t).linked then (.DUPLICATED, P, none)
  else if app_new_inst_scan P t runner_name P._app.instances ≠ .OK then
    (app_new_inst_scan P t runner_name P._app.instances, P, none)
  else
    (.OK,
      { P with
        inst := Function.update P.inst t
          { P.inst t with runner_name := some runner_name, errcode := .OK,
                          app_name := P._app.name, linked := true },
        _app := { P._app with instances := P._app.instances ++ [t] } },
      some t)

/-- The function `cleanup_instance` on the instance of the thread `t` (the
log and the backtrace are not represented; `list_del` leaves the node
unlinked). -/
def cleanup_instance (P : process) (t : Nat) : process :=
  { P with
    inst := Function.update P.inst t
      { P.inst t with local_data_map := false, linked := false, runner_name := none,
                      app_name := none, modules := 0 },
    _app := if (P.inst t).linked then { P._app with instances := P._app.instances.erase t }
      else P._app }

/-- The function `_init_instance` over the modules of the table from the index
`i` on: the result and the instance. -/
def _init_instance (modules : Nat) : List pcmodule → Nat → pcinst → Int × pcinst
  | [], _, curr_inst => (0, curr_inst)
  | m :: rest, i, curr_inst =>
    if m.id &&& modules ≠ m.id then _init_instance modules rest (i + 1) curr_inst
    else
      match m.init_instance with
      | none => _init_instance modules rest (i + 1) curr_inst
      | some init =>
        if init curr_inst ≠ 0 then (-1, { curr_inst with inited := curr_inst.inited ++ [i] })
        else
          _init_instance modules rest (i + 1)
            { curr_inst with inited := curr_inst.inited ++ [i] }

/-- The function `instance_init_modules` on the instance of the thread `t`
with the module table `table` (the log is not represented, the map is
created; `app_new_inst` has set the two names of the instance, an unset name
reads as the empty string here). -/
def instance_init_modules (E : instance_externals) (table : List pcmodule) (P : process)
    (t : Nat) (modules : Nat) : purc_error × process :=
  let c1 := { P.inst t with modules := modules }
  let P1 := { P with inst := Function.update P.inst t c1 }
  match E.purc_assemble_endpoint_name PCRDR_LOCALHOST (c1.app_name.getD "")
      (c1.runner_name.getD "") with
  | none => (.INVALID_VALUE, P1)
  | some endpoint_name =>
    let endpoint_atom := purc_atom_try_string_ex P.atoms endpoint_name
    if c1.endpoint_atom = 0 ∧ endpoint_atom ≠ 0 then (.DUPLICATED, P1)
    else if c1.endpoint_atom ≠ 0 ∧ c1.endpoint_atom ≠ endpoint_atom then (.INVALID_VALUE, P1)
    else
      let a := purc_atom_from_string_ex P.atoms endpoint_name
      let c2 := { c1 with endpoint_atom := a.1, local_data_map := true }
      if c2.endpoint_atom = 0 then
        (.OUT_OF_MEMORY, { P with inst := Function.update P.inst t c2, atoms := a.2 })
      else
        let c3 := { c2 with max_conns := FETCHER_MAX_CONNS, cache_quota := FETCHER_CACHE_QUOTA,
                            enable_remote_fetcher := modules &&& E.PURC_HAVE_FETCHER_R }
        let r := _init_instance modules table 0 c3
        (.OK, { P with inst := Function.update P.inst t r.2, atoms := a.2 })

/-- The function `pcinst_cleanup` (the cleanup callbacks of the modules are
outside the given sources and not represented). -/
def pcinst_cleanup (P : process) (curr_inst : Option Nat) : Bool × process :=
  match curr_inst with
  | none => (false, P)
  | some t => if (P.inst t).app_name.isNone then (false, P) else (true, cleanup_instance P t)

/-- The function `purc_init_ex` called on the thread `t` with the module table
`table`; `none` for a name is the null pointer. -/
def purc_init_ex (E : instance_externals) (table : List pcmodule) (P : process) (t : Nat)
    (modules : Nat) (app_name runner_name : Option String) : purc_error × process :=
  let modules := if modules = 0 then E.PURC_MODULE_ALL else modules
  if modules = 0 then (.NO_INSTANCE, P)
  else
    let app_name := match app_name with
      | some name => name
      | none => if E.cmdline_arg.length > 0 then E.cmdline_arg else "unknown"
    let runner_name := runner_name.getD "unknown"
    if P._init_ok = false then (.NO_INSTANCE, P)
    else if P._app.init_ok = false then (.NO_INSTANCE, P)
    else
      let r1 := app_set_name P._app app_name
      let P1 := { P with _app := r1.2 }
      if r1.1 ≠ .OK then (r1.1, (pcinst_cleanup P1 none).2)
      else
        let r2 := app_new_inst P1 t runner_name
        if r2.1 ≠ .OK then (r2.1, (pcinst_cleanup r2.2.1 none).2)
        else
          match r2.2.2 with
          | none => (.OUT_OF_MEMORY, (pcinst_cleanup r2.2.1 none).2)
          | some curr_inst =>
            let r3 := instance_init_modules E table r2.2.1 curr_inst modules
            if r3.1 ≠ .OK then
              let P3 := { r3.2 with
                inst := Function.update r3.2.inst curr_inst
                  { r3.2.inst curr_inst with linked := false },
                _app := { r3.2._app with instances := r3.2._app.instances.erase curr_inst } }
              (r3.1, (pcinst_cleanup P3 (some curr_inst)).2)
            else (.OK, r3.2)

/-- A thread-local instance as the loader zeroes it. -/
def pcinst.zero : pcinst :=
  { modules := 0, runner_name := none, app_name := none, linked := false, errcode := .OK,
    endpoint_atom := 0, local_data_map := false, max_conns := 0, cache_quota := 0,
    enable_remote_fetcher := 0, inited := [] }

/-- The other modules of the examples: every module bit is in
`PURC_MODULE_ALL`, the endpoint name is `@host/app/runner`. -/
def instance_externals_example : instance_externals where
  PURC_MODULE_ALL := 65535
  PURC_HAVE_FETCHER_R := 32
  cmdline_arg := "purc"
  purc_assemble_endpoint_name := (fun host app runner =>
    if app = "" ∨ runner = "" then none else some ("@" ++ host ++ "/" ++ app ++ "/" ++ runner))

/-- A table of four modules: the first has no callback, the callbacks of the
second and the fourth succeed, the callback of the third fails. -/
def modules_example : List pcmodule :=
  [⟨1, none⟩, ⟨2, some (fun _ => 0)⟩, ⟨4, some (fun _ => -1)⟩, ⟨8, some (fun _ => 0)⟩]

/-- A process after `init_once`, without an instance. -/
def process.start : process :=
  { _init_ok := true, _app := { instances := [], init_ok := true, name := none },
    inst := (fun _ => pcinst.zero), atoms := [] }

/-- The process after thread 0 created the instance `(app, main)` with all the
modules of `modules_example`. -/
def process_with_main : process :=
  (purc_init_ex instance_externals_example modules_example process.start 0 0 (some "app")
    (some "main")).2

/-! # Theorems -/

set_option maxRecDepth 100000

/-! ## The message queue -/

theorem grind_msg_list_eq_length (l : List pcrdr_msg) : grind_msg_list l = l.length := by
  induction l with
  | nil => rfl
  | cons m rest ih => simp [grind_msg_list, ih]

theorem destroy_eq_holding (q : pcinst_msg_queue) :
    pcinst_msg_queue_destroy q = q.holding := by
  simp [pcinst_msg_queue_destroy, pcinst_msg_queue.holding, grind_msg_list_eq_length]

theorem append_counts (q : pcinst_msg_queue) (m : pcrdr_msg) :
    (pcinst_msg_queue_append q m).holding = q.holding + 1 ∧
    (pcinst_msg_queue_append q m).nr_msgs = q.nr_msgs + 1 := by
  unfold pcinst_msg_queue_append
  split <;> simp [pcinst_msg_queue.holding, is_timer_event_msg] <;> omega

theorem prepend_counts (q : pcinst_msg_queue) (m : pcrdr_msg) :
    (pcinst_msg_queue_prepend q m).holding = q.holding + 1 ∧
    (pcinst_msg_queue_prepend q m).nr_msgs = q.nr_msgs + 1 := by
  unfold pcinst_msg_queue_prepend
  split <;> simp [pcinst_msg_queue.holding, is_timer_event_msg] <;> omega

theorem run_queue_ops_counts (ops : List QueueOp) (q : pcinst_msg_queue) :
    (run_queue_ops q ops).holding = q.holding + ops.length ∧
    (run_queue_ops q ops).nr_msgs = q.nr_msgs + ops.length := by
  induction ops generalizing q with
  | nil => simp [run_queue_ops]
  | cons op rest ih =>
    have h := ih (QueueOp.run q op)
    simp only [run_queue_ops, List.foldl_cons, List.length_cons] at h ⊢
    cases op with
    | append m =>
      have hc := append_counts q m
      simp only [QueueOp.run] at h ⊢
      omega
    | prepend m =>
      have hc := prepend_counts q m
      simp only [QueueOp.run] at h ⊢
      omega

/-- C2: for every sequence of `pcinst_msg_queue_append` and
`pcinst_msg_queue_prepend` calls on a queue made by `pcinst_msg_queue_create`,
`pcinst_msg_queue_destroy` returns the number of messages put in the queue,
which is also the running count `nr_msgs` just before the destroy; appending
three messages and destroying returns 3. -/
theorem C2_destroy_returns_number_of_messages (ops : List QueueOp) :
    pcinst_msg_queue_destroy (run_queue_ops pcinst_msg_queue_create ops) = ops.length ∧
    (run_queue_ops pcinst_msg_queue_create ops).nr_msgs = ops.length ∧
    pcinst_msg_queue_destroy (run_queue_ops pcinst_msg_queue_create ops) =
      (run_queue_ops pcinst_msg_queue_create ops).nr_msgs ∧
    ∀ m1 m2 m3 : pcrdr_msg,
      pcinst_msg_queue_destroy (pcinst_msg_queue_append (pcinst_msg_queue_append
        (pcinst_msg_queue_append pcinst_msg_queue_create m1) m2) m3) = 3 := by
  have h := run_queue_ops_counts ops pcinst_msg_queue_create
  have h0 : pcinst_msg_queue_create.holding = 0 := rfl
  have h1 : pcinst_msg_queue_create.nr_msgs = 0 := rfl
  refine ⟨?_, ?_, ?_, ?_⟩
  · rw [destroy_eq_holding]; omega
  · omega
  · rw [destroy_eq_holding]; omega
  · intro m1 m2 m3
    have h3 := run_queue_ops_counts [.append m1, .append m2, .append m3]
      pcinst_msg_queue_create
    simp only [run_queue_ops, List.foldl_cons, List.foldl_nil, QueueOp.run,
      List.length_cons, List.length_nil] at h3
    rw [destroy_eq_holding]; omega

theorem append_all_lists (ms : List pcrdr_msg) (q : pcinst_msg_queue) :
    (append_all q ms).req_msgs = q.req_msgs ++ ms.filter (fun m => m.type == 1) ∧
    (append_all q ms).res_msgs = q.res_msgs ++ ms.filter (fun m => m.type == 2) ∧
    (append_all q ms).event_msgs =
      q.event_msgs ++ ms.filter (fun m => m.type == 3 && !is_timer_event_msg m) ∧
    (append_all q ms).timer_msgs =
      q.timer_msgs ++ ms.filter (fun m => m.type == 3 && is_timer_event_msg m) ∧
    (append_all q ms).msgs =
      q.msgs ++ ms.filter (fun m => !(m.type == 1 || m.type == 2 || m.type == 3)) := by
  induction ms generalizing q with
  | nil => simp [append_all]
  | cons m rest ih =>
    have h := ih (pcinst_msg_queue_append q m)
    simp only [append_all, List.foldl_cons] at h ⊢
    obtain ⟨h1, h2, h3, h4, h5⟩ := h
    rw [h1, h2, h3, h4, h5]
    clear h1 h2 h3 h4 h5 ih
    unfold pcinst_msg_queue_append
    split
    · rename_i hm; simp [hm, is_timer_event_msg, List.filter_cons]
    · rename_i hm; simp [hm, is_timer_event_msg, List.filter_cons]
    · rename_i hm; simp [hm, is_timer_event_msg, List.filter_cons]
    · rename_i hm; simp [hm, is_timer_event_msg, List.filter_cons]
    · rename_i h0 h1 h2 h3
      have e1 : ¬ m.type = 1 := h1
      have e2 : ¬ m.type = 2 := h2
      have e3 : ¬ m.type = 3 := h3
      simp [e1, e2, e3, is_timer_event_msg, List.filter_cons]

/-- C4: for every sequence of `pcinst_msg_queue_append` calls on a queue, each
list of the queue holds, after what it held before, the messages routed to it
in the order in which they were appended. -/
theorem C4_append_keeps_fifo_order (q : pcinst_msg_queue) (ms : List pcrdr_msg) :
    (append_all q ms).req_msgs =
      q.req_msgs ++ ms.filter (fun m => m.type == PCRDR_MSG_TYPE_REQUEST) ∧
    (append_all q ms).res_msgs =
      q.res_msgs ++ ms.filter (fun m => m.type == PCRDR_MSG_TYPE_RESPONSE) ∧
    (append_all q ms).event_msgs =
      q.event_msgs ++
        ms.filter (fun m => m.type == PCRDR_MSG_TYPE_EVENT && !is_timer_event_msg m) ∧
    (append_all q ms).timer_msgs =
      q.timer_msgs ++
        ms.filter (fun m => m.type == PCRDR_MSG_TYPE_EVENT && is_timer_event_msg m) ∧
    (append_all q ms).msgs =
      q.msgs ++ ms.filter (fun m => !(m.type == PCRDR_MSG_TYPE_REQUEST ||
        m.type == PCRDR_MSG_TYPE_RESPONSE || m.type == PCRDR_MSG_TYPE_EVENT)) :=
  append_all_lists ms q

/-! ## Name resolution -/

theorem find_named_temp_var_eq (name : String) (frames : List pcintr_stack_frame) :
    _find_named_temp_var name frames = frames.findSome? (temp_binding name) := by
  induction frames with
  | nil => rfl
  | cons p rest ih =>
    simp only [_find_named_temp_var, List.findSome?_cons, temp_binding]
    cases hx : p.exclamation_var with
    | none => simpa using ih
    | some tmp =>
      simp only
      by_cases ht : tmp.type = .OBJECT
      · simp only [ht, ne_eq, not_true_eq_false, if_false]
        cases hg : purc_variant_object_get_by_ckey tmp name with
        | none => simpa using ih
        | some v => rfl
      · have hn : purc_variant_object_get_by_ckey tmp name = none := by
          unfold purc_variant_object_get_by_ckey
          cases tmp <;> simp_all [Variant.type]
        simp only [ne_eq, ht, not_false_eq_true, if_true, hn]
        exact ih

theorem find_named_scope_var_in_vdom_eq (name : String) (err : purc_error)
    (e : pcvdom_element) :
    _find_named_scope_var_in_vdom name err e =
      match (element_chain e).findSome? (fun x => pcintr_get_scope_variable x name) with
      | some v => (some v, err)
      | none => (none, .NOT_FOUND) := by
  induction e with
  | root t m =>
    simp only [_find_named_scope_var_in_vdom, element_chain, List.findSome?_cons,
      List.findSome?_nil]
    cases pcintr_get_scope_variable (.root t m) name <;> rfl
  | child t m p ih =>
    simp only [_find_named_scope_var_in_vdom, element_chain, List.findSome?_cons]
    cases pcintr_get_scope_variable (.child t m p) name with
    | none => simpa using ih
    | some v => rfl

theorem find_named_scope_var_again_eq (name : String) (err : purc_error)
    (parents : List pcintr_stack_frame) (elem : pcvdom_element) :
    _find_named_scope_var_again name err elem parents =
      match (elem :: enclosing_elements parents).findSome?
          (fun x => pcintr_get_scope_variable x name) with
      | some v => (some v, err)
      | none => (none, .NOT_FOUND) := by
  induction parents generalizing elem with
  | nil =>
    simp only [_find_named_scope_var_again, enclosing_elements, List.findSome?_cons,
      List.findSome?_nil]
    cases pcintr_get_scope_variable elem name <;> rfl
  | cons frame rest ih =>
    simp only [_find_named_scope_var_again, enclosing_elements, List.findSome?_cons]
    cases pcintr_get_scope_variable elem name with
    | some v => rfl
    | none =>
      simp only
      cases hs : frame.scope with
      | some s => simpa using find_named_scope_var_in_vdom_eq name err s
      | none =>
        simp only
        cases hp : frame.pos with
        | some e => simpa [List.findSome?_cons] using ih e
        | none => simp

theorem find_named_scope_var_eq (stack : pcintr_stack) (name : String) (err : purc_error) :
    _find_named_scope_var stack.bottom_frame stack.parents name err =
      match scope_level stack name with
      | some v => (some v, err)
      | none => (none, .NOT_FOUND) := by
  unfold _find_named_scope_var scope_level
  simp only [enclosing_elements]
  cases hs : stack.bottom_frame.scope with
  | some s => simpa using find_named_scope_var_in_vdom_eq name err s
  | none =>
    simp only
    cases hp : stack.bottom_frame.pos with
    | some e => simpa using find_named_scope_var_again_eq name err stack.parents e
    | none => simp

/-- C9: for every stack and name, `pcintr_find_named_var` returns the binding
of the first level that binds the name, in the order (1) the `!` variable of
the bottom frame or else of the nearest ancestor frame that binds it, (2) the
scope variables of the nearest enclosing element that binds it, (3) the
variables of the document, (4) the variables of the instance; it returns the
invalid variant exactly when no level binds the name, then with the error
NOT_FOUND, and on success the error is cleared. -/
theorem C9_find_named_var_resolution_order (stack : pcintr_stack) (name : String)
    (err : purc_error) :
    (pcintr_find_named_var stack name err).1 = first_level_binding stack name ∧
    ((pcintr_find_named_var stack name err).1 = none ↔
      (temp_level stack name = none ∧ scope_level stack name = none ∧
        doc_level stack name = none ∧ inst_level stack name = none)) ∧
    ((pcintr_find_named_var stack name err).1 = none →
      (pcintr_find_named_var stack name err).2 = .NOT_FOUND) ∧
    (∀ v, (pcintr_find_named_var stack name err).1 = some v →
      (pcintr_find_named_var stack name err).2 = .OK) := by
  have ht : _find_named_temp_var name (stack.bottom_frame :: stack.parents) =
      temp_level stack name :=
    find_named_temp_var_eq name (stack.bottom_frame :: stack.parents)
  have hs := find_named_scope_var_eq stack name err
  unfold pcintr_find_named_var first_level_binding
  rw [ht, hs]
  cases h1 : temp_level stack name with
  | some v => simp
  | none =>
    cases h2 : scope_level stack name with
    | some v => simp
    | none =>
      simp only [find_doc_buildin_var, doc_level, find_inst_var, pcvarmgr_get, inst_level]
      cases hv : stack.vdom with
      | none =>
        cases h4 : pairs_get_by_ckey stack.inst_variables.object name <;> simp [h4]
      | some mgr =>
        cases h3 : pairs_get_by_ckey mgr.object name with
        | some v => simp [h3]
        | none =>
          cases h4 : pairs_get_by_ckey stack.inst_variables.object name <;> simp [h3, h4]

/-! ## The variable manager -/

/-- A lookup after a change of a cell in place finds the value that the name
was bound to, with the change applied to it. -/
theorem pairs_get_displace_cell (h : Handle) (new : Variant) : (kvs : Pairs) →
    (name : String) →
    pairs_get_by_ckey (Pairs.displace_cell h new kvs) name =
      (pairs_get_by_ckey kvs name).map (Variant.displace_cell h new)
  | .nil, _ => by simp [Pairs.displace_cell, pairs_get_by_ckey]
  | .cons k v next, name => by
    simp only [Pairs.displace_cell, pairs_get_by_ckey]
    by_cases hk : purc_variant_get_string_const k = some name
    · simp [hk]
    · simp only [hk, if_false]
      exact pairs_get_displace_cell h new next name

/-- A change of a cell in place keeps every handle. -/
theorem displace_cell_handle (h : Handle) (new v : Variant) (hn : new.handle = h) :
    (Variant.displace_cell h new v).handle = v.handle := by
  cases v with
  | single hp k => simp [Variant.displace_cell]
  | leaf a t r e sz d => simp [Variant.displace_cell]
  | array a r sz el =>
    simp only [Variant.displace_cell]
    split_ifs with hc
    · rw [hn, ← hc]; rfl
    · rfl
  | object a r sz kvs =>
    simp only [Variant.displace_cell]
    split_ifs with hc
    · rw [hn, ← hc]; rfl
    · rfl
  | set a r sz el =>
    simp only [Variant.displace_cell]
    split_ifs with hc
    · rw [hn, ← hc]; rfl
    · rfl

/-- A change of a cell in place turns the cell itself into its new state. -/
theorem displace_cell_self (old new : Variant) (hc : IS_CONTAINER old.type = true) :
    Variant.displace_cell old.handle new old = new := by
  cases old with
  | single hp k => cases k <;> simp [IS_CONTAINER, Variant.type] at hc
  | leaf a t r e sz d => cases t <;> simp [IS_CONTAINER, Variant.type, ScalarType.tag] at hc
  | array a r sz el => simp [Variant.displace_cell, Variant.handle]
  | object a r sz kvs => simp [Variant.displace_cell, Variant.handle]
  | set a r sz el => simp [Variant.displace_cell, Variant.handle]

mutual
/-- A change of a cell in place leaves a variant that does not hold the cell
as it is. -/
theorem displace_cell_not_held (h : Handle) (new : Variant) : (v : Variant) →
    Variant.holds_cell h v = false → Variant.displace_cell h new v = v
  | .single hp k, _ => by simp [Variant.displace_cell]
  | .leaf a t r e sz d, _ => by simp [Variant.displace_cell]
  | .array a r sz el, hh => by
    simp only [Variant.holds_cell, Bool.or_eq_false_iff, beq_eq_false_iff_ne, ne_eq] at hh
    simp only [Variant.displace_cell, hh.1, if_false]
    rw [members_displace_cell_not_held h new el hh.2]
  | .object a r sz kvs, hh => by
    simp only [Variant.holds_cell, Bool.or_eq_false_iff, beq_eq_false_iff_ne, ne_eq] at hh
    simp only [Variant.displace_cell, hh.1, if_false]
    rw [pairs_displace_cell_not_held h new kvs hh.2]
  | .set a r sz el, hh => by
    simp only [Variant.holds_cell, Bool.or_eq_false_iff, beq_eq_false_iff_ne, ne_eq] at hh
    simp only [Variant.displace_cell, hh.1, if_false]
    rw [members_displace_cell_not_held h new el hh.2]
theorem members_displace_cell_not_held (h : Handle) (new : Variant) : (m : Members) →
    Members.holds_cell h m = false → Members.displace_cell h new m = m
  | .nil, _ => by simp [Members.displace_cell]
  | .cons v next, hh => by
    simp only [Members.holds_cell, Bool.or_eq_false_iff] at hh
    simp only [Members.displace_cell]
    rw [displace_cell_not_held h new v hh.1, members_displace_cell_not_held h new next hh.2]
theorem pairs_displace_cell_not_held (h : Handle) (new : Variant) : (p : Pairs) →
    Pairs.holds_cell h p = false → Pairs.displace_cell h new p = p
  | .nil, _ => by simp [Pairs.displace_cell]
  | .cons k v next, hh => by
    simp only [Pairs.holds_cell, Bool.or_eq_false_iff] at hh
    simp only [Pairs.displace_cell]
    rw [displace_cell_not_held h new v hh.1, pairs_displace_cell_not_held h new next hh.2]
end

theorem displace_same_kind (old v : Variant) (hk : same_container_kind old v = true) :
    ∃ v1, purc_variant_container_displace old v = some v1 ∧ v1.handle = old.handle ∧
      v1.content = v.content ∧ v.type ≠ .UNDEFINED ∧ IS_CONTAINER old.type = true := by
  cases old <;> cases v <;>
    simp_all [same_container_kind, purc_variant_container_displace, Variant.handle,
      Variant.content, Variant.type, IS_CONTAINER]

/-- The displacement of a value that is no container fails. -/
theorem displace_no_container (old v : Variant) (hc : IS_CONTAINER old.type = false) :
    purc_variant_container_displace old v = none := by
  cases old <;> cases v <;>
    simp_all [purc_variant_container_displace, Variant.type, IS_CONTAINER]

/-- C10, as amended: for every name bound in a variable manager to a value
`old`: when `old` is a container (array, object or set) with handle h and v is
a container of the same kind, `pcvarmgr_add(name, v)` returns true and
afterwards `pcvarmgr_get(name)` returns the same handle h, whose content
equals that of v; every other name that was bound is bound to the same handle
as before, and to a value deep-equal to the one before unless that value
holds the cell h, and every name that was unbound stays unbound.  When `old` is no container and v is not
undefined, `pcvarmgr_add(name, v)` returns false with WRONG_DATA_TYPE and
leaves the manager as it is. -/
theorem C10_add_displaces_bound_container (mgr : pcvarmgr) (name : String)
    (old v : Variant) (k_addr : Nat) (err : purc_error)
    (hb : pairs_get_by_ckey mgr.object name = some old) :
    (same_container_kind old v = true →
      (pcvarmgr_add mgr name v k_addr err).1 = true ∧
      (∃ new, (pcvarmgr_get (pcvarmgr_add mgr name v k_addr err).2.1 name err).1 = some new ∧
        new.handle = old.handle ∧ deep_equal new v = true) ∧
      (∀ other bound, other ≠ name → (pcvarmgr_get mgr other err).1 = some bound →
        ∃ now, (pcvarmgr_get (pcvarmgr_add mgr name v k_addr err).2.1 other err).1 = some now ∧
          now.handle = bound.handle ∧
          (Variant.holds_cell old.handle bound = false → deep_equal now bound = true)) ∧
      (∀ other, (pcvarmgr_get mgr other err).1 = none →
        (pcvarmgr_get (pcvarmgr_add mgr name v k_addr err).2.1 other err).1 = none)) ∧
    (IS_CONTAINER old.type = false → v.type ≠ .UNDEFINED →
      pcvarmgr_add mgr name v k_addr err = (false, mgr, .WRONG_DATA_TYPE)) := by
  refine ⟨?_, ?_⟩
  · intro hk
    obtain ⟨v1, hd, hh, hc, hu, hcont⟩ := displace_same_kind old v hk
    have hadd : pcvarmgr_add mgr name v k_addr err =
        (true, { mgr with object := Pairs.displace_cell old.handle v1 mgr.object }, err) := by
      simp [pcvarmgr_add, hu, hb, hd]
    rw [hadd]
    refine ⟨rfl, ⟨v1, ?_, hh, ?_⟩, ?_, ?_⟩
    · simp [pcvarmgr_get, pairs_get_displace_cell, hb, displace_cell_self old v1 hcont]
    · simp [deep_equal, hc]
    · intro other bound _ hg
      have hgo : pairs_get_by_ckey mgr.object other = some bound := by
        cases hq : pairs_get_by_ckey mgr.object other with
        | none => simp [pcvarmgr_get, hq] at hg
        | some w => simpa [pcvarmgr_get, hq] using hg
      refine ⟨Variant.displace_cell old.handle v1 bound, ?_,
        displace_cell_handle old.handle v1 bound hh, ?_⟩
      · simp [pcvarmgr_get, pairs_get_displace_cell, hgo]
      · intro hnot
        rw [displace_cell_not_held old.handle v1 bound hnot]
        simp [deep_equal]
    · intro other hg
      have hgo : pairs_get_by_ckey mgr.object other = none := by
        cases hq : pairs_get_by_ckey mgr.object other with
        | none => rfl
        | some w => simp [pcvarmgr_get, hq] at hg
      simp [pcvarmgr_get, pairs_get_displace_cell, hgo]
  · intro hc hu
    simp [pcvarmgr_add, hu, hb, displace_no_container old v hc]

/-- Witness of C10 as amended: `x`, bound to an array at address 7, is bound to
another array, and `y`, bound to a number, is not bound to another number. -/
theorem C10_add_displaces_bound_container_witness :
    pairs_get_by_ckey mgr_xy.object "x" = some (.array 7 1 0 .nil) ∧
    same_container_kind (.array 7 1 0 .nil)
      (.array 20 1 8 (.cons (.leaf 21 .NUMBER 1 false 0 "5") .nil)) = true ∧
    (pcvarmgr_add mgr_xy "x" (.array 20 1 8 (.cons (.leaf 21 .NUMBER 1 false 0 "5") .nil))
      30 .OK).1 = true ∧
    (∃ now, (pcvarmgr_get (pcvarmgr_add mgr_xy "x"
        (.array 20 1 8 (.cons (.leaf 21 .NUMBER 1 false 0 "5") .nil)) 30 .OK).2.1 "y" .OK).1 =
        some now ∧
      now.handle = Variant.handle (.leaf 3 .NUMBER 1 false 0 "1") ∧
      (Variant.holds_cell (Variant.handle (.array 7 1 0 .nil))
        (.leaf 3 .NUMBER 1 false 0 "1") = false →
        deep_equal now (.leaf 3 .NUMBER 1 false 0 "1") = true)) ∧
    pairs_get_by_ckey mgr_xy.object "y" = some (.leaf 3 .NUMBER 1 false 0 "1") ∧
    pcvarmgr_add mgr_xy "y" (.leaf 40 .NUMBER 1 false 0 "2") 30 .OK =
      (false, mgr_xy, .WRONG_DATA_TYPE) :=
  ⟨by decide, by decide,
    ((C10_add_displaces_bound_container mgr_xy "x" (.array 7 1 0 .nil)
      (.array 20 1 8 (.cons (.leaf 21 .NUMBER 1 false 0 "5") .nil)) 30 .OK
      (by decide)).1 (by decide)).1,
    ((C10_add_displaces_bound_container mgr_xy "x" (.array 7 1 0 .nil)
      (.array 20 1 8 (.cons (.leaf 21 .NUMBER 1 false 0 "5") .nil)) 30 .OK
      (by decide)).1 (by decide)).2.2.1 "y" (.leaf 3 .NUMBER 1 false 0 "1") (by decide)
      (by decide),
    by decide,
    (C10_add_displaces_bound_container mgr_xy "y" (.leaf 3 .NUMBER 1 false 0 "1")
      (.leaf 40 .NUMBER 1 false 0 "2") 30 .OK (by decide)).2 (by decide) (by decide)⟩

/-- C10, counterexample: `y` is bound to a number (handle 3); binding `y` to
another number returns false, and `pcvarmgr_get` still returns the old value,
which is not deep-equal to the new one.  And in a manager that binds `x` and
`z` to the same array (the cell at address 7), binding `x` to the array `[5]`
succeeds and changes what `z` is bound to as well: the displacement is in
place. -/
theorem C10_counterexample_scalar_binding :
    (pcvarmgr_add mgr_xy "y" (.leaf 40 .NUMBER 1 false 0 "2") 30 .OK).1 = false ∧
    (pcvarmgr_get (pcvarmgr_add mgr_xy "y" (.leaf 40 .NUMBER 1 false 0 "2") 30 .OK).2.1
      "y" .OK).1 = some (.leaf 3 .NUMBER 1 false 0 "1") ∧
    deep_equal (.leaf 3 .NUMBER 1 false 0 "1") (.leaf 40 .NUMBER 1 false 0 "2") = false ∧
    (pcvarmgr_get mgr_xz "z" .OK).1 = some (.array 7 2 0 .nil) ∧
    (pcvarmgr_add mgr_xz "x" (.array 20 1 8 (.cons (.leaf 21 .NUMBER 1 false 0 "5") .nil))
      30 .OK).1 = true ∧
    (pcvarmgr_get (pcvarmgr_add mgr_xz "x"
      (.array 20 1 8 (.cons (.leaf 21 .NUMBER 1 false 0 "5") .nil)) 30 .OK).2.1 "z" .OK).1 =
      some (.array 7 2 8 (.cons (.leaf 21 .NUMBER 1 false 0 "5") .nil)) ∧
    deep_equal (.array 7 2 8 (.cons (.leaf 21 .NUMBER 1 false 0 "5") .nil))
      (.array 7 2 0 .nil) = false := by
  refine ⟨by decide, by decide, by decide, by decide, by decide, by decide, by decide⟩

/-! ## The move heap: deep equality is kept -/

mutual
theorem clone_content (szv : Nat) : (v : Variant) → (w : World) →
    (purc_variant_container_clone_recursively szv w v).1.content = v.content
  | .single h k, w => by simp [purc_variant_container_clone_recursively, Variant.content]
  | .leaf a t r e sz d, w => by simp [purc_variant_container_clone_recursively, Variant.content]
  | .array a r sz el, w => by
    simp only [purc_variant_container_clone_recursively, Variant.content]
    rw [clone_members_content szv el]
  | .object a r sz kvs, w => by
    simp only [purc_variant_container_clone_recursively, Variant.content]
    rw [clone_pairs_content szv kvs]
  | .set a r sz el, w => by
    simp only [purc_variant_container_clone_recursively, Variant.content]
    rw [clone_members_content szv el]
theorem clone_members_content (szv : Nat) : (m : Members) → (w : World) →
    (clone_members szv w m).1.content = m.content
  | .nil, w => by simp [clone_members, Members.content]
  | .cons v next, w => by
    simp only [clone_members, Members.content]
    rw [clone_content szv v, clone_members_content szv next]
theorem clone_pairs_content (szv : Nat) : (p : Pairs) → (w : World) →
    (clone_pairs szv w p).1.content = p.content
  | .nil, w => by simp [clone_pairs, Pairs.content]
  | .cons k v next, w => by
    simp only [clone_pairs, Pairs.content]
    rw [clone_content szv k, clone_content szv v, clone_pairs_content szv next]
end

theorem clone_cell_content (addr : Nat) (v : Variant) : (clone_cell addr v).content = v.content := by
  cases v <;> simp [clone_cell, Variant.content]

theorem move_or_clone_immutable_content (szv inst : Nat) (v : Variant) (w : World)
    (r : Variant) (h : (move_or_clone_immutable szv inst v w).1 = some r) :
    r.content = v.content := by
  unfold move_or_clone_immutable at h
  split at h
  · simp at h
  · split at h
    · rename_i hh
      cases v <;> simp [Variant.handle] at hh
      obtain ⟨h1, h2⟩ := hh
      subst h1 h2
      simp at h
      subst h
      rfl
    · split at h
      · rename_i hh
        cases v <;> simp [Variant.handle] at hh
        obtain ⟨h1, h2⟩ := hh
        subst h1 h2
        simp at h
        subst h
        rfl
      · split at h
        · rename_i hh
          cases v <;> simp [Variant.handle] at hh
          obtain ⟨h1, h2⟩ := hh
          subst h1 h2
          simp at h
          subst h
          rfl
        · split at h
          · rename_i hh
            cases v <;> simp [Variant.handle] at hh
            obtain ⟨h1, h2⟩ := hh
            subst h1 h2
            simp at h
            subst h
            rfl
          · split at h
            · simp at h
              subst h
              rfl
            · simp at h
              subst h
              exact clone_cell_content _ _

theorem move_or_clone_immutable_pair_content (szv : Nat) (ctxt : travel_context) (w : World)
    (k v k1 v1 : Variant) (c1 : travel_context) (w1 : World)
    (h : move_or_clone_immutable_pair szv ctxt w k v = (some (k1, v1, c1), w1)) :
    k1.content = k.content ∧ v1.content = v.content := by
  unfold move_or_clone_immutable_pair at h
  simp only at h
  split at h
  · rename_i retk retv hk hv
    have ek := move_or_clone_immutable_content szv ctxt.inst k w retk hk
    have ev := move_or_clone_immutable_content szv ctxt.inst v _ retv hv
    simp only [Prod.mk.injEq, Option.some.injEq] at h
    obtain ⟨⟨h1, h2, -⟩, -⟩ := h
    subst h1 h2
    constructor
    · split <;> simp [ek]
    · split <;> simp [ev]
  · simp at h

mutual
theorem mutable_in_array_content (szv : Nat) : (m : Members) → (ctxt : travel_context) → (w : World) →
    (move_or_clone_mutable_descendants_in_array szv ctxt w m).node.content = m.content
  | .nil, ctxt, w => by simp [move_or_clone_mutable_descendants_in_array]
  | .cons (.array a r sz c) next, ctxt, w => by
    simp only [move_or_clone_mutable_descendants_in_array]
    split
    · simp only [Members.content, Variant.content]
      rw [mutable_in_array_content szv c]
    · simp only [Members.content]
      rw [clone_content szv, mutable_in_array_content szv next]
  | .cons (.object a r sz c) next, ctxt, w => by
    simp only [move_or_clone_mutable_descendants_in_array]
    split
    · simp only [Members.content, Variant.content]
      rw [mutable_in_object_content szv c]
    · simp only [Members.content]
      rw [clone_content szv, mutable_in_array_content szv next]
  | .cons (.set a r sz c) next, ctxt, w => by
    simp only [move_or_clone_mutable_descendants_in_array]
    split
    · simp only [Members.content, Variant.content]
      rw [mutable_in_set_content szv c]
    · simp only [Members.content]
      rw [clone_content szv, mutable_in_array_content szv next]
  | .cons (.single h s) next, ctxt, w => by simp [move_or_clone_mutable_descendants_in_array]
  | .cons (.leaf a t r e sz d) next, ctxt, w => by simp [move_or_clone_mutable_descendants_in_array]
theorem mutable_in_object_content (szv : Nat) : (m : Pairs) → (ctxt : travel_context) → (w : World) →
    (move_or_clone_mutable_descendants_in_object szv ctxt w m).node.content = m.content
  | .nil, ctxt, w => by simp [move_or_clone_mutable_descendants_in_object]
  | .cons k (.array a r sz c) next, ctxt, w => by
    simp only [move_or_clone_mutable_descendants_in_object]
    split
    · simp only [Pairs.content, Variant.content]
      rw [mutable_in_array_content szv c]
    · simp only [Pairs.content]
      rw [clone_content szv, mutable_in_object_content szv next]
  | .cons k (.object a r sz c) next, ctxt, w => by
    simp only [move_or_clone_mutable_descendants_in_object]
    split
    · simp only [Pairs.content, Variant.content]
      rw [mutable_in_object_content szv c]
    · simp only [Pairs.content]
      rw [clone_content szv, mutable_in_object_content szv next]
  | .cons k (.set a r sz c) next, ctxt, w => by
    simp only [move_or_clone_mutable_descendants_in_object]
    split
    · simp only [Pairs.content, Variant.content]
      rw [mutable_in_set_content szv c]
    · simp only [Pairs.content]
      rw [clone_content szv, mutable_in_object_content szv next]
  | .cons k (.single h s) next, ctxt, w => by simp [move_or_clone_mutable_descendants_in_object]
  | .cons k (.leaf a t r e sz d) next, ctxt, w => by simp [move_or_clone_mutable_descendants_in_object]
theorem mutable_in_set_content (szv : Nat) : (m : Members) → (ctxt : travel_context) → (w : World) →
    (move_or_clone_mutable_descendants_in_set szv ctxt w m).node.content = m.content
  | .nil, ctxt, w => by simp [move_or_clone_mutable_descendants_in_set]
  | .cons (.array a r sz c) next, ctxt, w => by
    simp only [move_or_clone_mutable_descendants_in_set]
    split
    · simp only [Members.content, Variant.content]
      rw [mutable_in_array_content szv c]
    · simp only [Members.content]
      rw [clone_content szv, mutable_in_set_content szv next]
  | .cons (.object a r sz c) next, ctxt, w => by
    simp only [move_or_clone_mutable_descendants_in_set]
    split
    · simp only [Members.content, Variant.content]
      rw [mutable_in_object_content szv c]
    · simp only [Members.content]
      rw [clone_content szv, mutable_in_set_content szv next]
  | .cons (.set a r sz c) next, ctxt, w => by
    simp only [move_or_clone_mutable_descendants_in_set]
    split
    · simp only [Members.content, Variant.content]
      rw [mutable_in_set_content szv c]
    · simp only [Members.content]
      rw [clone_content szv, mutable_in_set_content szv next]
  | .cons (.single h s) next, ctxt, w => by simp [move_or_clone_mutable_descendants_in_set]
  | .cons (.leaf a t r e sz d) next, ctxt, w => by simp [move_or_clone_mutable_descendants_in_set]
end

mutual
theorem immutable_in_array_content (szv : Nat) : (m : Members) → (ctxt : travel_context) → (w : World) →
    (move_or_clone_immutable_descendants_in_array szv ctxt w m).node.content = m.content
  | .nil, ctxt, w => by simp [move_or_clone_immutable_descendants_in_array]
  | .cons (.array a r sz c) next, ctxt, w => by
    simp only [move_or_clone_immutable_descendants_in_array, Members.content, Variant.content]
    rw [immutable_in_array_content szv c]
  | .cons (.object a r sz c) next, ctxt, w => by
    simp only [move_or_clone_immutable_descendants_in_array, Members.content, Variant.content]
    rw [immutable_in_object_content szv c]
  | .cons (.set a r sz c) next, ctxt, w => by
    simp only [move_or_clone_immutable_descendants_in_array, Members.content, Variant.content]
    rw [immutable_in_set_content szv c]
  | .cons (.single h s) next, ctxt, w => by
    simp only [move_or_clone_immutable_descendants_in_array]
    split
    · rfl
    · rename_i retv w1 heq
      have hc := move_or_clone_immutable_content szv ctxt.inst _ w retv
        (by rw [heq])
      split
      · simp only [Members.content]
        rw [hc, immutable_in_array_content szv next]
      · simp only [Members.content]
        rw [immutable_in_array_content szv next]
  | .cons (.leaf a t r e sz d) next, ctxt, w => by
    simp only [move_or_clone_immutable_descendants_in_array]
    split
    · rfl
    · rename_i retv w1 heq
      have hc := move_or_clone_immutable_content szv ctxt.inst _ w retv
        (by rw [heq])
      split
      · simp only [Members.content]
        rw [hc, immutable_in_array_content szv next]
      · simp only [Members.content]
        rw [immutable_in_array_content szv next]
theorem immutable_in_object_content (szv : Nat) : (m : Pairs) → (ctxt : travel_context) → (w : World) →
    (move_or_clone_immutable_descendants_in_object szv ctxt w m).node.content = m.content
  | .nil, ctxt, w => by simp [move_or_clone_immutable_descendants_in_object]
  | .cons k (.array a r sz c) next, ctxt, w => by
    simp only [move_or_clone_immutable_descendants_in_object, Pairs.content, Variant.content]
    rw [immutable_in_array_content szv c]
  | .cons k (.object a r sz c) next, ctxt, w => by
    simp only [move_or_clone_immutable_descendants_in_object, Pairs.content, Variant.content]
    rw [immutable_in_object_content szv c]
  | .cons k (.set a r sz c) next, ctxt, w => by
    simp only [move_or_clone_immutable_descendants_in_object, Pairs.content, Variant.content]
    rw [immutable_in_set_content szv c]
  | .cons k (.single h s) next, ctxt, w => by
    simp only [move_or_clone_immutable_descendants_in_object]
    split
    · rfl
    · rename_i k1 v1 c1 w1 heq
      have hc := move_or_clone_immutable_pair_content szv ctxt w k _ k1 v1 c1 w1 heq
      simp only [Pairs.content]
      rw [hc.1, hc.2, immutable_in_object_content szv next]
  | .cons k (.leaf a t r e sz d) next, ctxt, w => by
    simp only [move_or_clone_immutable_descendants_in_object]
    split
    · rfl
    · rename_i k1 v1 c1 w1 heq
      have hc := move_or_clone_immutable_pair_content szv ctxt w k _ k1 v1 c1 w1 heq
      simp only [Pairs.content]
      rw [hc.1, hc.2, immutable_in_object_content szv next]
theorem immutable_in_set_content (szv : Nat) : (m : Members) → (ctxt : travel_context) → (w : World) →
    (move_or_clone_immutable_descendants_in_set szv ctxt w m).node.content = m.content
  | .nil, ctxt, w => by simp [move_or_clone_immutable_descendants_in_set]
  | .cons (.array a r sz c) next, ctxt, w => by
    simp only [move_or_clone_immutable_descendants_in_set, Members.content, Variant.content]
    rw [immutable_in_array_content szv c]
  | .cons (.object a r sz c) next, ctxt, w => by
    simp only [move_or_clone_immutable_descendants_in_set, Members.content, Variant.content]
    rw [immutable_in_object_content szv c]
  | .cons (.set a r sz c) next, ctxt, w => by
    simp only [move_or_clone_immutable_descendants_in_set, Members.content, Variant.content]
    rw [immutable_in_set_content szv c]
  | .cons (.single h s) next, ctxt, w => by
    simp only [move_or_clone_immutable_descendants_in_set]
    split
    · rfl
    · rename_i retv w1 heq
      have hc := move_or_clone_immutable_content szv ctxt.inst _ w retv
        (by rw [heq])
      split
      · simp only [Members.content]
        rw [hc, immutable_in_set_content szv next]
      · simp only [Members.content]
        rw [immutable_in_set_content szv next]
  | .cons (.leaf a t r e sz d) next, ctxt, w => by
    simp only [move_or_clone_immutable_descendants_in_set]
    split
    · rfl
    · rename_i retv w1 heq
      have hc := move_or_clone_immutable_content szv ctxt.inst _ w retv
        (by rw [heq])
      split
      · simp only [Members.content]
        rw [hc, immutable_in_set_content szv next]
      · simp only [Members.content]
        rw [immutable_in_set_content szv next]
end

theorem mutable_descendants_content (szv : Nat) (ctxt : travel_context) (w : World)
    (v : Variant) :
    (move_or_clone_mutable_descendants szv ctxt w v).node.content = v.content := by
  cases v with
  | single h k => rfl
  | leaf a t r e sz d => rfl
  | array a r sz c =>
    simp only [move_or_clone_mutable_descendants, Variant.content]
    rw [mutable_in_array_content szv c]
  | object a r sz c =>
    simp only [move_or_clone_mutable_descendants, Variant.content]
    rw [mutable_in_object_content szv c]
  | set a r sz c =>
    simp only [move_or_clone_mutable_descendants, Variant.content]
    rw [mutable_in_set_content szv c]

theorem immutable_descendants_content (szv : Nat) (ctxt : travel_context) (w : World)
    (v : Variant) :
    (move_or_clone_immutable_descendants szv ctxt w v).node.content = v.content := by
  cases v with
  | single h k => rfl
  | leaf a t r e sz d => rfl
  | array a r sz c =>
    simp only [move_or_clone_immutable_descendants, Variant.content]
    rw [immutable_in_array_content szv c]
  | object a r sz c =>
    simp only [move_or_clone_immutable_descendants, Variant.content]
    rw [immutable_in_object_content szv c]
  | set a r sz c =>
    simp only [move_or_clone_immutable_descendants, Variant.content]
    rw [immutable_in_set_content szv c]

/-- The reference count stored in a cell; a singleton has none. -/
theorem refc_of_cell (v : Variant) (h : v.isSingleton = false) (w1 w2 : World) :
    w1.refc v = w2.refc v := by
  cases v <;> simp_all [Variant.isSingleton, World.refc]

theorem descendants_keep_cell (szv : Nat) (c1 c2 : travel_context) (w1 w2 w : World)
    (v : Variant) (h : v.isSingleton = false) :
    (move_or_clone_immutable_descendants szv c2 w2
      (move_or_clone_mutable_descendants szv c1 w1 v).node).node.isSingleton = false ∧
    w.refc (move_or_clone_immutable_descendants szv c2 w2
      (move_or_clone_mutable_descendants szv c1 w1 v).node).node = w.refc v := by
  cases v <;>
    simp_all [Variant.isSingleton, World.refc, move_or_clone_mutable_descendants,
      move_or_clone_immutable_descendants]

theorem clone_of_container (szv : Nat) (w w1 : World) (v : Variant)
    (h : IS_CONTAINER v.type = true) :
    (purc_variant_container_clone_recursively szv w v).1.isSingleton = false ∧
    w1.refc (purc_variant_container_clone_recursively szv w v).1 = 1 := by
  cases v with
  | single hp k => cases k <;> simp [IS_CONTAINER, Variant.type] at h
  | leaf a t r e sz d => cases t <;> simp [IS_CONTAINER, Variant.type, ScalarType.tag] at h
  | array a r sz c => simp [purc_variant_container_clone_recursively, Variant.isSingleton, World.refc]
  | object a r sz c => simp [purc_variant_container_clone_recursively, Variant.isSingleton, World.refc]
  | set a r sz c => simp [purc_variant_container_clone_recursively, Variant.isSingleton, World.refc]

theorem scalar_not_container (t : ScalarType) : IS_CONTAINER t.tag = false := by
  cases t <;> rfl

theorem singleton_not_container (h : HeapRef) (k : Singleton) :
    IS_CONTAINER (Variant.single h k).type = false := by
  cases k <;> rfl

theorem move_or_clone_immutable_of_leaf (szv inst a : Nat) (t : ScalarType) (r : Nat)
    (e : Bool) (sz : Nat) (d : String) (w : World) :
    ∃ m, (move_or_clone_immutable szv inst (.leaf a t r e sz d) w).1 = some m ∧
      m.isSingleton = false ∧ ∀ w1 : World, w1.refc m = 1 := by
  unfold move_or_clone_immutable
  simp only [Variant.type, scalar_not_container, Variant.handle, World.refc, if_false,
    Bool.false_eq_true, reduceCtorEq]
  split
  · rename_i hr
    exact ⟨_, rfl, rfl, fun w1 => by simpa [World.refc] using hr⟩
  · exact ⟨_, rfl, rfl, fun w1 => rfl⟩

theorem move_or_clone_immutable_of_own_singleton (szv inst : Nat) (k : Singleton) (w : World) :
    move_or_clone_immutable szv inst (.single (.inst inst) k) w =
      (some (.single .move k), w.swap_singleton (.inst inst) .move k) := by
  unfold move_or_clone_immutable
  cases k <;> simp [Variant.type, IS_CONTAINER, Variant.handle]

theorem move_or_clone_immutable_some (szv inst : Nat) (v : Variant) (w : World)
    (h : IS_CONTAINER v.type = false) :
    ∃ m, (move_or_clone_immutable szv inst v w).1 = some m := by
  unfold move_or_clone_immutable
  simp only [h, Bool.false_eq_true, if_false]
  repeat' split
  all_goals exact ⟨_, rfl⟩

theorem move_in_result (szv inst : Nat) (v : Variant) (w : World) :
    ∃ m, (pcvariant_move_heap_in szv inst v w).retv = some m ∧ m.content = v.content ∧
      (v.isSingleton = false → m.isSingleton = false ∧ ∀ w1 : World, w1.refc m = 1) ∧
      (∀ k, v = .single (.inst inst) k → m = .single .move k ∧
        (pcvariant_move_heap_in szv inst v w).world =
          w.swap_singleton (.inst inst) .move k) := by
  unfold pcvariant_move_heap_in
  by_cases hc : IS_CONTAINER v.type = true
  · have hns : v.isSingleton = false := by
      cases v with
      | single hp k => cases k <;> simp [IS_CONTAINER, Variant.type] at hc
      | _ => rfl
    simp only [hc, if_true]
    by_cases hr : w.refc v = 1
    · simp only [hr, if_true]
      refine ⟨_, rfl, ?_, ?_, ?_⟩
      · rw [immutable_descendants_content, mutable_descendants_content]
      · intro _
        have hk := descendants_keep_cell szv ⟨inst, [], 0⟩
          { (move_or_clone_mutable_descendants szv ⟨inst, [], 0⟩
              (move_variant_in szv inst v w) v).ctxt with el := 0 }
          (move_variant_in szv inst v w)
          (move_or_clone_mutable_descendants szv ⟨inst, [], 0⟩
              (move_variant_in szv inst v w) v).world
        refine ⟨(hk w v hns).1, fun w1 => ?_⟩
        rw [(hk w1 v hns).2, refc_of_cell v hns w1 w]
        exact hr
      · intro k hk
        subst hk
        simp [Variant.isSingleton] at hns
    · simp only [hr, if_false]
      refine ⟨_, rfl, clone_content szv v w, ?_, ?_⟩
      · intro _
        exact ⟨(clone_of_container szv w w v hc).1,
          fun w1 => (clone_of_container szv w w1 v hc).2⟩
      · intro k hk
        subst hk
        simp [Variant.isSingleton] at hns
  · have hc' : IS_CONTAINER v.type = false := by simpa using hc
    simp only [hc', Bool.false_eq_true, if_false]
    obtain ⟨m, hm⟩ := move_or_clone_immutable_some szv inst v w hc'
    have hcont := move_or_clone_immutable_content szv inst v w m hm
    cases hres : move_or_clone_immutable szv inst v w with
    | mk o w1 =>
      rw [hres] at hm
      simp only at hm
      subst hm
      simp only
      refine ⟨m, rfl, hcont, ?_, ?_⟩
      · intro hns
        cases v with
        | single hp k => simp [Variant.isSingleton] at hns
        | leaf a t r e sz d =>
          obtain ⟨m', hm', h1, h2⟩ := move_or_clone_immutable_of_leaf szv inst a t r e sz d w
          rw [hres] at hm'
          simp only [Option.some.injEq] at hm'
          subst hm'
          exact ⟨h1, h2⟩
        | array a r sz c => simp [IS_CONTAINER, Variant.type] at hc'
        | object a r sz c => simp [IS_CONTAINER, Variant.type] at hc'
        | set a r sz c => simp [IS_CONTAINER, Variant.type] at hc'
      · intro k hk
        subst hk
        rw [move_or_clone_immutable_of_own_singleton] at hres
        simp only [Prod.mk.injEq, Option.some.injEq] at hres
        exact ⟨hres.1.symm, hres.2.symm⟩

theorem move_out_of_cell (szv inst : Nat) (m : Variant) (w : World)
    (h : m.isSingleton = false) : (pcvariant_move_heap_out szv inst m w).1 = m := by
  unfold pcvariant_move_heap_out
  cases m <;> simp_all [Variant.isSingleton, Variant.handle]

theorem move_out_of_move_singleton (szv inst : Nat) (k : Singleton) (w : World) :
    pcvariant_move_heap_out szv inst (.single .move k) w =
      (.single (.inst inst) k, w.swap_singleton .move (.inst inst) k) := by
  unfold pcvariant_move_heap_out
  cases k <;> simp [Variant.handle]

theorem move_out_content (szv inst : Nat) (m : Variant) (w : World) :
    (pcvariant_move_heap_out szv inst m w).1.content = m.content := by
  cases m with
  | single hp k =>
    cases hp with
    | move => rw [move_out_of_move_singleton]; rfl
    | inst i =>
      unfold pcvariant_move_heap_out
      simp [Variant.handle]
  | leaf a t r e sz d => rw [move_out_of_cell szv inst (.leaf a t r e sz d) w rfl]
  | array a r sz c => rw [move_out_of_cell szv inst (.array a r sz c) w rfl]
  | object a r sz c => rw [move_out_of_cell szv inst (.object a r sz c) w rfl]
  | set a r sz c => rw [move_out_of_cell szv inst (.set a r sz c) w rfl]

theorem refc_after_swap_in (w : World) (inst : Nat) (k : Singleton) :
    (w.swap_singleton .move (.inst inst) k).refc (.single (.inst inst) k) =
      refc_inc ((w.heaps inst).singleton_refc k) := by
  cases k <;>
    simp [World.swap_singleton, World.refc, World.heap, World.set_heap,
      pcvariant_heap.singleton_refc, pcvariant_heap.set_singleton_refc]


/-- C1, as amended: for every variant V held by instance I, moving V into the
move heap with `pcvariant_move_heap_in` and then out to instance J with
`pcvariant_move_heap_out` yields a variant that is deep-equal to V; when V is
not a singleton its reference count in J is 1; when V is one of I's
singletons the result is J's singleton of the same kind, whose reference count
is one more than it was before the move-out (one more than before the whole
move when J is not I). -/
theorem C1_move_in_then_out (szv I J : Nat) (V : Variant) (w : World) :
    ∃ m, (pcvariant_move_heap_in szv I V w).retv = some m ∧
      deep_equal V
        (pcvariant_move_heap_out szv J m (pcvariant_move_heap_in szv I V w).world).1 = true ∧
      (V.isSingleton = false →
        (pcvariant_move_heap_out szv J m (pcvariant_move_heap_in szv I V w).world).2.refc
          (pcvariant_move_heap_out szv J m (pcvariant_move_heap_in szv I V w).world).1 = 1) ∧
      (∀ k, V = .single (.inst I) k →
        (pcvariant_move_heap_out szv J m (pcvariant_move_heap_in szv I V w).world).1 =
          .single (.inst J) k ∧
        (pcvariant_move_heap_out szv J m (pcvariant_move_heap_in szv I V w).world).2.refc
          (pcvariant_move_heap_out szv J m (pcvariant_move_heap_in szv I V w).world).1 =
          refc_inc (((pcvariant_move_heap_in szv I V w).world.heaps J).singleton_refc k) ∧
        (I ≠ J →
          (pcvariant_move_heap_out szv J m (pcvariant_move_heap_in szv I V w).world).2.refc
            (pcvariant_move_heap_out szv J m (pcvariant_move_heap_in szv I V w).world).1 =
            refc_inc ((w.heaps J).singleton_refc k))) := by
  obtain ⟨m, hm, hc, hcell, hsing⟩ := move_in_result szv I V w
  refine ⟨m, hm, ?_, ?_, ?_⟩
  · simp [deep_equal, move_out_content, hc]
  · intro hns
    obtain ⟨h1, h2⟩ := hcell hns
    rw [move_out_of_cell szv J m _ h1]
    exact h2 _
  · intro k hk
    obtain ⟨h1, h2⟩ := hsing k hk
    subst h1
    rw [move_out_of_move_singleton]
    refine ⟨rfl, refc_after_swap_in _ J k, ?_⟩
    intro hij
    rw [refc_after_swap_in, h2]
    have hji : ¬ J = I := fun e => hij e.symm
    cases k <;>
      simp [World.swap_singleton, World.heap, World.set_heap, hji,
        pcvariant_heap.singleton_refc, pcvariant_heap.set_singleton_refc]

/-! ## The move heap: statistics -/

theorem move_variant_in_org_stat (szv inst : Nat) (v : Variant) (w : World) :
    ((move_variant_in szv inst v w).heaps inst).stat =
      stat_sub_mem (stat_dec_nr
        (if has_extra_bytes v then stat_sub_mem (w.heaps inst).stat v.type v.sz_ptr0
         else (w.heaps inst).stat) v.type) v.type szv := by
  simp [move_variant_in, World.set_stat, World.set_heap, World.heap]

theorem move_variant_in_move_stat (szv inst : Nat) (v : Variant) (w : World) :
    (move_variant_in szv inst v w).move_heap.stat =
      stat_add_mem (stat_inc_nr
        (if has_extra_bytes v then stat_add_mem w.move_heap.stat v.type v.sz_ptr0
         else w.move_heap.stat) v.type) v.type szv := by
  simp [move_variant_in, World.set_stat, World.set_heap, World.heap]

theorem has_extra_bytes_of_scalar (v : Variant) (hc : IS_CONTAINER v.type = false) :
    has_extra_bytes v = ((v.type == .STRING || v.type == .BSEQUENCE) && v.extra_size) := by
  simp [has_extra_bytes, hc]

/-- C5: for every variant V that is not a container, not one of the four
singletons of instance I and has reference count 1 (V accounted in I's
statistics, no counter wrapping), `pcvariant_move_heap_in(V)` returns V itself
and unreferences nothing; I's `nr_values[type]` and `nr_total_values` decrease
by 1 and its `sz_mem[type]` and `sz_total_mem` by `sizeof(purc_variant)` plus
V's extra-buffer size; the same counters of the move heap increase by the same
amounts; the counters of the other types stay; the sums over both heaps are
unchanged. -/
theorem C5_move_in_place_transfers_statistics (szv I : Nat) (V : Variant) (w : World)
    (hc : IS_CONTAINER V.type = false)
    (hs : ∀ k, V.handle ≠ .singleton (.inst I) k)
    (hr : w.refc V = 1)
    (hfit : transfer_fits (w.heaps I).stat w.move_heap.stat V.type
      (szv + extra_buffer_size V)) :
    (pcvariant_move_heap_in szv I V w).retv = some V ∧
    (pcvariant_move_heap_in szv I V w).source = V ∧
    (pcvariant_move_heap_in szv I V w).unref = [] ∧
    (((pcvariant_move_heap_in szv I V w).world.heaps I).stat.nr_values V.type + 1 =
      (w.heaps I).stat.nr_values V.type) ∧
    (((pcvariant_move_heap_in szv I V w).world.heaps I).stat.nr_total_values + 1 =
      (w.heaps I).stat.nr_total_values) ∧
    (((pcvariant_move_heap_in szv I V w).world.heaps I).stat.sz_mem V.type +
      (szv + extra_buffer_size V) = (w.heaps I).stat.sz_mem V.type) ∧
    (((pcvariant_move_heap_in szv I V w).world.heaps I).stat.sz_total_mem +
      (szv + extra_buffer_size V) = (w.heaps I).stat.sz_total_mem) ∧
    ((pcvariant_move_heap_in szv I V w).world.move_heap.stat.nr_values V.type =
      w.move_heap.stat.nr_values V.type + 1) ∧
    ((pcvariant_move_heap_in szv I V w).world.move_heap.stat.nr_total_values =
      w.move_heap.stat.nr_total_values + 1) ∧
    ((pcvariant_move_heap_in szv I V w).world.move_heap.stat.sz_mem V.type =
      w.move_heap.stat.sz_mem V.type + (szv + extra_buffer_size V)) ∧
    ((pcvariant_move_heap_in szv I V w).world.move_heap.stat.sz_total_mem =
      w.move_heap.stat.sz_total_mem + (szv + extra_buffer_size V)) ∧
    (∀ u, u ≠ V.type →
      ((pcvariant_move_heap_in szv I V w).world.heaps I).stat.nr_values u =
        (w.heaps I).stat.nr_values u ∧
      ((pcvariant_move_heap_in szv I V w).world.heaps I).stat.sz_mem u =
        (w.heaps I).stat.sz_mem u ∧
      (pcvariant_move_heap_in szv I V w).world.move_heap.stat.nr_values u =
        w.move_heap.stat.nr_values u ∧
      (pcvariant_move_heap_in szv I V w).world.move_heap.stat.sz_mem u =
        w.move_heap.stat.sz_mem u) ∧
    (∀ u, ((pcvariant_move_heap_in szv I V w).world.heaps I).stat.nr_values u +
        (pcvariant_move_heap_in szv I V w).world.move_heap.stat.nr_values u =
        (w.heaps I).stat.nr_values u + w.move_heap.stat.nr_values u ∧
      ((pcvariant_move_heap_in szv I V w).world.heaps I).stat.sz_mem u +
        (pcvariant_move_heap_in szv I V w).world.move_heap.stat.sz_mem u =
        (w.heaps I).stat.sz_mem u + w.move_heap.stat.sz_mem u) ∧
    (((pcvariant_move_heap_in szv I V w).world.heaps I).stat.nr_total_values +
        (pcvariant_move_heap_in szv I V w).world.move_heap.stat.nr_total_values =
      (w.heaps I).stat.nr_total_values + w.move_heap.stat.nr_total_values) ∧
    (((pcvariant_move_heap_in szv I V w).world.heaps I).stat.sz_total_mem +
        (pcvariant_move_heap_in szv I V w).world.move_heap.stat.sz_total_mem =
      (w.heaps I).stat.sz_total_mem + w.move_heap.stat.sz_total_mem) := by
  have hin : pcvariant_move_heap_in szv I V w =
      ⟨some V, V, [], move_variant_in szv I V w⟩ := by
    unfold pcvariant_move_heap_in move_or_clone_immutable
    simp [hc, hs, hr]
  rw [hin]
  refine ⟨rfl, rfl, rfl, ?_⟩
  simp only [move_variant_in_org_stat, move_variant_in_move_stat,
    has_extra_bytes_of_scalar V hc]
  obtain ⟨f1, f2, f3, f4, f5, f6, f7, f8, f9, f10, f11, f12⟩ := hfit
  unfold extra_buffer_size at f5 f7 f11 f12 ⊢
  by_cases hx : ((V.type == .STRING || V.type == .BSEQUENCE) && V.extra_size) = true
  · simp only [hx, if_true] at f5 f7 f11 f12 ⊢
    simp only [stat_sub_mem, stat_add_mem, stat_dec_nr, stat_inc_nr, size_sub, size_add,
      if_true]
    refine ⟨by omega, by omega, by omega, by omega, by omega, by omega, by omega, by omega,
      ?_, ?_, by omega, by omega⟩
    · intro u hu
      simp [hu]
    · intro u
      by_cases hu : u = V.type
      · subst hu
        simp only [if_true]
        constructor <;> omega
      · simp [hu]
  · have hx' : ((V.type == .STRING || V.type == .BSEQUENCE) && V.extra_size) = false := by
      simpa using hx
    simp only [hx', if_false, Bool.false_eq_true] at f5 f7 f11 f12 ⊢
    simp only [stat_sub_mem, stat_add_mem, stat_dec_nr, stat_inc_nr, size_sub, size_add,
      if_true]
    refine ⟨by omega, by omega, by omega, by omega, by omega, by omega, by omega, by omega,
      ?_, ?_, by omega, by omega⟩
    · intro u hu
      simp [hu]
    · intro u
      by_cases hu : u = V.type
      · subst hu
        simp only [if_true]
        constructor <;> omega
      · simp [hu]

/-! ## The move heap at concrete inputs -/

/-- Witness of C5: a string with a 12-byte extra buffer and reference count 1,
held by instance 0. -/
theorem C5_move_in_place_transfers_statistics_witness :
    IS_CONTAINER string_cell.type = false ∧
    (world_with 40 (heap_with_string 40)).refc string_cell = 1 ∧
    transfer_fits ((world_with 40 (heap_with_string 40)).heaps 0).stat
      (world_with 40 (heap_with_string 40)).move_heap.stat string_cell.type
      (40 + extra_buffer_size string_cell) ∧
    (pcvariant_move_heap_in 40 0 string_cell
      (world_with 40 (heap_with_string 40))).retv = some string_cell :=
  ⟨by decide, by decide, by decide,
    (C5_move_in_place_transfers_statistics 40 0 string_cell
      (world_with 40 (heap_with_string 40)) (by decide)
      (fun k => by cases k <;> decide) (by decide) (by decide)).1⟩

/-- Witness of C1 as amended: the array `[1]` moved from instance 0
to instance 1. -/
theorem C1_move_in_then_out_witness :
    array_of_one.isSingleton = false ∧
    ∃ m, (pcvariant_move_heap_in 40 0 array_of_one
        (world_with 40 (heap_with 40 1 1))).retv = some m ∧
      (pcvariant_move_heap_out 40 1 m (pcvariant_move_heap_in 40 0 array_of_one
        (world_with 40 (heap_with 40 1 1))).world).2.refc
        (pcvariant_move_heap_out 40 1 m (pcvariant_move_heap_in 40 0 array_of_one
          (world_with 40 (heap_with 40 1 1))).world).1 = 1 :=
  ⟨by decide,
    (C1_move_in_then_out 40 0 1 array_of_one (world_with 40 (heap_with 40 1 1))).elim
      (fun m h => ⟨m, h.1, h.2.2.1 (by decide)⟩)⟩

/-- C1, counterexample: instance 0 moves its singleton `null` to instance 1,
which already holds one reference to its own `null`; the variant that comes
out is the `null` of instance 1 and its reference count is 2, not 1. -/
theorem C1_counterexample_singleton_refcount :
    (pcvariant_move_heap_in 40 0 (.single (.inst 0) .v_null) null_world).retv =
      some (.single .move .v_null) ∧
    (pcvariant_move_heap_out 40 1 (.single .move .v_null)
      (pcvariant_move_heap_in 40 0 (.single (.inst 0) .v_null) null_world).world).1 =
      .single (.inst 1) .v_null ∧
    (pcvariant_move_heap_out 40 1 (.single .move .v_null)
      (pcvariant_move_heap_in 40 0 (.single (.inst 0) .v_null) null_world).world).2.refc
      (.single (.inst 1) .v_null) = 2 := by
  decide

/-- C6, at the failing input `shared_array` (reference count 2): the call
returns a clone at a new address, but the source does not stay as it was: its
second member is replaced by a new cell (address 1003 instead of 3), its first
member is taken out of the statistics of the instance (one number left
counted, one number's bytes left) although the instance still holds it, and
the replaced member is unreferenced besides the array itself. -/
theorem C6_source_not_left_intact :
    (shared_array_moved_in.retv.map Variant.handle = some (.cell 1000)) ∧
    shared_array_moved_in.source =
      .array 1 2 8 (.cons (number_cell 2 1 "1") (.cons (number_cell 1003 1 "2") .nil)) ∧
    shared_array_moved_in.source ≠ shared_array ∧
    ((world_with 40 (heap_with 40 1 2)).heaps 0).stat.nr_values .NUMBER = 2 ∧
    (shared_array_moved_in.world.heaps 0).stat.nr_values .NUMBER = 1 ∧
    ((world_with 40 (heap_with 40 1 2)).heaps 0).stat.sz_total_mem = 288 ∧
    (shared_array_moved_in.world.heaps 0).stat.sz_total_mem = 248 ∧
    shared_array_moved_in.unref = [shared_array_moved_in.source, number_cell 3 2 "2"] := by
  decide

/-- C7, at the failing input `array_of_arrays` (`[[1], [2]]`, five cells, all
with reference count 1): only three cells are moved; the instance, which
counted 9 values, still counts 6 instead of 4, and the move heap counts 7
instead of 9; the second member and its number stay in the statistics
of the instance. -/
theorem C7_siblings_after_first_not_moved :
    array_of_arrays_moved_in.retv = some array_of_arrays ∧
    ((world_with 40 (heap_with 40 3 2)).heaps 0).stat.nr_total_values = 9 ∧
    (array_of_arrays_moved_in.world.heaps 0).stat.nr_total_values = 6 ∧
    (array_of_arrays_moved_in.world.heaps 0).stat.nr_values .ARRAY = 1 ∧
    (array_of_arrays_moved_in.world.heaps 0).stat.nr_values .NUMBER = 1 ∧
    array_of_arrays_moved_in.world.move_heap.stat.nr_total_values = 7 := by
  decide

/-- C8, at the failing input `array_of_one` (`[1]`, both cells with reference
count 1): after `pcvariant_move_heap_in` and `pcvariant_move_heap_out` on the
same instance the move heap holds 5 values and 200 bytes, not 4 and 160, so
the assertions of `mvheap_cleanup_once` fail, and the instance counts 5 values
where it counted 6. -/
theorem C8_round_trip_leaves_descendants_in_move_heap :
    array_of_one_moved_in.retv = some array_of_one ∧
    array_of_one_moved_in.world.move_heap.stat.nr_total_values = 6 ∧
    array_of_one_round_trip.map (fun w => w.move_heap.stat.nr_total_values) = some 5 ∧
    array_of_one_round_trip.map (fun w => w.move_heap.stat.sz_total_mem) = some 200 ∧
    array_of_one_round_trip.map (fun w => mvheap_cleanup_once 40 w.move_heap) = some false ∧
    ((world_with 40 (heap_with 40 1 1)).heaps 0).stat.nr_total_values = 6 ∧
    array_of_one_round_trip.map (fun w => (w.heaps 0).stat.nr_total_values) = some 5 := by
  decide

/-! ## Broadcasting an event -/

mutual
theorem copy_variant_spec (o : Nat) : (v : Variant) → (n : Nat) →
    (copy_variant o n v).1.content = v.content ∧ n ≤ (copy_variant o n v).2 ∧
    ∀ a ∈ (copy_variant o n v).1.addrs, n ≤ a ∧ a < (copy_variant o n v).2
  | .single h k, n => by simp [copy_variant, Variant.content, Variant.addrs]
  | .leaf a t r e sz d, n => by simp [copy_variant, Variant.content, Variant.addrs]
  | .array a r sz c, n => by
    have h := copy_members_spec o c (n + 1)
    simp only [copy_variant, Variant.content, Variant.addrs, List.mem_cons]
    refine ⟨by rw [h.1], by omega, ?_⟩
    intro x hx
    rcases hx with hx | hx
    · omega
    · have := h.2.2 x hx; omega
  | .object a r sz c, n => by
    have h := copy_pairs_spec o c (n + 1)
    simp only [copy_variant, Variant.content, Variant.addrs, List.mem_cons]
    refine ⟨by rw [h.1], by omega, ?_⟩
    intro x hx
    rcases hx with hx | hx
    · omega
    · have := h.2.2 x hx; omega
  | .set a r sz c, n => by
    have h := copy_members_spec o c (n + 1)
    simp only [copy_variant, Variant.content, Variant.addrs, List.mem_cons]
    refine ⟨by rw [h.1], by omega, ?_⟩
    intro x hx
    rcases hx with hx | hx
    · omega
    · have := h.2.2 x hx; omega
theorem copy_members_spec (o : Nat) : (m : Members) → (n : Nat) →
    (copy_members o n m).1.content = m.content ∧ n ≤ (copy_members o n m).2 ∧
    ∀ a ∈ (copy_members o n m).1.addrs, n ≤ a ∧ a < (copy_members o n m).2
  | .nil, n => by simp [copy_members, Members.content, Members.addrs]
  | .cons v rest, n => by
    have h1 := copy_variant_spec o v n
    have h2 := copy_members_spec o rest (copy_variant o n v).2
    simp only [copy_members, Members.content, Members.addrs, List.mem_append]
    refine ⟨by rw [h1.1, h2.1], by omega, ?_⟩
    intro x hx
    rcases hx with hx | hx
    · have := h1.2.2 x hx; omega
    · have := h2.2.2 x hx; omega
theorem copy_pairs_spec (o : Nat) : (p : Pairs) → (n : Nat) →
    (copy_pairs o n p).1.content = p.content ∧ n ≤ (copy_pairs o n p).2 ∧
    ∀ a ∈ (copy_pairs o n p).1.addrs, n ≤ a ∧ a < (copy_pairs o n p).2
  | .nil, n => by simp [copy_pairs, Pairs.content, Pairs.addrs]
  | .cons k v rest, n => by
    have h1 := copy_variant_spec o k n
    have h2 := copy_variant_spec o v (copy_variant o n k).2
    have h3 := copy_pairs_spec o rest (copy_variant o (copy_variant o n k).2 v).2
    simp only [copy_pairs, Pairs.content, Pairs.addrs, List.mem_append]
    refine ⟨by rw [h1.1, h2.1, h3.1], by omega, ?_⟩
    intro x hx
    rcases hx with hx | hx | hx
    · have := h1.2.2 x hx; omega
    · have := h2.2.2 x hx; omega
    · have := h3.2.2 x hx; omega
end

theorem copy_option_spec (o n : Nat) (v : Option Variant) :
    (copy_option o n v).1.map Variant.content = v.map Variant.content ∧
    n ≤ (copy_option o n v).2 ∧
    ∀ a ∈ option_addrs (copy_option o n v).1, n ≤ a ∧ a < (copy_option o n v).2 := by
  cases v with
  | none => simp [copy_option, option_addrs]
  | some x =>
    have h := copy_variant_spec o x n
    simp only [copy_option, option_addrs, Option.map_some']
    exact ⟨by rw [h.1], h.2.1, h.2.2⟩

theorem clone_message_spec (o n : Nat) (msg : pcrdr_msg) :
    (pcrdr_clone_message o n msg).1.type = msg.type ∧
    (pcrdr_clone_message o n msg).1.target = msg.target ∧
    (pcrdr_clone_message o n msg).1.targetValue = msg.targetValue ∧
    (pcrdr_clone_message o n msg).1.event.map Variant.content =
      msg.event.map Variant.content ∧
    n ≤ (pcrdr_clone_message o n msg).2 ∧
    ∀ a ∈ (pcrdr_clone_message o n msg).1.addrs,
      n ≤ a ∧ a < (pcrdr_clone_message o n msg).2 := by
  have h1 := copy_option_spec o n msg.operation
  have h2 := copy_option_spec o (copy_option o n msg.operation).2 msg.event
  have h3 := copy_option_spec o
    (copy_option o (copy_option o n msg.operation).2 msg.event).2 msg.element
  have h4 := copy_option_spec o (copy_option o
    (copy_option o (copy_option o n msg.operation).2 msg.event).2 msg.element).2 msg.property
  have h5 := copy_option_spec o (copy_option o (copy_option o
    (copy_option o (copy_option o n msg.operation).2 msg.event).2 msg.element).2
    msg.property).2 msg.requestId
  have h6 := copy_option_spec o (copy_option o (copy_option o (copy_option o
    (copy_option o (copy_option o n msg.operation).2 msg.event).2 msg.element).2
    msg.property).2 msg.requestId).2 msg.data
  simp only [pcrdr_clone_message, pcrdr_msg.addrs, List.mem_append]
  refine ⟨trivial, trivial, trivial, h2.1, by omega, ?_⟩
  intro x hx
  rcases hx with ((((hx | hx) | hx) | hx) | hx) | hx
  · have := h1.2.2 x hx; omega
  · have := h2.2.2 x hx; omega
  · have := h3.2.2 x hx; omega
  · have := h4.2.2 x hx; omega
  · have := h5.2.2 x hx; omega
  · have := h6.2.2 x hx; omega

theorem received_copy_of_clone (e : pcrdr_msg) (he : e.type = PCRDR_MSG_TYPE_EVENT)
    (mb : move_buffer) (n : Nat) :
    received_copy e mb
      { mb with queue := (pcinst_msg_queue_append mb.queue (pcrdr_clone_message mb.atom n e).1) }
      (pcrdr_clone_message mb.atom n e).1 := by
  have hs := clone_message_spec mb.atom n e
  have ht : (pcrdr_clone_message mb.atom n e).1.type = 3 := by rw [hs.1, he]; rfl
  have hc := append_counts mb.queue (pcrdr_clone_message mb.atom n e).1
  refine ⟨rfl, rfl, rfl, ?_, hc.2, hc.1, hs.2.1, hs.2.2.1, hs.2.2.2.1⟩
  simp [pcinst_msg_queue_append, ht, is_timer_event_msg]

theorem broadcast_event_spec (e : pcrdr_msg) (he : e.type = PCRDR_MSG_TYPE_EVENT) :
    ∀ (table : List move_buffer) (next : Nat),
    next ≤ (broadcast_event e next table).2.2 ∧
    (broadcast_event e next table).1 = (table.filter move_buffer.broadcast).length ∧
    (∀ (i : Nat) (mb : move_buffer), table[i]? = some mb →
      ∃ mb', (broadcast_event e next table).2.1[i]? = some mb' ∧
        (mb.broadcast = false → mb' = mb) ∧
        (mb.broadcast = true → ∃ c, received_copy e mb mb' c ∧
          ∀ a ∈ c.addrs, next ≤ a ∧ a < (broadcast_event e next table).2.2)) ∧
    (∀ (i j : Nat) (mbi mbj : move_buffer), i < j → table[i]? = some mbi → table[j]? = some mbj →
      mbi.broadcast = true → mbj.broadcast = true →
      ∃ (mbi' mbj' : move_buffer) (ci cj : pcrdr_msg), (broadcast_event e next table).2.1[i]? = some mbi' ∧
        (broadcast_event e next table).2.1[j]? = some mbj' ∧
        received_copy e mbi mbi' ci ∧ received_copy e mbj mbj' cj ∧
        ∀ a ∈ ci.addrs, ∀ b ∈ cj.addrs, a < b) := by
  intro table
  induction table with
  | nil =>
    intro next
    simp [broadcast_event]
  | cons mb rest ih =>
    intro next
    by_cases hb : mb.broadcast = true
    · have hs := clone_message_spec mb.atom next e
      obtain ⟨i1, i2, i3, i4⟩ := ih (pcrdr_clone_message mb.atom next e).2
      simp only [broadcast_event, hb, if_true]
      refine ⟨by omega, by simp [List.filter_cons, hb, i2], ?_, ?_⟩
      · intro i m hi
        cases i with
        | zero =>
          simp only [List.getElem?_cons_zero, Option.some.injEq] at hi
          subst hi
          refine ⟨_, by simp, by simp [hb], fun _ => ⟨_, received_copy_of_clone e he mb next, ?_⟩⟩
          intro a ha
          have := hs.2.2.2.2.2 a ha
          omega
        | succ i' =>
          simp only [List.getElem?_cons_succ] at hi ⊢
          obtain ⟨mb', h1, h2, h3⟩ := i3 i' m hi
          refine ⟨mb', h1, h2, fun hm => ?_⟩
          obtain ⟨c, hc1, hc2⟩ := h3 hm
          refine ⟨c, hc1, fun a ha => ?_⟩
          have := hc2 a ha
          omega
      · intro i j mbi mbj hij hi hj hbi hbj
        cases j with
        | zero => omega
        | succ j' =>
          simp only [List.getElem?_cons_succ] at hj
          cases i with
          | zero =>
            simp only [List.getElem?_cons_zero, Option.some.injEq] at hi
            subst hi
            obtain ⟨mbj', h1, -, h3⟩ := i3 j' mbj hj
            obtain ⟨cj, hc1, hc2⟩ := h3 hbj
            refine ⟨_, mbj', _, cj, by simp, by simpa using h1,
              received_copy_of_clone e he mb next, hc1, ?_⟩
            intro a ha b hb'
            have := hs.2.2.2.2.2 a ha
            have := hc2 b hb'
            omega
          | succ i' =>
            simp only [List.getElem?_cons_succ] at hi
            obtain ⟨mbi', mbj', ci, cj, h1, h2, h3, h4, h5⟩ :=
              i4 i' j' mbi mbj (by omega) hi hj hbi hbj
            exact ⟨mbi', mbj', ci, cj, by simpa using h1, by simpa using h2, h3, h4, h5⟩
    · have hb' : mb.broadcast = false := by simpa using hb
      obtain ⟨i1, i2, i3, i4⟩ := ih next
      simp only [broadcast_event, hb', Bool.false_eq_true, if_false]
      refine ⟨i1, by simp [List.filter_cons, hb', i2], ?_, ?_⟩
      · intro i m hi
        cases i with
        | zero =>
          simp only [List.getElem?_cons_zero, Option.some.injEq] at hi
          subst hi
          exact ⟨_, by simp, fun _ => rfl, fun hm => by simp [hb'] at hm⟩
        | succ i' =>
          simp only [List.getElem?_cons_succ] at hi ⊢
          exact i3 i' m hi
      · intro i j mbi mbj hij hi hj hbi hbj
        cases j with
        | zero => omega
        | succ j' =>
          simp only [List.getElem?_cons_succ] at hj
          cases i with
          | zero =>
            simp only [List.getElem?_cons_zero, Option.some.injEq] at hi
            subst hi
            simp [hb'] at hbi
          | succ i' =>
            simp only [List.getElem?_cons_succ] at hi
            obtain ⟨mbi', mbj', ci, cj, h1, h2, h3, h4, h5⟩ :=
              i4 i' j' mbi mbj (by omega) hi hj hbi hbj
            exact ⟨mbi', mbj', ci, cj, by simpa using h1, by simpa using h2, h3, h4, h5⟩

/-- C3: for every event message `e` whose variants are allocated below the
next free address, and every table of live instances with a move buffer, N of
them created with the BROADCAST flag: `purc_inst_move_message(0, e)` returns
N; every instance with the flag holds exactly one new message, a copy with the
target, target value and event string of `e` whose variants share no cell with
`e`; an instance without the flag is unchanged; and the copies of two
different recipients share no cell. -/
theorem C3_broadcast_reaches_every_subscriber (e : pcrdr_msg) (table : List move_buffer)
    (next : Nat) (he : e.type = PCRDR_MSG_TYPE_EVENT) (hfresh : ∀ a ∈ e.addrs, a < next) :
    (purc_inst_move_message 0 e table next).1 =
      (table.filter move_buffer.broadcast).length ∧
    (∀ (i : Nat) (mb : move_buffer), table[i]? = some mb →
      ∃ mb', (purc_inst_move_message 0 e table next).2.1[i]? = some mb' ∧
        (mb.broadcast = false → mb' = mb) ∧
        (mb.broadcast = true → ∃ c, received_copy e mb mb' c ∧
          ∀ a ∈ c.addrs, a ∉ e.addrs)) ∧
    (∀ (i j : Nat) (mbi mbj : move_buffer), i < j → table[i]? = some mbi → table[j]? = some mbj →
      mbi.broadcast = true → mbj.broadcast = true →
      ∃ (mbi' mbj' : move_buffer) (ci cj : pcrdr_msg), (purc_inst_move_message 0 e table next).2.1[i]? = some mbi' ∧
        (purc_inst_move_message 0 e table next).2.1[j]? = some mbj' ∧
        received_copy e mbi mbi' ci ∧ received_copy e mbj mbj' cj ∧
        ∀ a ∈ ci.addrs, a ∉ cj.addrs) := by
  have hm : purc_inst_move_message 0 e table next = broadcast_event e next table := by
    simp [purc_inst_move_message, he]
  rw [hm]
  obtain ⟨-, h2, h3, h4⟩ := broadcast_event_spec e he table next
  refine ⟨h2, ?_, ?_⟩
  · intro i mb hi
    obtain ⟨mb', k1, k2, k3⟩ := h3 i mb hi
    refine ⟨mb', k1, k2, fun hb => ?_⟩
    obtain ⟨c, kc1, kc2⟩ := k3 hb
    refine ⟨c, kc1, fun a ha hae => ?_⟩
    have := kc2 a ha
    have := hfresh a hae
    omega
  · intro i j mbi mbj hij hi hj hbi hbj
    obtain ⟨mbi', mbj', ci, cj, k1, k2, k3, k4, k5⟩ := h4 i j mbi mbj hij hi hj hbi hbj
    refine ⟨mbi', mbj', ci, cj, k1, k2, k3, k4, fun a ha hb => ?_⟩
    have := k5 a ha a hb
    omega


/-- Witness of C3: the event of the test `instance.threads` broadcast to a
table with two subscribers among three instances. -/
theorem C3_broadcast_reaches_every_subscriber_witness :
    test_event.type = PCRDR_MSG_TYPE_EVENT ∧ (∀ a ∈ test_event.addrs, a < 100) ∧
    (test_table.filter move_buffer.broadcast).length = 2 ∧
    (purc_inst_move_message 0 test_event test_table 100).1 =
      (test_table.filter move_buffer.broadcast).length :=
  ⟨by decide, by decide, by decide,
    (C3_broadcast_reaches_every_subscriber test_event test_table 100 (by decide)
      (by decide)).1⟩

/-! ## Attributes of the sort, erase and iterate elements -/

/-- C13 (code defect): `process_attr_with` lacks the test of `by_set` that
`process_attr_onlyif` and `process_attr_while` make: the attributes `on`, `by`,
`with` in this order are all accepted and leave both `by_set` and `with_set`
set, while `on`, `with`, `by` fail with NOT_SUPPORTED; the frame then starts
in rule mode and `rerun` continues in the mode of `with`, so that `?` holds
the value of `with` from the second run on and `%` stays 0. -/
theorem C13_with_after_by_is_accepted :
    iterate.walk_on_by_with.1 = 0 ∧
    iterate.walk_on_by_with.2.1.by_set = true ∧
    iterate.walk_on_by_with.2.1.with_set = true ∧
    iterate.walk_on_with_by.1 = -1 ∧
    iterate.walk_on_with_by.2.2 = .NOT_SUPPORTED ∧
    (iterate.run_iterate iterate.range_externals iterate.attrs_on_by_with7 [.element 1] 5
        iterate.new_frame .OK).runs =
      some [(some (iterate.num 11 "3"), 0, [1]), (some (iterate.num 15 "7"), 0, [1]),
        (some (iterate.num 15 "7"), 0, [1])] := by
  decide

/-- C19 (counterexample): `attr_found_val` of `iterate.c` called for `with`
with an invalid value on a fresh context returns 0 and records the attribute. -/
theorem C19_counterexample_iterate_with_null :
    (iterate.attr_found_val (iterate.ctxt_for_iterate.calloc : iterate.ctxt_for_iterate Nat Nat)
        .WITH none ⟨.WITH, .error .INVALID_VALUE⟩ .OK).1 = 0 ∧
    (iterate.attr_found_val (iterate.ctxt_for_iterate.calloc : iterate.ctxt_for_iterate Nat Nat)
        .WITH none ⟨.WITH, .error .INVALID_VALUE⟩ .OK).2.1.with_attr =
      some ⟨.WITH, .error .INVALID_VALUE⟩ := by
  decide

/-- C19 (amended): in sort (`on`, `by`, `with`, `against`), in erase (`on`,
`at`) and for `on` of iterate, `attr_found_val` called for an attribute that is
already recorded returns -1 with DUPLICATED and leaves the context as it is,
and called for one not yet recorded with an invalid value returns -1 with
INVALID_VALUE and records nothing; the same holds for `by` of iterate while
`with_set` is clear, and NOT_SUPPORTED comes first when it is set; `with`,
`onlyif` and `while` of iterate ignore the value: a recorded one is refused
with DUPLICATED and one not yet recorded is recorded, whatever the value, null
included (`onlyif` and `while` while `by_set` is clear, NOT_SUPPORTED when it
is set). -/
theorem C19_duplicates_and_nulls_rejected {Inst Iter : Type}
    (sc : sort.ctxt_for_sort) (ec : erase.ctxt_for_erase)
    (ic : iterate.ctxt_for_iterate Inst Iter)
    (val : Option Variant) (attr : pcvdom_attr) (err : purc_error) :
    (∀ name, name ∈ [hvml_keyword.ON, .BY, .WITH, .AGAINST] →
      (sort.recorded sc name = true →
        sort.attr_found_val sc name val err = some (-1, sc, .DUPLICATED)) ∧
      (sort.recorded sc name = false →
        sort.attr_found_val sc name none err = some (-1, sc, .INVALID_VALUE))) ∧
    (∀ name, name ∈ [hvml_keyword.ON, .AT] →
      (erase.recorded ec name = true →
        erase.attr_found_val ec name val err = (-1, ec, .DUPLICATED)) ∧
      (erase.recorded ec name = false →
        erase.attr_found_val ec name none err = (-1, ec, .INVALID_VALUE))) ∧
    (iterate.recorded ic .ON = true →
      iterate.attr_found_val ic .ON val attr err = (-1, ic, .DUPLICATED)) ∧
    (iterate.recorded ic .ON = false →
      iterate.attr_found_val ic .ON none attr err = (-1, ic, .INVALID_VALUE)) ∧
    (ic.with_set = false → iterate.recorded ic .BY = true →
      iterate.attr_found_val ic .BY val attr err = (-1, ic, .DUPLICATED)) ∧
    (ic.with_set = false → iterate.recorded ic .BY = false →
      iterate.attr_found_val ic .BY none attr err = (-1, ic, .INVALID_VALUE)) ∧
    (iterate.recorded ic .WITH = true →
      iterate.attr_found_val ic .WITH val attr err = (-1, ic, .DUPLICATED)) ∧
    (∀ name, name ∈ [hvml_keyword.ONLYIF, .WHILE] →
      ic.by_set = false → iterate.recorded ic name = true →
        iterate.attr_found_val ic name val attr err = (-1, ic, .DUPLICATED)) ∧
    (iterate.recorded ic .WITH = false →
      iterate.attr_found_val ic .WITH val attr err =
        (0, { ic with with_attr := some attr, with_set := true }, err)) ∧
    (ic.by_set = false → iterate.recorded ic .ONLYIF = false →
      iterate.attr_found_val ic .ONLYIF val attr err =
        (0, { ic with onlyif_attr := some attr, with_set := true }, err)) ∧
    (ic.by_set = false → iterate.recorded ic .WHILE = false →
      iterate.attr_found_val ic .WHILE val attr err =
        (0, { ic with while_attr := some attr, with_set := true }, err)) ∧
    (ic.with_set = true →
      iterate.attr_found_val ic .BY val attr err = (-1, ic, .NOT_SUPPORTED)) ∧
    (∀ name, name ∈ [hvml_keyword.ONLYIF, .WHILE] → ic.by_set = true →
      iterate.attr_found_val ic name val attr err = (-1, ic, .NOT_SUPPORTED)) := by
  refine ⟨?_, ?_, ?_, ?_, ?_, ?_, ?_, ?_, ?_, ?_, ?_, ?_, ?_⟩
  · intro name hn
    simp only [List.mem_cons, List.mem_singleton, List.not_mem_nil, or_false] at hn
    rcases hn with rfl | rfl | rfl | rfl <;>
      refine ⟨fun h => ?_, fun h => ?_⟩ <;>
      simp_all [sort.recorded, sort.attr_found_val, sort.process_attr_on, sort.process_attr_by,
        sort.process_attr_with, sort.process_attr_against]
  · intro name hn
    simp only [List.mem_cons, List.mem_singleton, List.not_mem_nil, or_false] at hn
    rcases hn with rfl | rfl <;>
      refine ⟨fun h => ?_, fun h => ?_⟩ <;>
      simp_all [erase.recorded, erase.attr_found_val, erase.process_attr_on,
        erase.process_attr_at]
  · intro h
    simp_all [iterate.recorded, iterate.attr_found_val, iterate.process_attr_on]
  · intro h
    simp_all [iterate.recorded, iterate.attr_found_val, iterate.process_attr_on]
  · intro hw h
    simp_all [iterate.recorded, iterate.attr_found_val, iterate.process_attr_by]
  · intro hw h
    simp_all [iterate.recorded, iterate.attr_found_val, iterate.process_attr_by]
  · intro h
    simp_all [iterate.recorded, iterate.attr_found_val, iterate.process_attr_with]
  · intro name hn hb h
    simp only [List.mem_cons, List.mem_singleton, List.not_mem_nil, or_false] at hn
    rcases hn with rfl | rfl <;>
      simp_all [iterate.recorded, iterate.attr_found_val, iterate.process_attr_onlyif,
        iterate.process_attr_while]
  · intro h
    simp_all [iterate.recorded, iterate.attr_found_val, iterate.process_attr_with]
  · intro hb h
    simp_all [iterate.recorded, iterate.attr_found_val, iterate.process_attr_onlyif]
  · intro hb h
    simp_all [iterate.recorded, iterate.attr_found_val, iterate.process_attr_while]
  · intro hw
    simp_all [iterate.attr_found_val, iterate.process_attr_by]
  · intro name hn hb
    simp only [List.mem_cons, List.mem_singleton, List.not_mem_nil, or_false] at hn
    rcases hn with rfl | rfl <;>
      simp_all [iterate.attr_found_val, iterate.process_attr_onlyif,
        iterate.process_attr_while]

/-- C19 as amended, at contexts that hold `on` already (sort, erase) and at a
fresh context of iterate: a second `on` is refused with DUPLICATED, a null
`by` with INVALID_VALUE, and the contexts stay as they are. -/
theorem C19_duplicates_and_nulls_rejected_witness :
    sort.attr_found_val ⟨some iterate.array_3_1_2, none, none, none, true, true, none, none⟩ .ON
        (some (iterate.num 15 "7")) .OK =
      some (-1, ⟨some iterate.array_3_1_2, none, none, none, true, true, none, none⟩,
        .DUPLICATED) ∧
    erase.attr_found_val ⟨some iterate.array_3_1_2, none⟩ .AT none .OK =
      (-1, ⟨some iterate.array_3_1_2, none⟩, .INVALID_VALUE) ∧
    iterate.attr_found_val (iterate.ctxt_for_iterate.calloc : iterate.ctxt_for_iterate Nat Nat)
        .BY none ⟨.BY, .error .INVALID_VALUE⟩ .OK =
      (-1, iterate.ctxt_for_iterate.calloc, .INVALID_VALUE) :=
  ⟨((C19_duplicates_and_nulls_rejected
      ⟨some iterate.array_3_1_2, none, none, none, true, true, none, none⟩
      ⟨some iterate.array_3_1_2, none⟩
      (iterate.ctxt_for_iterate.calloc : iterate.ctxt_for_iterate Nat Nat)
      (some (iterate.num 15 "7")) ⟨.BY, .error .INVALID_VALUE⟩ .OK).1 .ON (by decide)).1 rfl,
    ((C19_duplicates_and_nulls_rejected
      ⟨some iterate.array_3_1_2, none, none, none, true, true, none, none⟩
      ⟨some iterate.array_3_1_2, none⟩
      (iterate.ctxt_for_iterate.calloc : iterate.ctxt_for_iterate Nat Nat)
      (some (iterate.num 15 "7")) ⟨.BY, .error .INVALID_VALUE⟩ .OK).2.1 .AT (by decide)).2 rfl,
    (C19_duplicates_and_nulls_rejected
      ⟨some iterate.array_3_1_2, none, none, none, true, true, none, none⟩
      ⟨some iterate.array_3_1_2, none⟩
      (iterate.ctxt_for_iterate.calloc : iterate.ctxt_for_iterate Nat Nat)
      (some (iterate.num 15 "7")) ⟨.BY, .error .INVALID_VALUE⟩ .OK).2.2.2.2.2.1 rfl rfl⟩

/-! ## The iterate element in rule mode -/

namespace iterate

theorem next_element_none (l : List pcvdom_node) (i : Nat)
    (h : next_element l i = none) : child_elements l = [] := by
  induction l generalizing i with
  | nil => rfl
  | cons x rest ih =>
    cases x with
    | element id => simp [next_element] at h
    | content => simpa [next_element, child_elements] using ih (i + 1) h
    | comment => simpa [next_element, child_elements] using ih (i + 1) h

theorem next_element_some (l : List pcvdom_node) (i j id : Nat)
    (h : next_element l i = some (j, id)) :
    ∃ k, j = i + k ∧ k < l.length ∧ child_elements l = id :: child_elements (l.drop (k + 1)) := by
  induction l generalizing i with
  | nil => simp [next_element] at h
  | cons x rest ih =>
    cases x with
    | element id0 =>
      simp only [next_element, Option.some.injEq, Prod.mk.injEq] at h
      obtain ⟨rfl, rfl⟩ := h
      exact ⟨0, rfl, by simp, by simp [child_elements]⟩
    | content =>
      obtain ⟨k, hk, hlt, he⟩ := ih (i + 1) h
      exact ⟨k + 1, by omega, by simp; omega, by simpa [child_elements] using he⟩
    | comment =>
      obtain ⟨k, hk, hlt, he⟩ := ih (i + 1) h
      exact ⟨k + 1, by omega, by simp; omega, by simpa [child_elements] using he⟩

/-- A run of the body visits the child elements behind the cursor and leaves
the cursor null. -/
theorem select_children_from {Inst Iter : Type} (children : List pcvdom_node) (n : Nat) :
    ∀ (fr : frame Inst Iter) (c : ctxt_for_iterate Inst Iter) (err : purc_error) (s : Nat),
      fr.ctxt = some c → c.stop = false →
      s = (match c.curr with | none => 0 | some i => i + 1) →
      s ≤ children.length → children.length + 1 ≤ n + s →
      select_children children n fr err =
        (child_elements (children.drop s), { fr with ctxt := some { c with curr := none } },
          .OK) := by
  induction n with
  | zero => intro fr c err s _ _ _ h1 h2; omega
  | succ n ih =>
    intro fr c err s hc hstop hs hle hfuel
    have hsel : select_child children fr err =
        (match next_element (children.drop s) s with
         | none => (none, { fr with ctxt := some { c with curr := none } }, .OK)
         | some (i, id) => (some id, { fr with ctxt := some { c with curr := some i } }, err)) := by
      simp only [select_child, hc, hstop, ← hs]
      rfl
    cases hne : next_element (children.drop s) s with
    | none =>
      rw [hne] at hsel
      simp only [select_children, hsel]
      rw [next_element_none _ _ hne]
    | some p =>
      obtain ⟨j, id⟩ := p
      rw [hne] at hsel
      obtain ⟨k, hj, hk, he⟩ := next_element_some _ _ _ _ hne
      simp only [List.length_drop] at hk
      have hrec := ih { fr with ctxt := some { c with curr := some j } } { c with curr := some j }
        err (j + 1) rfl hstop rfl (by omega) (by omega)
      simp only [select_children, hsel, hrec, he]
      have hd : List.drop (k + 1) (List.drop s children) = List.drop (j + 1) children := by
        rw [List.drop_drop]
        congr 1
        omega
      rw [hd]

/-- The attributes of rule mode leave the flags of the other mode clear. -/
theorem walk_attrs_rule_mode {Inst Iter : Type} (attrs : List pcvdom_attr) :
    ∀ (c : ctxt_for_iterate Inst Iter) (err : purc_error),
      (∀ a ∈ attrs, a.key ≠ .WITH ∧ a.key ≠ .ONLYIF ∧ a.key ≠ .WHILE) →
      c.with_set = false → c.with_attr = none → c.stop = false → c.curr = none →
      (walk_attrs c err attrs).2.1.with_set = false ∧
      (walk_attrs c err attrs).2.1.with_attr = none ∧
      (walk_attrs c err attrs).2.1.stop = false ∧
      (walk_attrs c err attrs).2.1.curr = none := by
  induction attrs with
  | nil => intro c err _ h1 h2 h3 h4; exact ⟨h1, h2, h3, h4⟩
  | cons a rest ih =>
    intro c err hk h1 h2 h3 h4
    have hka := hk a (List.mem_cons_self _ _)
    have hrest : ∀ b ∈ rest, b.key ≠ .WITH ∧ b.key ≠ .ONLYIF ∧ b.key ≠ .WHILE :=
      fun b hb => hk b (List.mem_cons_of_mem _ hb)
    have hstep : (attr_found c a err).2.1.with_set = false ∧
        (attr_found c a err).2.1.with_attr = none ∧
        (attr_found c a err).2.1.stop = false ∧
        (attr_found c a err).2.1.curr = none := by
      unfold attr_found
      cases hv : a.val with
      | error e => exact ⟨h1, h2, h3, h4⟩
      | ok v =>
        simp only [attr_found_val, process_attr_on, process_attr_by, hka.1, hka.2.1, hka.2.2,
          if_false]
        split_ifs <;> simp_all
    simp only [walk_attrs]
    split_ifs with hr
    · exact hstep
    · exact ih _ _ hrest hstep.1 hstep.2.1 hstep.2.2.1 hstep.2.2.2

/-- The loop in rule mode: with an iterator that yields `v :: vs` the body runs
once for every value and the loop ends when `it_next` returns null. -/
theorem run_loop_rule_mode {Inst Iter : Type} (E : externals Inst Iter)
    (children : List pcvdom_node) (ops : purc_exec_ops Inst Iter) (inst : Inst)
    (nrule : Option String) (e : purc_error) (vs : List Variant) :
    ∀ (v : Variant) (it : Iter) (fuel : Nat) (fr : frame Inst Iter)
      (c : ctxt_for_iterate Inst Iter) (err : purc_error)
      (acc : List (Option Variant × Nat × List Nat)),
      fr.ctxt = some c → c.by_set = true → c.with_set = false → c.stop = false →
      c.curr = none → c.ops = some ops → c.exec_inst = some inst → c.it = some it →
      (∀ err1, eval_rule c.rule_attr err1 = .ok nrule) →
      fr.question_var = some v →
      yields ops inst nrule e it (v :: vs) → vs.length + 1 ≤ fuel →
      (run_loop E children fuel fr err acc).runs =
          some (acc ++ runs_of (child_elements children) (v :: vs) fr.percent_var) ∧
      (run_loop E children fuel fr err acc).err =
          some (if e = .NOT_EXISTS then .OK else e) := by
  induction vs with
  | nil =>
    intro v it fuel fr c err acc hc hby hws hstop hcurr hops hinst hit hrule hq hy hfuel
    obtain ⟨n, rfl⟩ : ∃ n, fuel = n + 1 := ⟨fuel - 1, by omega⟩
    have hsel := select_children_from children (children.length + 1) fr c err 0 hc hstop
      (by rw [hcurr]) (by omega) (by omega)
    simp only [yields] at hy
    cases fr with
    | mk fctxt fq fp =>
    cases c with
    | mk ccurr con conlyif cwhile cwith crule cwith_ cops cinst cit cstop cws cby cnoset =>
    simp only at hc hby hws hstop hcurr hops hinst hit hq hrule hsel
    subst hc hby hws hstop hcurr hops hinst hit hq
    simp only [run_loop, hsel, on_popping, hrule, hy.2, List.drop_zero,
      Run.runs, Run.err, runs_of]
    simp
  | cons w rest ih =>
    intro v it fuel fr c err acc hc hby hws hstop hcurr hops hinst hit hrule hq hy hfuel
    obtain ⟨n, rfl⟩ : ∃ n, fuel = n + 1 := ⟨fuel - 1, by simp at hfuel; omega⟩
    have hsel := select_children_from children (children.length + 1) fr c err 0 hc hstop
      (by rw [hcurr]) (by omega) (by omega)
    simp only [yields] at hy
    obtain ⟨hv, it1, hnext, hy1⟩ := hy
    have hw : ops.it_value inst it1 = .ok w := by
      cases rest with
      | nil => exact hy1.1
      | cons x xs => exact hy1.1
    have hrec := ih w it1 n
      (pcintr_set_question_var (pcintr_inc_percent_var
        { fr with ctxt := some { c with curr := none, it := some it1 } }) w)
      { c with curr := none, it := some it1 } .OK
      (acc ++ [(fr.question_var, fr.percent_var, child_elements children)])
      rfl hby hws hstop rfl hops hinst rfl hrule rfl hy1 (by simp at hfuel; omega)
    cases fr with
    | mk fctxt fq fp =>
    cases c with
    | mk ccurr con conlyif cwhile cwith crule cwith_ cops cinst cit cstop cws cby cnoset =>
    simp only at hc hby hws hstop hcurr hops hinst hit hq hrule hsel hrec
    subst hc hby hws hstop hcurr hops hinst hit hq
    simp only [run_loop, hsel, on_popping, hrule, hnext, List.drop_zero, rerun, hw]
    simp only [pcintr_set_question_var, pcintr_inc_percent_var, List.append_assoc,
      List.singleton_append, runs_of] at hrec ⊢
    simpa [hw] using hrec

/-- The rule read from the attribute `by` does not depend on the last error
when it is read successfully. -/
theorem eval_rule_ok (a : Option pcvdom_attr) (err : purc_error) (x : Option String)
    (h : eval_rule a err = .ok x) (err1 : purc_error) : eval_rule a err1 = .ok x := by
  unfold eval_rule at h ⊢
  cases a with
  | none => exact h
  | some a =>
    simp only at h ⊢
    cases hv : a.val with
    | error e0 => rw [hv] at h; cases h
    | ok val =>
      rw [hv] at h
      simp only at h ⊢
      cases hs : purc_variant_get_string_const val with
      | none => rw [hs] at h; cases h
      | some str => rw [hs] at h; exact h

/-- The hook `after_pushed` in rule mode creates the executor instance, takes
the first iterator and sets `?` to its value. -/
theorem after_pushed_rule_mode {Inst Iter : Type} (E : externals Inst Iter)
    (attrs : List pcvdom_attr) (fr0 : frame Inst Iter) (err0 : purc_error)
    (on_v : Variant) (nrule : Option String) (ops : purc_exec_ops Inst Iter) (inst : Inst)
    (it0 : Iter) (v : Variant)
    (hkeys : ∀ a ∈ attrs, a.key ≠ .WITH ∧ a.key ≠ .ONLYIF ∧ a.key ≠ .WHILE)
    (hwalk : (walk_attrs (ctxt_for_iterate.calloc : ctxt_for_iterate Inst Iter) err0 attrs).1 = 0)
    (hon : (walk_attrs (ctxt_for_iterate.calloc : ctxt_for_iterate Inst Iter) err0 attrs).2.1.on_
      = some on_v)
    (hrule : eval_rule
      (walk_attrs (ctxt_for_iterate.calloc : ctxt_for_iterate Inst Iter) err0 attrs).2.1.rule_attr
      .OK = .ok nrule)
    (hexec : E.purc_get_executor (nrule.getD "RANGE: FROM 0") = .ok ops)
    (hcreate : ops.create on_v = .ok inst)
    (hbegin : ops.it_begin inst (nrule.getD "RANGE: FROM 0") = .ok it0)
    (hvalue : ops.it_value inst it0 = .ok v) :
    ∃ c : ctxt_for_iterate Inst Iter,
      after_pushed E attrs fr0 err0 =
        some ({ ctxt := some c, question_var := some v, percent_var := fr0.percent_var }, .OK) ∧
      c.by_set = true ∧ c.with_set = false ∧ c.stop = false ∧ c.curr = none ∧
      c.ops = some ops ∧ c.exec_inst = some inst ∧ c.it = some it0 ∧
      eval_rule c.rule_attr .OK = .ok nrule := by
  have hinv := walk_attrs_rule_mode attrs (ctxt_for_iterate.calloc : ctxt_for_iterate Inst Iter)
    err0 hkeys rfl rfl rfl rfl
  generalize hw : walk_attrs (ctxt_for_iterate.calloc : ctxt_for_iterate Inst Iter) err0 attrs = w
    at hwalk hon hrule hinv
  obtain ⟨r, c, e1⟩ := w
  simp only at hwalk hon hrule hinv
  obtain ⟨h1, h2, h3, h4⟩ := hinv
  cases c with
  | mk ccurr con conlyif cwhile cwith crule cwith_ cops cinst cit cstop cws cby cnoset =>
  simp only at hon hrule h1 h2 h3 h4
  subst hwalk hon h1 h2 h3 h4
  refine ⟨ctxt_for_iterate.mk none (some on_v) conlyif cwhile none crule
    (some (.single (.inst E.inst) .v_undefined)) (some ops) (some inst) (some it0)
    false false true cnoset, ?_, rfl, rfl, rfl, rfl, rfl, rfl, rfl, hrule⟩
  cases fr0 with
  | mk fctxt fq fp =>
  unfold after_pushed
  simp only [hw]
  cases cby <;>
    simp [post_process_by_rule, hrule, hexec, hcreate, hbegin, hvalue, pcintr_set_question_var]

end iterate

/-- C12: in rule mode of the iterate element (no `with`, `onlyif` or `while`
among the accepted attributes; the rule of `by`, or `RANGE: FROM 0` without
it), with an executor whose iterator yields the values `vs` and then returns
null with error `e`, the run of the frame ends, given fuel for `vs.length`
runs: the body runs once for every value, the `i`-th run with the `i`-th value
in `?` and `%` advanced by `i`, and the loop ends at the null iterator with the
error cleared when it is NOT_EXISTS. -/
theorem C12_rule_mode_runs_body_once_per_value {Inst Iter : Type}
    (E : iterate.externals Inst Iter) (attrs : List pcvdom_attr)
    (children : List iterate.pcvdom_node) (fr0 : iterate.frame Inst Iter) (err0 : purc_error)
    (on_v : Variant) (nrule : Option String) (ops : iterate.purc_exec_ops Inst Iter)
    (inst : Inst) (it0 : Iter) (vs : List Variant) (e : purc_error) (fuel : Nat)
    (hkeys : ∀ a ∈ attrs, a.key ≠ .WITH ∧ a.key ≠ .ONLYIF ∧ a.key ≠ .WHILE)
    (hwalk : (iterate.walk_attrs
      (iterate.ctxt_for_iterate.calloc : iterate.ctxt_for_iterate Inst Iter) err0 attrs).1 = 0)
    (hon : (iterate.walk_attrs
      (iterate.ctxt_for_iterate.calloc : iterate.ctxt_for_iterate Inst Iter) err0 attrs).2.1.on_
        = some on_v)
    (hrule : iterate.eval_rule (iterate.walk_attrs
      (iterate.ctxt_for_iterate.calloc : iterate.ctxt_for_iterate Inst Iter) err0
        attrs).2.1.rule_attr .OK = .ok nrule)
    (hexec : E.purc_get_executor (nrule.getD "RANGE: FROM 0") = .ok ops)
    (hcreate : ops.create on_v = .ok inst)
    (hbegin : ops.it_begin inst (nrule.getD "RANGE: FROM 0") = .ok it0)
    (hyields : iterate.yields ops inst nrule e it0 vs)
    (hfuel : vs.length ≤ fuel) :
    (iterate.run_iterate E attrs children fuel fr0 err0).runs =
        some (iterate.runs_of (iterate.child_elements children) vs fr0.percent_var) ∧
    (iterate.run_iterate E attrs children fuel fr0 err0).err =
        some (if e = .NOT_EXISTS then .OK else e) := by
  cases vs with
  | nil => exact absurd hyields (by simp [iterate.yields])
  | cons v rest =>
    have hvalue : ops.it_value inst it0 = .ok v := by
      cases rest with
      | nil => exact hyields.1
      | cons x xs => exact hyields.1
    obtain ⟨c, hap, hby, hws, hstop, hcurr, hops, hinst, hit, hr⟩ :=
      iterate.after_pushed_rule_mode E attrs fr0 err0 on_v nrule ops inst it0 v hkeys hwalk hon
        hrule hexec hcreate hbegin hvalue
    have hloop := iterate.run_loop_rule_mode E children ops inst nrule e rest v it0 fuel
      { ctxt := some c, question_var := some v, percent_var := fr0.percent_var } c .OK []
      rfl hby hws hstop hcurr hops hinst hit (iterate.eval_rule_ok _ _ _ hr) rfl hyields
      (by simpa using hfuel)
    simp only [iterate.run_iterate, hap]
    simpa using hloop

/-- C12 at `iterate on [3,1,2] by "RANGE: FROM 0"` with one child element:
`?` is 3, then 1, then 2, `%` is 0, 1, 2, and the loop ends without error. -/
theorem C12_rule_mode_runs_body_once_per_value_witness :
    (iterate.walk_attrs
      (iterate.ctxt_for_iterate.calloc : iterate.ctxt_for_iterate (List Variant) Nat) .OK
      iterate.attrs_on_by).1 = 0 ∧
    iterate.yields iterate.range_ops
      [iterate.num 11 "3", iterate.num 12 "1", iterate.num 13 "2"] (some "RANGE: FROM 0")
      .NOT_EXISTS 0 [iterate.num 11 "3", iterate.num 12 "1", iterate.num 13 "2"] ∧
    (iterate.run_iterate iterate.range_externals iterate.attrs_on_by [.element 1] 3
        iterate.new_frame .OK).runs =
      some [(some (iterate.num 11 "3"), 0, [1]), (some (iterate.num 12 "1"), 1, [1]),
        (some (iterate.num 13 "2"), 2, [1])] ∧
    (iterate.run_iterate iterate.range_externals iterate.attrs_on_by [.element 1] 3
        iterate.new_frame .OK).err = some .OK :=
  ⟨by decide, ⟨rfl, 1, rfl, rfl, 2, rfl, rfl, rfl⟩,
    C12_rule_mode_runs_body_once_per_value iterate.range_externals iterate.attrs_on_by
      [.element 1] iterate.new_frame .OK iterate.array_3_1_2 (some "RANGE: FROM 0")
      iterate.range_ops [iterate.num 11 "3", iterate.num 12 "1", iterate.num 13 "2"] 0
      [iterate.num 11 "3", iterate.num 12 "1", iterate.num 13 "2"] .NOT_EXISTS 3
      (by decide) (by decide) (by decide) (by decide) rfl rfl rfl
      ⟨rfl, 1, rfl, rfl, 2, rfl, rfl, rfl⟩ (by decide)⟩

/-! ## The erase element -/

/-- C16 (code defect): `array_erase` and `set_erase` do not hand the number
of removed members to `?`: erasing `[10, 20, 30]` at `[1]` removes one member
and yields the unsigned integer 0, and erasing it without `at` clears three
members and yields the boolean `true`; the sibling `object_erase` yields the
counts (1 for `.a` of `{a: 1, b: 2}`, 2 for clearing it). -/
theorem C16_array_erase_result_is_not_the_count :
    erase.array_erase erase.array_10_20_30 (some (purc_variant_make_string 20 "[1]")) false .OK =
      (some (.ulongint 0), erase.array_10_30, .OK) ∧
    erase.array_erase erase.array_10_20_30 none false .OK =
      (some (.boolean true), erase.array_empty, .OK) ∧
    erase.set_erase erase.set_10_20_30 (some (purc_variant_make_string 20 "[1]")) false .OK =
      (some (.ulongint 0), erase.set_10_30, .OK) ∧
    (erase.after_pushed erase.externals_example erase.doc_example
      [⟨.ON, .ok erase.array_10_20_30⟩, ⟨.AT, .ok (purc_variant_make_string 20 "[1]")⟩]
      false .OK).question_var = some (.ulongint 0) ∧
    (erase.object_erase erase.object_a_b (some (purc_variant_make_string 20 ".a")) false .OK).1 =
      some (.ulongint 1) ∧
    (erase.object_erase erase.object_a_b none false .OK).1 = some (.ulongint 2) := by
  decide

/-- C18 (code defect): `array_erase` and `set_erase` read the index with
`strtoll` and never look at what follows the digits: with `at` equal to
`[1x]`, which is not of the form `[n]`, member 1 of `[10, 20, 30]` is removed,
the result is valid and no error is set; the same holds for `[ +1]`. -/
theorem C18_index_with_trailing_text_is_accepted :
    erase.array_erase erase.array_10_20_30 (some (purc_variant_make_string 20 "[1x]")) false .OK =
      (some (.ulongint 0), erase.array_10_30, .OK) ∧
    erase.set_erase erase.set_10_20_30 (some (purc_variant_make_string 20 "[1x]")) false .OK =
      (some (.ulongint 0), erase.set_10_30, .OK) ∧
    erase.array_erase erase.array_10_20_30 (some (purc_variant_make_string 20 "[ +1]")) false
      .OK = (some (.ulongint 0), erase.array_10_30, .OK) ∧
    erase.array_erase erase.array_10_20_30 (some (purc_variant_make_string 20 "[7]")) false .OK =
      (none, erase.array_10_20_30, .INVALID_VALUE) := by
  decide

/-! ## The sort element -/

namespace sort

end sort

/-- C15 (code defect): the loop of `sort_array` that decides which keys are
compared by number starts its inner index at `key_idx`, the count of keys
found so far: for `against` equal to `a b` and the array
`[{b:1}, {a:10, b:1}, {a:9, b:1}]` the key `a`, whose values are all numbers,
stays a text key, `{a:10, b:1}` is put before `{a:9, b:1}` (numerically 10 is
above 9), and the sorted array begins with 10; with the first two members
exchanged the same key is compared by number. -/
theorem C15_number_key_compared_as_text :
    sort.sorted_a_b.ctxt.map (fun c => c.keys) =
      some (some [⟨some "a", false⟩, ⟨some "b", true⟩]) ∧
    sort.sorted_a_b.ctxt.map (fun c => sort.sort_cmp sort.externals_example c
      (sort.obj_a_b 220 "10" "1") (sort.obj_a_b 230 "9" "1")) = some (-1) ∧
    sort.key_number sort.externals_example "a" (sort.obj_a_b 220 "10" "1") = 10 ∧
    sort.key_number sort.externals_example "a" (sort.obj_a_b 230 "9" "1") = 9 ∧
    sort.sorted_a_b.members =
      [sort.obj_a_b 220 "10" "1", sort.obj_a_b 230 "9" "1", sort.obj1 210 "b" "1"] ∧
    sort.sorted_a_b_swapped.ctxt.map (fun c => c.keys) =
      some (some [⟨some "a", true⟩, ⟨some "b", true⟩]) ∧
    sort.sorted_a_b_swapped.members =
      [sort.obj1 210 "b" "1", sort.obj_a_b 230 "9" "1", sort.obj_a_b 220 "10" "1"] := by
  decide

/-! ## The timers of `$TIMERS` -/

/-- C20 fails as stated: the timer `clock` runs with an interval of 1000 and
its entry is changed to `{id: "clock", interval: 4294967796, active: "yes"}`:
the timer is started with the interval 500, which is not `nv.interval`; changed
to `{id: "clock", interval: "soon", active: "yes"}` it is started with the
interval 0. -/
theorem C20_counterexample_interval_beyond_uint32 :
    purc_variant_object_get_by_ckey timer.nv_clock_wide "interval" =
      some (.leaf 74 .NUMBER 1 false 0 "4294967796") ∧
    timer.cast_example (.leaf 74 .NUMBER 1 false 0 "4294967796") = some 4294967796 ∧
    (timer.timers_set_change 0 timer.cast_example timer.timers_clock timer.nv_clock_wide
        .OK).map (fun r => (r.1, timer.find_timer r.2.1 "clock")) =
      some (true, some ⟨500, true, true, 500⟩) ∧
    timer.cast_example (timer.str 84 "soon") = none ∧
    (timer.timers_set_change 0 timer.cast_example timer.timers_clock timer.nv_clock_soon
        .OK).map (fun r => (r.1, timer.find_timer r.2.1 "clock")) =
      some (true, some ⟨0, true, true, 0⟩) := by
  refine ⟨by decide, by decide, by decide, by decide, by decide⟩

/-- C20, amended: for an entry of `$TIMERS` whose timer is in the map and a
change of it to `nv`: `timers_set_change` returns true and, afterwards, the
timer of `nv.id` is stopped when `nv.active` is a string other than `yes`, has
been started repeating with the interval it then has when `nv.active` is
`yes`, and is as active as before when `nv` has no member `active`; the
interval it then has is the one it had before when `nv` has no member
`interval`; otherwise, with `ret` the unsigned integer that `nv.interval`
casts to (0 when it does not cast), it is the old interval when that equals
`ret` and `ret` reduced modulo `2^32` when it does not: for a timer that comes
with an interval below `2^32` (the field is a `uint32_t`), `ret` reduced
modulo `2^32` in both cases. -/
theorem C20_change_starts_or_stops_timer (uninit : Nat) (cast : Variant → Option Nat)
    (timers : timer.pcintr_timers) (nv idv : Variant) (id : String) (t : timer.PurcTimer)
    (err : purc_error)
    (hid : purc_variant_object_get_by_ckey nv "id" = some idv)
    (hids : purc_variant_get_string_const idv = some id)
    (hfind : timer.find_timer timers id = some t)
    (hact : ∀ a, purc_variant_object_get_by_ckey nv "active" = some a →
      (purc_variant_get_string_const a).isSome) :
    ∃ timers1 err1 t1,
      timer.timers_set_change uninit cast timers nv err = some (true, timers1, err1) ∧
      timer.find_timer timers1 id = some t1 ∧
      (∀ a s, purc_variant_object_get_by_ckey nv "active" = some a →
        purc_variant_get_string_const a = some s → s ≠ "yes" → t1.active = false) ∧
      (∀ a, purc_variant_object_get_by_ckey nv "active" = some a →
        purc_variant_get_string_const a = some "yes" →
        t1.active = true ∧ t1.repeating = true ∧ t1.period = t1.m_interval) ∧
      (purc_variant_object_get_by_ckey nv "active" = none → t1.active = t.active) ∧
      (purc_variant_object_get_by_ckey nv "interval" = none → t1.m_interval = t.m_interval) ∧
      (∀ i, purc_variant_object_get_by_ckey nv "interval" = some i →
        t1.m_interval =
          (if t.m_interval = (cast i).getD 0 % 18446744073709551616 then t.m_interval
           else (cast i).getD 0 % 4294967296) ∧
        (t.m_interval < 4294967296 → t1.m_interval = (cast i).getD 0 % 4294967296)) := by
  obtain ⟨tm1, htm1, hi1, hi2, ha1⟩ : ∃ tm1 : timer.PurcTimer,
      (match purc_variant_object_get_by_ckey nv "interval" with
        | some i =>
          if timer.pcintr_timer_get_interval t ≠ (cast i).getD 0 % 18446744073709551616 then
            timer.pcintr_timer_set_interval t ((cast i).getD 0 % 18446744073709551616)
          else t
        | none => t) = tm1 ∧
      (purc_variant_object_get_by_ckey nv "interval" = none → tm1.m_interval = t.m_interval) ∧
      (∀ i, purc_variant_object_get_by_ckey nv "interval" = some i →
        tm1.m_interval =
          (if t.m_interval = (cast i).getD 0 % 18446744073709551616 then t.m_interval
           else (cast i).getD 0 % 4294967296) ∧
        (t.m_interval < 4294967296 → tm1.m_interval = (cast i).getD 0 % 4294967296)) ∧
      tm1.active = t.active := by
    refine ⟨_, rfl, ?_, ?_, ?_⟩
    · intro h
      rw [h]
    · intro i h
      rw [h]
      simp only [timer.pcintr_timer_get_interval, timer.pcintr_timer_set_interval]
      generalize (cast i).getD 0 = u
      by_cases hne : t.m_interval = u % 18446744073709551616
      · simp only [hne, ne_eq, not_true_eq_false, if_false, if_true, true_and]
        intro hlt
        omega
      · simp only [hne, ne_eq, not_false_eq_true, if_true, if_false]
        refine ⟨?_, fun _ => ?_⟩ <;> omega
    · split
      · split_ifs <;> rfl
      · rfl
  have hrun : ∀ na : Bool,
      (match purc_variant_object_get_by_ckey nv "active" with
        | some a => timer.is_euqal a "yes"
        | none => some (timer.pcintr_timer_is_active tm1)) = some na →
      ∃ err1, timer.timers_set_change uninit cast timers nv err =
        some (true, timer.add_timer timers id
          (if na then timer.pcintr_timer_start tm1 else timer.pcintr_timer_stop tm1), err1) := by
    intro na hna
    simp only [timer.timers_set_change, timer.get_inner_timer, hid, hids, hfind, htm1, hna]
    cases na
    · exact ⟨_, rfl⟩
    · exact ⟨_, rfl⟩
  have hfound : ∀ x : timer.PurcTimer,
      timer.find_timer (timer.add_timer timers id x) id = some x := by
    intro x
    simp [timer.find_timer, timer.add_timer]
  cases hactive : purc_variant_object_get_by_ckey nv "active" with
  | none =>
    obtain ⟨err1, hr⟩ := hrun tm1.active (by rw [hactive]; rfl)
    refine ⟨_, err1, _, hr, hfound _, ?_, ?_, ?_, ?_, ?_⟩
    · intro a s h
      cases h
    · intro a h
      cases h
    · intro _
      rw [← ha1]
      cases tm1.active <;> rfl
    · intro h
      have := hi1 h
      cases tm1.active <;> simpa [timer.pcintr_timer_start, timer.pcintr_timer_stop] using this
    · intro i h
      have := hi2 i h
      cases tm1.active <;> simpa [timer.pcintr_timer_start, timer.pcintr_timer_stop] using this
  | some a =>
    obtain ⟨s, hs⟩ := Option.isSome_iff_exists.mp (hact a hactive)
    obtain ⟨err1, hr⟩ := hrun (decide (s = "yes")) (by rw [hactive]; simp [timer.is_euqal, hs])
    refine ⟨_, err1, _, hr, hfound _, ?_, ?_, ?_, ?_, ?_⟩
    · intro a1 s1 h h1 hne
      cases h
      rw [hs] at h1
      cases h1
      simp [hne, timer.pcintr_timer_stop]
    · intro a1 h h1
      cases h
      rw [hs] at h1
      cases h1
      simp [timer.pcintr_timer_start]
    · intro h
      cases h
    · intro h
      have := hi1 h
      by_cases hy : s = "yes" <;>
        simpa [hy, timer.pcintr_timer_start, timer.pcintr_timer_stop] using this
    · intro i h
      have := hi2 i h
      by_cases hy : s = "yes" <;>
        simpa [hy, timer.pcintr_timer_start, timer.pcintr_timer_stop] using this

/-- C20 as amended, at the timer `clock` that runs with an interval of 1000:
the change of its entry to `{id: "clock", active: "no"}` (the test
`observe.basic`) stops the timer, and the change to
`{id: "clock", interval: 4294967796, active: "yes"}` starts it repeating with
the interval `4294967796 mod 2^32`. -/
theorem C20_change_starts_or_stops_timer_witness :
    timer.find_timer timer.timers_clock "clock" = some ⟨1000, true, true, 1000⟩ ∧
    (∃ timers1 err1 t1,
      timer.timers_set_change 0 timer.cast_example timer.timers_clock timer.nv_clock_no .OK =
        some (true, timers1, err1) ∧
      timer.find_timer timers1 "clock" = some t1 ∧ t1.active = false ∧
      t1.m_interval = 1000) ∧
    ∃ timers1 err1 t1,
      timer.timers_set_change 0 timer.cast_example timer.timers_clock timer.nv_clock_wide .OK =
        some (true, timers1, err1) ∧
      timer.find_timer timers1 "clock" = some t1 ∧
      (t1.active = true ∧ t1.repeating = true ∧ t1.period = t1.m_interval) ∧
      t1.m_interval =
        (timer.cast_example (.leaf 74 .NUMBER 1 false 0 "4294967796")).getD 0 % 4294967296 :=
  ⟨by decide,
    (C20_change_starts_or_stops_timer 0 timer.cast_example timer.timers_clock timer.nv_clock_no
      (timer.str 52 "clock") "clock" ⟨1000, true, true, 1000⟩ .OK rfl rfl (by decide)
      (fun a h => by
        have h2 : some (timer.str 54 "no") = some a := h
        cases h2
        rfl)).elim
      (fun timers1 h => h.elim (fun err1 h => h.elim (fun t1 h =>
        ⟨timers1, err1, t1, h.1, h.2.1,
          h.2.2.1 (timer.str 54 "no") "no" rfl rfl (by decide),
          h.2.2.2.2.2.1 rfl⟩))),
    (C20_change_starts_or_stops_timer 0 timer.cast_example timer.timers_clock
      timer.nv_clock_wide (timer.str 72 "clock") "clock" ⟨1000, true, true, 1000⟩ .OK
      rfl rfl (by decide)
      (fun a h => by
        have h2 : some (timer.str 76 "yes") = some a := h
        cases h2
        rfl)).elim
      (fun timers1 h => h.elim (fun err1 h => h.elim (fun t1 h =>
        ⟨timers1, err1, t1, h.1, h.2.1,
          h.2.2.2.1 (timer.str 76 "yes") rfl rfl,
          (h.2.2.2.2.2.2 (.leaf 74 .NUMBER 1 false 0 "4294967796") rfl).2 (by decide)⟩)))⟩

/-! ## Observers of the variables of a manager -/

/-- Inside the table `purc_get_except_atom_by_id` returns the atom of the
entry, from `PURC_EXCEPT_NR` on it returns 0. -/
theorem purc_get_except_atom_by_id_nonneg (atom_of : String → Nat) (id : Int)
    (h0 : 0 ≤ id) :
    purc_get_except_atom_by_id atom_of id =
      if id < PURC_EXCEPT_NR then (_except_names_str.get? id.toNat).map atom_of
      else some 0 := by
  unfold purc_get_except_atom_by_id
  by_cases h : id < PURC_EXCEPT_NR
  · have hlen : (_except_names atom_of).length = 56 := by
      simp [_except_names, _except_names_str]
    have h56 : id < 56 := h
    simp only [h, if_true, array_read, hlen, h0, true_and]
    simp only [Nat.cast_ofNat, h56, if_true]
    simp only [_except_names, List.get?_eq_getElem?, List.getElem?_map, Option.map_map]
    rfl
  · simp [h]

/-- C30: `purc_get_except_atom_by_id (-1)` passes the only test of the
function, `id < PURC_EXCEPT_NR`, and reads `_except_names[-1]`, one entry
before the table, instead of returning 0; ids from 0 on behave as claimed
(entry 11 is `BadName`, id 56 gives 0). -/
theorem C30_negative_id_reads_before_the_table :
    purc_get_except_atom_by_id except_atom_of (-1) = none ∧
    purc_get_except_atom_by_id except_atom_of (-1) ≠ some 0 ∧
    purc_get_except_atom_by_id except_atom_of 0 = some 1 ∧
    purc_get_except_atom_by_id except_atom_of 11 = some 12 ∧
    purc_get_except_atom_by_id except_atom_of 55 = some 56 ∧
    purc_get_except_atom_by_id except_atom_of 56 = some 0 := by
  decide

/-! ## Timer events in the message queue -/

/-- The function `pcinst_msg_queue_append` puts every EVENT message at the tail
of the event list, and no message of any type enters the timer list: the test
`is_timer_event_msg` answers false for every message. -/
theorem pcinst_msg_queue_append_event (queue : pcinst_msg_queue) (msg : pcrdr_msg) :
    (pcinst_msg_queue_append queue msg).timer_msgs = queue.timer_msgs ∧
    (msg.type = PCRDR_MSG_TYPE_EVENT →
      (pcinst_msg_queue_append queue msg).event_msgs = queue.event_msgs ++ [msg]) := by
  unfold pcinst_msg_queue_append
  refine ⟨?_, ?_⟩
  · split <;> simp [is_timer_event_msg]
  · intro h
    simp only [PCRDR_MSG_TYPE_EVENT] at h
    simp [h, is_timer_event_msg]

/-- C24 (code defect): the queue has a timer list and `pcinst_msg_queue_append`
has the branch that fills it, but the test `is_timer_event_msg` of that branch
answers false for every message: the event `timer_event`, whose data carries a
`timer-id`, is put in the event list and the timer list stays empty. -/
theorem C24_timer_event_goes_to_the_event_list :
    carries_timer_id timer_event = true ∧
    timer_event.type = PCRDR_MSG_TYPE_EVENT ∧
    is_timer_event_msg timer_event = false ∧
    (pcinst_msg_queue_append pcinst_msg_queue_create timer_event).timer_msgs = [] ∧
    (pcinst_msg_queue_append pcinst_msg_queue_create timer_event).event_msgs =
      [timer_event] := by
  decide

/-! ## The iterate element with `with`, `onlyif` and `while` -/

/-- C28: in the mode of `with` the hooks of iterate reach a failing
`PC_ASSERT`: `after_pushed` when `with` evaluates to undefined, null or false
and when `with` is missing, `rerun` when `with` evaluates to undefined, and
`on_popping` when `with` is missing; with `with=7` the same calls complete. -/
theorem C28_with_mode_reaches_failing_assertion :
    (iterate.after_pushed iterate.with_externals
      (iterate.attrs_on_with (.single (.inst 0) .v_undefined)) iterate.new_frame .OK).isNone
        = true ∧
    (iterate.after_pushed iterate.with_externals
      (iterate.attrs_on_with (.single (.inst 0) .v_null)) iterate.new_frame .OK).isNone
        = true ∧
    (iterate.after_pushed iterate.with_externals
      (iterate.attrs_on_with (.single (.inst 0) .v_false)) iterate.new_frame .OK).isNone
        = true ∧
    (iterate.after_pushed iterate.with_externals iterate.attrs_on_while
      iterate.new_frame .OK).isNone = true ∧
    (iterate.rerun iterate.with_externals
      (iterate.frame_of (iterate.attrs_on_with (.single (.inst 0) .v_undefined))) .OK).isNone
        = true ∧
    (iterate.on_popping iterate.with_externals
      (iterate.frame_of iterate.attrs_on_while) .OK).isNone = true ∧
    (iterate.after_pushed iterate.with_externals
      (iterate.attrs_on_with (iterate.num 16 "7")) iterate.new_frame .OK).isSome = true ∧
    (iterate.rerun iterate.with_externals
      (iterate.frame_of (iterate.attrs_on_with (iterate.num 16 "7"))) .OK).isSome = true := by
  decide

/-! ## The iterate element with `with`, `onlyif` and `while`, attribute by attribute -/

namespace iterate
namespace on_stack

/-- With an evaluation that does not read the stack the walk over the
attributes is the walk of the section on the iterate element. -/
theorem walk_attrs_constant {Inst Iter : Type} (E : iterate.externals Inst Iter)
    (fr : frame Inst Iter) (attrs : List pcvdom_attr) :
    ∀ (ctxt : ctxt_for_iterate Inst Iter) (err : purc_error),
      walk_attrs (constant E) fr ctxt err attrs = iterate.walk_attrs ctxt err attrs := by
  induction attrs with
  | nil => intro ctxt err; rfl
  | cons a rest ih =>
    intro ctxt err
    simp only [walk_attrs, iterate.walk_attrs]
    have h : attr_found (constant E) fr ctxt a err = iterate.attr_found ctxt a err := rfl
    rw [h]
    split_ifs
    · rfl
    · exact ih _ _

/-- With an evaluation that does not read the stack the hook `after_pushed` is
the hook of the section on the iterate element. -/
theorem after_pushed_constant {Inst Iter : Type} (E : iterate.externals Inst Iter)
    (attrs : List pcvdom_attr) (fr : frame Inst Iter) (err : purc_error) :
    after_pushed (constant E) attrs fr err = iterate.after_pushed E attrs fr err := by
  simp only [after_pushed, iterate.after_pushed, walk_attrs_constant]
  rfl

/-- With an evaluation that does not read the stack the hook `on_popping` is
the hook of the section on the iterate element. -/
theorem on_popping_constant {Inst Iter : Type} (E : iterate.externals Inst Iter)
    (fr : frame Inst Iter) (err : purc_error) :
    on_popping (constant E) fr err = iterate.on_popping E fr err := rfl

/-- With an evaluation that does not read the stack the hook `rerun` is the
hook of the section on the iterate element. -/
theorem rerun_constant {Inst Iter : Type} (E : iterate.externals Inst Iter)
    (fr : frame Inst Iter) (err : purc_error) :
    rerun (constant E) fr err = iterate.rerun E fr err := rfl

/-- The function `attr_found_val` leaves the stop flag as it is. -/
theorem attr_found_val_stop {Inst Iter : Type} (ctxt : ctxt_for_iterate Inst Iter)
    (name : hvml_keyword) (val : Option Variant) (attr : pcvdom_attr) (err : purc_error) :
    (attr_found_val ctxt name val attr err).2.1.stop = ctxt.stop := by
  unfold attr_found_val process_attr_on process_attr_by process_attr_onlyif
    process_attr_while process_attr_with
  cases val <;> (split_ifs <;> rfl)

/-- The walk over the attributes leaves the stop flag as it is. -/
theorem walk_attrs_stop {Inst Iter : Type} (E : externals Inst Iter) (fr : frame Inst Iter)
    (attrs : List pcvdom_attr) :
    ∀ (ctxt : ctxt_for_iterate Inst Iter) (err : purc_error),
      (walk_attrs E fr ctxt err attrs).2.1.stop = ctxt.stop := by
  induction attrs with
  | nil => intro ctxt err; rfl
  | cons a rest ih =>
    intro ctxt err
    have hf : (attr_found E fr ctxt a err).2.1.stop = ctxt.stop := by
      unfold attr_found
      cases eval_vdom_attr E fr a with
      | error e => rfl
      | ok v => exact attr_found_val_stop ctxt a.key (some v) a err
    simp only [walk_attrs]
    split_ifs
    · exact hf
    · rw [ih, hf]

/-- An attribute whose evaluation fails ends the walk with the error of the
evaluation, whatever attribute it is. -/
theorem walk_attrs_eval_fails {Inst Iter : Type} (E : externals Inst Iter)
    (fr : frame Inst Iter) (a : pcvdom_attr) (rest : List pcvdom_attr) (e : purc_error)
    (ha : eval_vdom_attr E fr a = .error e) (pre : List pcvdom_attr) :
    ∀ (ctxt : ctxt_for_iterate Inst Iter) (err : purc_error),
      (walk_attrs E fr ctxt err pre).1 = 0 →
      walk_attrs E fr ctxt err (pre ++ a :: rest) =
        (-1, (walk_attrs E fr ctxt err pre).2.1, e) := by
  induction pre with
  | nil =>
    intro ctxt err _
    simp [walk_attrs, attr_found, ha]
  | cons b more ih =>
    intro ctxt err h
    simp only [walk_attrs, List.cons_append] at h ⊢
    split_ifs at h ⊢ with hb
    · exact absurd h hb
    · exact ih _ _ h

/-- A guard that casts to 0 makes `check_onlyif` succeed with the flag set. -/
theorem check_onlyif_zero {Inst Iter : Type} (E : externals Inst Iter) (fr : frame Inst Iter)
    (a : pcvdom_attr) (h : guard_value E fr true (some a) = some 0) :
    check_onlyif E fr a = some (0, true) := by
  unfold guard_value at h
  unfold check_onlyif
  cases hv : eval_vdom_attr E fr a with
  | error e => simp [hv] at h
  | ok v => simp only [hv] at h; simp [h]

/-- An open guard makes `check_onlyif` succeed with the flag clear. -/
theorem check_onlyif_open {Inst Iter : Type} (E : externals Inst Iter) (fr : frame Inst Iter)
    (a : pcvdom_attr) (h : guard_open E fr true (some a) = true) :
    check_onlyif E fr a = some (0, false) := by
  unfold guard_open guard_value at h
  unfold check_onlyif
  cases hv : eval_vdom_attr E fr a with
  | error e => simp [hv] at h
  | ok v =>
    simp only [hv] at h
    cases hc : E.purc_variant_cast_to_longint v true with
    | none => simp [hc] at h
    | some i => simp only [hc, decide_eq_true_eq] at h; simp [hc, h]

/-- A guard that casts to 0 makes `check_while` succeed with the flag set. -/
theorem check_while_zero {Inst Iter : Type} (E : externals Inst Iter) (fr : frame Inst Iter)
    (a : pcvdom_attr) (h : guard_value E fr false (some a) = some 0) :
    check_while E fr a = (0, true) := by
  unfold guard_value at h
  unfold check_while
  cases hv : eval_vdom_attr E fr a with
  | error e => simp [hv] at h
  | ok v => simp only [hv] at h; simp [h]

/-- An open guard makes `check_while` succeed with the flag clear. -/
theorem check_while_open {Inst Iter : Type} (E : externals Inst Iter) (fr : frame Inst Iter)
    (a : pcvdom_attr) (h : guard_open E fr false (some a) = true) :
    check_while E fr a = (0, false) := by
  unfold guard_open guard_value at h
  unfold check_while
  cases hv : eval_vdom_attr E fr a with
  | error e => simp [hv] at h
  | ok v =>
    simp only [hv] at h
    cases hc : E.purc_variant_cast_to_longint v false with
    | none => simp [hc] at h
    | some i => simp only [hc, decide_eq_true_eq] at h; simp [hc, h]

end on_stack
end iterate

/-- C26 fails as stated: for `on=[3,1,2] onlyif=0 with=7` the first run sets
the stop flag, leaves `?` unset and `select_child` returns null; but the walk
of `after_pushed` over the attributes has evaluated `with` before `onlyif` is
looked at: for `on=[3,1,2] onlyif=0 with=e`, where the evaluation of `e`
fails, `after_pushed` returns with the error of that evaluation and the stop
flag clear, and `select_child` returns the first child.  And for
`onlyif=0 with=7` without `on`, `post_process` returns with ARGUMENT_MISSED
before it looks at `onlyif`: the stop flag stays clear and `select_child`
returns the first child. -/
theorem C26_counterexample_with_evaluated_in_the_walk :
    iterate.on_stack.guard_value (iterate.on_stack.constant iterate.with_externals)
      iterate.new_frame true (some ⟨.ONLYIF, .ok (iterate.num 15 "0")⟩) = some 0 ∧
    (iterate.on_stack.after_pushed (iterate.on_stack.constant iterate.with_externals)
      iterate.on_stack.attrs_onlyif_zero iterate.new_frame .OK).map
        (fun r => (r.1.ctxt.map (fun c => c.stop), r.1.question_var, r.2,
          (iterate.select_child [.element 1] r.1 r.2).1)) =
      some (some true, none, .OK, none) ∧
    iterate.on_stack.eval_vdom_attr (iterate.on_stack.constant iterate.with_externals)
      iterate.new_frame ⟨.WITH, .error .INVALID_VALUE⟩ = .error .INVALID_VALUE ∧
    (iterate.on_stack.after_pushed (iterate.on_stack.constant iterate.with_externals)
      iterate.on_stack.attrs_with_fails iterate.new_frame .OK).map
        (fun r => (r.1.ctxt.map (fun c => c.stop), r.1.question_var, r.2,
          (iterate.select_child [.element 1] r.1 r.2).1)) =
      some (some false, none, .INVALID_VALUE, some 1) ∧
    (iterate.on_stack.after_pushed (iterate.on_stack.constant iterate.with_externals)
      iterate.on_stack.attrs_without_on iterate.new_frame .OK).map
        (fun r => (r.1.ctxt.map (fun c => c.stop), r.1.question_var, r.2,
          (iterate.select_child [.element 1] r.1 r.2).1)) =
      some (some false, none, .ARGUMENT_MISSED, some 1) := by
  refine ⟨by decide, by decide, by decide, by decide, by decide⟩

/-- C26, amended: in the mode of `with` of iterate (no `by`), with the context
`ctxt` of the frame `fr` and attributes that are evaluated on the stack as it
is at each call.  The walk of `after_pushed` evaluates every attribute, `with`
included: an attribute whose evaluation fails ends the walk, and
`after_pushed` then returns with that error and the stop flag clear.  After a
walk that succeeded, for an element with `on`, and at every `rerun` of an
element with `with`: when `onlyif` casts to 0, the stop flag is set and `?`
and the rest of the frame stay as they are, whatever `with` would evaluate to,
and `select_child` then returns null; when `onlyif` is absent or casts to
another integer, `?` is set to the value that `with` evaluates to, for a
value other than undefined, null and false.  When `while` casts to 0,
`on_popping` sets the stop flag and returns true; when it is absent or casts
to another integer and the element has `with`, `on_popping` adds one to `%`
and returns false, and the rerun that follows sets `?` to the value that
`with` evaluates to then, on the frame with the new `%`. -/
theorem C26_with_mode_guards {Inst Iter : Type} (E : iterate.on_stack.externals Inst Iter)
    (ctxt : iterate.ctxt_for_iterate Inst Iter) (fr : iterate.frame Inst Iter)
    (err : purc_error) (children : List iterate.pcvdom_node)
    (hfr : fr.ctxt = some ctxt) (hby : ctxt.by_set = false) (hws : ctxt.with_set = true)
    (hstop : ctxt.stop = false) :
    (∀ pre a rest e0 c e1 e,
      iterate.on_stack.walk_attrs E fr iterate.ctxt_for_iterate.calloc e0 pre = (0, c, e1) →
      iterate.on_stack.eval_vdom_attr E fr a = .error e →
        iterate.on_stack.walk_attrs E fr iterate.ctxt_for_iterate.calloc e0 (pre ++ a :: rest) =
          (-1, c, e) ∧
        iterate.on_stack.after_pushed E (pre ++ a :: rest) fr e0 =
          some ({ fr with ctxt := some c }, e) ∧
        c.stop = false) ∧
    (iterate.on_stack.guard_value E fr true ctxt.onlyif_attr = some 0 →
      (ctxt.on_.isSome = true →
        iterate.on_stack.post_process E ctxt fr err =
          some (0, { ctxt with stop := true }, fr, err) ∧
        ∀ attrs e0 e1, iterate.on_stack.walk_attrs E fr iterate.ctxt_for_iterate.calloc e0 attrs
            = (0, ctxt, e1) →
          iterate.on_stack.after_pushed E attrs fr e0 =
            some ({ fr with ctxt := some { ctxt with stop := true } }, .OK)) ∧
      (ctxt.with_attr.isSome = true →
        iterate.on_stack.rerun E fr err =
          some (true, { fr with ctxt := some { ctxt with stop := true } }, err)) ∧
      iterate.select_child children { fr with ctxt := some { ctxt with stop := true } } err =
        (none, { fr with ctxt := some { ctxt with stop := true } }, err)) ∧
    (iterate.on_stack.guard_open E fr true ctxt.onlyif_attr = true →
      ∀ w wv, ctxt.with_attr = some w → iterate.on_stack.eval_vdom_attr E fr w = .ok wv →
        iterate.check_stop wv = false →
        (ctxt.on_.isSome = true →
          iterate.on_stack.post_process E ctxt fr err =
            some (0, ctxt, iterate.pcintr_set_question_var fr wv, err) ∧
          ∀ attrs e0 e1,
            iterate.on_stack.walk_attrs E fr iterate.ctxt_for_iterate.calloc e0 attrs
              = (0, ctxt, e1) →
            iterate.on_stack.after_pushed E attrs fr e0 =
              some ({ iterate.pcintr_set_question_var fr wv with ctxt := some ctxt }, .OK)) ∧
        iterate.on_stack.rerun E fr err =
          some (true, iterate.pcintr_set_question_var fr wv, err)) ∧
    (iterate.on_stack.guard_value E fr false ctxt.while_attr = some 0 →
      iterate.on_stack.on_popping E fr err =
        some (true, { fr with ctxt := some { ctxt with stop := true } }, err)) ∧
    (iterate.on_stack.guard_open E fr false ctxt.while_attr = true →
      ctxt.with_attr.isSome = true →
      iterate.on_stack.on_popping E fr err =
        some (false, iterate.pcintr_inc_percent_var fr, err) ∧
      (iterate.pcintr_inc_percent_var fr).percent_var = fr.percent_var + 1 ∧
      (iterate.pcintr_inc_percent_var fr).question_var = fr.question_var ∧
      (iterate.on_stack.guard_open E (iterate.pcintr_inc_percent_var fr) true ctxt.onlyif_attr
          = true →
        ∀ w wv, ctxt.with_attr = some w →
          iterate.on_stack.eval_vdom_attr E (iterate.pcintr_inc_percent_var fr) w = .ok wv →
          iterate.check_stop wv = false →
          iterate.on_stack.rerun E (iterate.pcintr_inc_percent_var fr) err =
            some (true,
              iterate.pcintr_set_question_var (iterate.pcintr_inc_percent_var fr) wv, err))) := by
  have hon2 : ctxt.on_.isSome = true → ctxt.on_.isNone = false := by
    intro hon
    cases h : ctxt.on_ with
    | none => simp [h] at hon
    | some v => rfl
  have hpp0 : iterate.on_stack.guard_value E fr true ctxt.onlyif_attr = some 0 →
      ctxt.on_.isSome = true →
      ∀ e, iterate.on_stack.post_process E ctxt fr e =
        some (0, { ctxt with stop := true }, fr, e) := by
    intro h0 hon e
    cases ho : ctxt.onlyif_attr with
    | none => simp [ho, iterate.on_stack.guard_value] at h0
    | some a =>
      rw [ho] at h0
      have hc := iterate.on_stack.check_onlyif_zero E fr a h0
      simp [iterate.on_stack.post_process, hby, hon2 hon, ho, hc]
  have hpp1 : ∀ (e : purc_error) (w : pcvdom_attr) (wv : Variant),
      iterate.on_stack.guard_open E fr true ctxt.onlyif_attr = true →
      ctxt.with_attr = some w → iterate.on_stack.eval_vdom_attr E fr w = .ok wv →
      iterate.check_stop wv = false → ctxt.on_.isSome = true →
      iterate.on_stack.post_process E ctxt fr e =
        some (0, ctxt, iterate.pcintr_set_question_var fr wv, e) := by
    intro e w wv hopen hw hwv hcs hon
    cases ho : ctxt.onlyif_attr with
    | none =>
      simp [iterate.on_stack.post_process, hby, hon2 hon, ho, hw,
        iterate.on_stack.re_eval_with, hwv, hcs]
    | some a =>
      rw [ho] at hopen
      have hc := iterate.on_stack.check_onlyif_open E fr a hopen
      simp [iterate.on_stack.post_process, hby, hon2 hon, ho, hc, hw,
        iterate.on_stack.re_eval_with, hwv, hcs]
  have hrr1 : ∀ (f : iterate.frame Inst Iter) (e : purc_error) (w : pcvdom_attr)
      (wv : Variant), f.ctxt = some ctxt →
      iterate.on_stack.guard_open E f true ctxt.onlyif_attr = true →
      ctxt.with_attr = some w → iterate.on_stack.eval_vdom_attr E f w = .ok wv →
      iterate.check_stop wv = false →
      iterate.on_stack.rerun E f e = some (true, iterate.pcintr_set_question_var f wv, e) := by
    intro f e w wv hf hopen hw hwv hcs
    cases ho : ctxt.onlyif_attr with
    | none =>
      simp [iterate.on_stack.rerun, hf, hws, iterate.on_stack.rerun_with, ho, hw,
        iterate.on_stack.re_eval_with, hwv, hcs]
    | some a =>
      rw [ho] at hopen
      have hc := iterate.on_stack.check_onlyif_open E f a hopen
      simp [iterate.on_stack.rerun, hf, hws, iterate.on_stack.rerun_with, ho, hc, hw,
        iterate.on_stack.re_eval_with, hwv, hcs]
  refine ⟨?_, ?_, ?_, ?_, ?_⟩
  · intro pre a rest e0 c e1 e hpre ha
    have hw := iterate.on_stack.walk_attrs_eval_fails E fr a rest e ha pre
      iterate.ctxt_for_iterate.calloc e0 (by rw [hpre])
    rw [hpre] at hw
    refine ⟨hw, ?_, ?_⟩
    · simp [iterate.on_stack.after_pushed, hw]
    · have hs := iterate.on_stack.walk_attrs_stop E fr pre iterate.ctxt_for_iterate.calloc e0
      rw [hpre] at hs
      exact hs
  · intro h0
    refine ⟨?_, ?_, ?_⟩
    · intro hon
      refine ⟨hpp0 h0 hon err, ?_⟩
      intro attrs e0 e1 hwalk
      simp [iterate.on_stack.after_pushed, hwalk, hby, hws, hpp0 h0 hon .OK]
    · intro hw
      cases hwa : ctxt.with_attr with
      | none => simp [hwa] at hw
      | some w =>
        cases ho : ctxt.onlyif_attr with
        | none => simp [ho, iterate.on_stack.guard_value] at h0
        | some a =>
          rw [ho] at h0
          have hc := iterate.on_stack.check_onlyif_zero E fr a h0
          simp [iterate.on_stack.rerun, hfr, hws, iterate.on_stack.rerun_with, hwa, ho, hc]
    · simp [iterate.select_child]
  · intro hopen w wv hw hwv hcs
    refine ⟨?_, hrr1 fr err w wv hfr hopen hw hwv hcs⟩
    intro hon
    refine ⟨hpp1 err w wv hopen hw hwv hcs hon, ?_⟩
    intro attrs e0 e1 hwalk
    simp [iterate.on_stack.after_pushed, hwalk, hby, hws, hpp1 .OK w wv hopen hw hwv hcs hon]
  · intro h0
    cases hwh : ctxt.while_attr with
    | none => simp [hwh, iterate.on_stack.guard_value] at h0
    | some a =>
      rw [hwh] at h0
      have hc := iterate.on_stack.check_while_zero E fr a h0
      simp [iterate.on_stack.on_popping, hfr, hby, iterate.on_stack.on_popping_with, hstop,
        hwh, hc]
  · intro hopen hw
    have hwn : ctxt.with_attr.isNone = false := by
      cases h : ctxt.with_attr with
      | none => simp [h] at hw
      | some v => rfl
    refine ⟨?_, rfl, rfl, ?_⟩
    · cases hwh : ctxt.while_attr with
      | none =>
        simp [iterate.on_stack.on_popping, hfr, hby, iterate.on_stack.on_popping_with, hstop,
          hwh, hwn]
      | some a =>
        rw [hwh] at hopen
        have hc := iterate.on_stack.check_while_open E fr a hopen
        simp [iterate.on_stack.on_popping, hfr, hby, iterate.on_stack.on_popping_with, hstop,
          hwh, hc, hwn]
    · intro hopen1 w wv hw1 hwv hcs
      exact hrr1 _ err w wv (by simp [iterate.pcintr_inc_percent_var, hfr]) hopen1 hw1 hwv hcs

/-- C26 as amended, at the frame of `on=[3,1,2] onlyif=1 with=w while=1`, where
`w` evaluates to 7 while `%` is 0 and to 8 afterwards: the first run sets `?`
to 7, `on_popping` adds one to `%` and returns false, and the rerun sets `?`
to 8, the value that `with` evaluates to then. -/
theorem C26_with_mode_guards_witness :
    iterate.on_stack.post_process iterate.on_stack.externals_example
      (iterate.ctxt_of (iterate.attrs_on_onlyif_with_while "1" "1"))
      (iterate.frame_of (iterate.attrs_on_onlyif_with_while "1" "1")) .OK =
      some (0, iterate.ctxt_of (iterate.attrs_on_onlyif_with_while "1" "1"),
        iterate.pcintr_set_question_var
          (iterate.frame_of (iterate.attrs_on_onlyif_with_while "1" "1")) (iterate.num 16 "7"),
        .OK) ∧
    iterate.on_stack.on_popping iterate.on_stack.externals_example
      (iterate.frame_of (iterate.attrs_on_onlyif_with_while "1" "1")) .OK =
      some (false, iterate.pcintr_inc_percent_var
        (iterate.frame_of (iterate.attrs_on_onlyif_with_while "1" "1")), .OK) ∧
    iterate.on_stack.rerun iterate.on_stack.externals_example
      (iterate.pcintr_inc_percent_var
        (iterate.frame_of (iterate.attrs_on_onlyif_with_while "1" "1"))) .OK =
      some (true, iterate.pcintr_set_question_var
        (iterate.pcintr_inc_percent_var
          (iterate.frame_of (iterate.attrs_on_onlyif_with_while "1" "1")))
        (iterate.num 18 "8"), .OK) :=
  ⟨(((C26_with_mode_guards iterate.on_stack.externals_example
      (iterate.ctxt_of (iterate.attrs_on_onlyif_with_while "1" "1"))
      (iterate.frame_of (iterate.attrs_on_onlyif_with_while "1" "1")) .OK []
      rfl (by decide) (by decide) (by decide)).2.2.1 (by decide)
      ⟨.WITH, .ok (iterate.num 16 "7")⟩ (iterate.num 16 "7") (by decide) (by decide)
      (by decide)).1 (by decide)).1,
   ((C26_with_mode_guards iterate.on_stack.externals_example
      (iterate.ctxt_of (iterate.attrs_on_onlyif_with_while "1" "1"))
      (iterate.frame_of (iterate.attrs_on_onlyif_with_while "1" "1")) .OK []
      rfl (by decide) (by decide) (by decide)).2.2.2.2 (by decide)
      (by decide)).1,
   ((C26_with_mode_guards iterate.on_stack.externals_example
      (iterate.ctxt_of (iterate.attrs_on_onlyif_with_while "1" "1"))
      (iterate.frame_of (iterate.attrs_on_onlyif_with_while "1" "1")) .OK []
      rfl (by decide) (by decide) (by decide)).2.2.2.2 (by decide)
      (by decide)).2.2.2 (by decide)
      ⟨.WITH, .ok (iterate.num 16 "7")⟩ (iterate.num 18 "8") (by decide) (by decide)
      (by decide)⟩

/-! ## Adding and removing the observer of a named variable -/

/-- A record appended to a list without a match is found at the end. -/
theorem find_var_observe_idx_from_append (name : String) (type : var_event_type)
    (stack : Nat) (l : List var_observe) :
    ∀ i, find_var_observe_idx_from name type stack l i = none →
      find_var_observe_idx_from name type stack (l ++ [⟨name, type, stack⟩]) i =
        some (i + l.length) := by
  induction l with
  | nil => intro i _; simp [find_var_observe_idx_from]
  | cons obs rest ih =>
    intro i h
    simp only [find_var_observe_idx_from] at h
    split_ifs at h with hc
    simp only [List.cons_append, find_var_observe_idx_from, hc, if_false, List.length_cons]
    have hrec := ih (i + 1) h
    simp only [List.append_eq] at hrec ⊢
    rw [hrec]
    congr 1
    omega

/-- For the three `change:` events the removal undoes a registration that
added a record: the manager is back to what it was. -/
theorem pcvarmgr_remove_after_add_change (mgr : pcvarmgr) (name event : String)
    (stack : Nat) (err err1 : purc_error)
    (hev : event = "change:attached" ∨ event = "change:detached" ∨
      event = "change:displaced")
    (hbound : (pairs_get_by_ckey mgr.object name).isSome)
    (hnew : find_var_observe_idx mgr name (observer_type event) stack = none) :
    pcvarmgr_remove_observer (pcvarmgr_add_observer mgr name event stack err).2.1 name event
      stack err1 = (true, mgr, err1) := by
  obtain ⟨v, hv⟩ := Option.isSome_iff_exists.mp hbound
  have hty : remove_observer_type event = observer_type event := by
    rcases hev with h | h | h <;> subst h <;> decide
  have hadd : (pcvarmgr_add_observer mgr name event stack err).2.1 =
      { mgr with var_observers := mgr.var_observers ++ [⟨name, observer_type event, stack⟩] } := by
    simp only [pcvarmgr_add_observer, pcvarmgr_get, hv, hnew]
  rw [hadd]
  unfold find_var_observe_idx at hnew
  have hfind := find_var_observe_idx_from_append name (observer_type event) stack
    mgr.var_observers 0 hnew
  simp only [pcvarmgr_remove_observer, pcvarmgr_get, hv, find_var_observe_idx, hty, hfind,
    Nat.zero_add]
  cases mgr with
  | mk object var_observers =>
    simp [List.eraseIdx_append_of_length_le]

/-- C25: stack 1 observes `x` for `change:attached`; it then adds an observer
of `x` for `except:BadName` and removes it right away.  The record that was
added is still there and goes on receiving the exception, and the record for
`change:attached` is gone: `pcvarmgr_remove_observer` has no case for
`except:` and looks for a record of the type ATTACHED.  On an empty list the
removal fails and the record stays; for `change:displaced` the observer list
is back to what it was. -/
theorem C25_except_observer_survives_its_removal :
    (add_then_remove (stack_with_x [⟨"x", .VAR_EVENT_TYPE_ATTACHED, 1⟩]) 1 "x"
        "except:BadName").observers =
      ([⟨"x", .VAR_EVENT_TYPE_EXCEPT, 1⟩], []) ∧
    (add_then_remove (stack_with_x []) 1 "x" "except:BadName").observers =
      ([⟨"x", .VAR_EVENT_TYPE_EXCEPT, 1⟩], []) ∧
    (pcintr_remove_named_var_observer
      (pcintr_add_named_var_observer (stack_with_x []) 1 "x" "except:BadName" .OK).2.1
      1 "x" "except:BadName" .OK).1 = false ∧
    (match (add_then_remove (stack_with_x []) 1 "x" "except:BadName").vdom with
     | some mgr => pcvarmgr_dispatch_except mgr "x" "BadName"
     | none => []) = [⟨1, "change", "BadName"⟩] ∧
    (add_then_remove (stack_with_x [⟨"x", .VAR_EVENT_TYPE_ATTACHED, 1⟩]) 1 "x"
        "change:displaced").observers =
      ([⟨"x", .VAR_EVENT_TYPE_ATTACHED, 1⟩], []) := by
  decide

/-! ## The mode of the document -/

/-- C22 fails as stated: in the mode BEFORE_HEAD the hook `after_pushed` of
body, and the one of the undefined element, change the mode to IN_BODY, which
is not the immediate successor IN_HEAD of BEFORE_HEAD but three places on. -/
theorem C22_counterexample_before_head_to_in_body :
    (body.after_pushed (fun _ => .ok ()) .STACK_VDOM_BEFORE_HEAD [] .OK).map (fun r => r.1) =
      some .STACK_VDOM_IN_BODY ∧
    undefined.after_pushed_mode .STACK_VDOM_BEFORE_HEAD = some .STACK_VDOM_IN_BODY ∧
    stack_vdom_mode.successor .STACK_VDOM_BEFORE_HEAD = some .STACK_VDOM_IN_HEAD ∧
    stack_vdom_mode.successor .STACK_VDOM_BEFORE_HEAD ≠ some .STACK_VDOM_IN_BODY ∧
    stack_vdom_mode.rank .STACK_VDOM_IN_BODY =
      stack_vdom_mode.rank .STACK_VDOM_BEFORE_HEAD + 3 := by
  decide

/-- C22, amended: the hooks move the mode forward along the chain or leave it.
`after_pushed` of body changes BEFORE_HEAD and AFTER_HEAD to IN_BODY and is
stopped by an assertion in every other mode; `on_popping` of body changes
IN_BODY to AFTER_BODY and is stopped by an assertion in every other mode;
`after_pushed` of the undefined element changes BEFORE_HEAD and AFTER_HEAD to
IN_BODY, leaves IN_HEAD and IN_BODY and is stopped by an assertion in every
other mode; `on_popping` of the undefined element leaves the mode.  No hook
moves the mode backwards. -/
theorem C22_mode_moves_forward (set : pcvdom_attr → Except purc_error Unit)
    (mode : stack_vdom_mode) (attrs : List pcvdom_attr) (err : purc_error)
    (bc : Option body.ctxt_for_body) (uc : Option undefined.ctxt_for_undefined) :
    ((body.after_pushed set mode attrs err).map (fun r => r.1) =
      if mode = .STACK_VDOM_BEFORE_HEAD ∨ mode = .STACK_VDOM_AFTER_HEAD
      then some .STACK_VDOM_IN_BODY else none) ∧
    ((body.on_popping mode bc).map (fun r => r.2.1) =
      if mode = .STACK_VDOM_IN_BODY then some .STACK_VDOM_AFTER_BODY else none) ∧
    (undefined.after_pushed_mode mode =
      if mode = .STACK_VDOM_BEFORE_HEAD ∨ mode = .STACK_VDOM_AFTER_HEAD
      then some .STACK_VDOM_IN_BODY
      else if mode = .STACK_VDOM_IN_HEAD ∨ mode = .STACK_VDOM_IN_BODY then some mode
      else none) ∧
    (undefined.on_popping mode uc).2.1 = mode ∧
    (∀ mode1, ((body.after_pushed set mode attrs err).map (fun r => r.1) = some mode1 ∨
        (body.on_popping mode bc).map (fun r => r.2.1) = some mode1 ∨
        undefined.after_pushed_mode mode = some mode1 ∨
        (undefined.on_popping mode uc).2.1 = mode1) →
      mode.rank ≤ mode1.rank) := by
  have h1 : (body.after_pushed set mode attrs err).map (fun r => r.1) =
      if mode = .STACK_VDOM_BEFORE_HEAD ∨ mode = .STACK_VDOM_AFTER_HEAD
      then some .STACK_VDOM_IN_BODY else none := by
    cases mode <;> simp only [body.after_pushed] <;> split_ifs <;> simp_all
  have h2 : (body.on_popping mode bc).map (fun r => r.2.1) =
      if mode = .STACK_VDOM_IN_BODY then some .STACK_VDOM_AFTER_BODY else none := by
    cases mode <;> simp [body.on_popping]
  have h3 : undefined.after_pushed_mode mode =
      if mode = .STACK_VDOM_BEFORE_HEAD ∨ mode = .STACK_VDOM_AFTER_HEAD
      then some .STACK_VDOM_IN_BODY
      else if mode = .STACK_VDOM_IN_HEAD ∨ mode = .STACK_VDOM_IN_BODY then some mode
      else none := by
    cases mode <;> simp [undefined.after_pushed_mode]
  refine ⟨h1, h2, h3, rfl, ?_⟩
  intro mode1 h
  rw [h1, h2, h3] at h
  simp only [undefined.on_popping] at h
  cases mode <;> cases mode1 <;> simp_all [stack_vdom_mode.rank]

/-- C22 (amended) at `after_pushed` of body in the mode AFTER_HEAD. -/
theorem C22_mode_moves_forward_witness :
    stack_vdom_mode.rank .STACK_VDOM_AFTER_HEAD ≤ stack_vdom_mode.rank .STACK_VDOM_IN_BODY :=
  (C22_mode_moves_forward (fun _ => .ok ()) .STACK_VDOM_AFTER_HEAD [] .OK none none).2.2.2.2
    .STACK_VDOM_IN_BODY (Or.inl (by decide))

/-! ## The selection of the children -/

/-- C27: the body element has the children `$n, <5>, comment, <6>` and `$n`
evaluates to the number 1.  The first call of `select_child` of `body.c` is
stopped by the `PC_ASSERT(0)` of `on_content` and returns no child, while the
hooks of `undefined.c`, `sort.c` and `iterate.c` on the same children return
the elements 5 and 6 and then null, with the cursor reset.  When the text is
a string, `body.c` does so too. -/
theorem C27_body_stops_at_content_that_is_no_string :
    body.select_child children_number false (some ⟨none⟩) [] .OK = none ∧
    select_until_null (body.select_step children_number) 5 (some ⟨none⟩, []) = none ∧
    select_until_null (undefined.select_step stringify_example children_number) 5
      (some ⟨none, none⟩, []) = some ([5, 6], some ⟨none, none⟩, ["1"]) ∧
    (select_until_null (sort.select_step children_number) 5
      (some ⟨none, none, none, none, true, true, none, none⟩)).map (fun r => r.1) =
        some [5, 6] ∧
    (select_until_null (iterate.select_step children_number) 5
      (⟨some iterate.ctxt_for_iterate.calloc, none, 0⟩ : iterate.frame Unit Unit)).map
        (fun r => r.1) = some [5, 6] ∧
    select_until_null (body.select_step children_text) 5 (some ⟨none⟩, []) =
      some ([5, 6], some ⟨none⟩, ["a"]) ∧
    element_children children_number = [5, 6] := by
  refine ⟨by decide, by decide, by decide, by decide, by decide, by decide, by decide⟩

/-- The child elements of an element are those of the kinds of its nodes. -/
theorem element_children_kind (children : List pcvdom_node) :
    iterate.child_elements (children.map pcvdom_node.kind) = element_children children := by
  induction children with
  | nil => rfl
  | cons x rest ih =>
    cases x <;> simp [pcvdom_node.kind, iterate.child_elements, element_children, ih]

/-- Successive calls of `select_child` of `sort.c` return the child elements
behind the cursor, in document order, then null, and leave the cursor null. -/
theorem sort_select_from (children : List pcvdom_node) (n : Nat) :
    ∀ (c : sort.ctxt_for_sort) (s : Nat),
      s = (match c.curr with | none => 0 | some i => i + 1) →
      s ≤ children.length → children.length + 1 ≤ n + s →
      select_until_null (sort.select_step children) n (some c) =
        some (iterate.child_elements ((children.map pcvdom_node.kind).drop s),
          some { c with curr := none }) := by
  induction n with
  | zero => intro c s _ h1 h2; omega
  | succ n ih =>
    intro c s hs hle hfuel
    have hsel : sort.select_step children (some c) =
        (match iterate.next_element ((children.map pcvdom_node.kind).drop s) s with
         | none => some (none, some { c with curr := none })
         | some (i, id) => some (some id, some { c with curr := some i })) := by
      simp only [sort.select_step, sort.select_child, ← hs]
      cases iterate.next_element ((children.map pcvdom_node.kind).drop s) s with
      | none => rfl
      | some p => rfl
    cases hne : iterate.next_element ((children.map pcvdom_node.kind).drop s) s with
    | none =>
      rw [hne] at hsel
      simp only [select_until_null, hsel]
      rw [iterate.next_element_none _ _ hne]
    | some p =>
      obtain ⟨j, id⟩ := p
      rw [hne] at hsel
      obtain ⟨k, hj, hk, he⟩ := iterate.next_element_some _ _ _ _ hne
      simp only [List.length_drop, List.length_map] at hk
      have hrec := ih { c with curr := some j } (j + 1) rfl (by omega) (by omega)
      simp only [select_until_null, hsel, hrec, he]
      have hd : List.drop (k + 1) (List.drop s (children.map pcvdom_node.kind)) =
          List.drop (j + 1) (children.map pcvdom_node.kind) := by
        rw [List.drop_drop]
        congr 1
        omega
      rw [hd]

/-- From a null cursor, successive calls of `select_child` of `sort.c` return
exactly the child elements in document order, then null with the cursor reset,
so that the calls after it do the same again. -/
theorem sort_select_all (children : List pcvdom_node) (c : sort.ctxt_for_sort)
    (hc : c.curr = none) :
    select_until_null (sort.select_step children) (children.length + 1) (some c) =
      some (element_children children, some c) := by
  have h := sort_select_from children (children.length + 1) c 0 (by simp [hc]) (by omega)
    (by omega)
  rw [h, List.drop_zero, element_children_kind]
  cases c
  simp_all

/-! ## The expiration of a timer -/

namespace timer

theorem fire_inv_create (for_yielded : Bool) : fire_inv (fire_state.create for_yielded) := by
  simp [fire_inv, fire_state.create]

/-- What an expiration does to the state: nothing, the stop of a timer whose
coroutine has exited, the resumption of a yielded coroutine, or the post of
one message; the last three only while `m_fired` is 0. -/
theorem fired_cases (exited current : Bool) (state : pcintr_coroutine_state)
    (s s1 : fire_state) (h : fired exited current state s = some s1) :
    s1 = s ∨
    (s.m_fired = 0 ∧ s1 = { s with cancel_registered := false, active := false }) ∨
    (s.m_fired = 0 ∧
      s1 = { s with m_fired := 1, active := false, resumed := s.resumed + 1 }) ∨
    (s.m_fired = 0 ∧ s1 = { s with m_fired := 1, posted := s.posted + 1 }) := by
  by_cases h0 : s.m_fired = 0
  · cases exited <;> cases current <;> cases state <;> cases hy : s.m_for_yielded <;>
      simp [fired, h0, hy] at h <;> subst h <;> simp [h0]
  · left
    simp only [fired, ne_eq, h0, not_false_eq_true, if_true, Option.some.injEq] at h
    exact h.symm

theorem fire_inv_step (s s1 : fire_state) (e : fire_event) (hinv : fire_inv s)
    (hd : e = .deliver → s.delivered < s.posted) (h : fire_step s e = some s1) :
    fire_inv s1 := by
  obtain ⟨h01, hle, hout⟩ := hinv
  cases e with
  | expire exited current state =>
    simp only [fire_step] at h
    rcases fired_cases exited current state s s1 h with h | ⟨hz, h⟩ | ⟨hz, h⟩ | ⟨hz, h⟩
    · subst h; exact ⟨h01, hle, hout⟩
    · subst h; exact ⟨h01, hle, hout⟩
    · subst h
      rw [hz] at hout
      refine ⟨Or.inr rfl, hle, ?_⟩
      show (s.posted : Int) - s.delivered ≤ 1
      omega
    · subst h
      rw [hz] at hout
      refine ⟨Or.inr rfl, by show s.delivered ≤ s.posted + 1; omega, ?_⟩
      show ((s.posted + 1 : Nat) : Int) - s.delivered ≤ 1
      push_cast
      omega
  | deliver =>
    have hlt := hd rfl
    have h1 : s.m_fired = 1 := by
      rcases h01 with h0 | h1
      · rw [h0] at hout; omega
      · exact h1
    simp only [fire_step, on_event_fire, processed, h1] at h
    simp only [sub_self, ge_iff_le, le_refl, if_true, Option.some.injEq] at h
    subst h
    refine ⟨Or.inl (by show (0 : Int) = 0; rfl), by show s.delivered + 1 ≤ s.posted; omega, ?_⟩
    show (s.posted : Int) - ((s.delivered + 1 : Nat) : Int) ≤ 0
    push_cast
    omega

theorem fire_inv_states (evs : List fire_event) :
    ∀ s, fire_inv s → deliveries_follow_posts s evs = true →
      ∀ s1 ∈ fire_states s evs, fire_inv s1 := by
  induction evs with
  | nil =>
    intro s hinv _ s1 hs1
    simp only [fire_states, List.mem_singleton] at hs1
    exact hs1 ▸ hinv
  | cons e rest ih =>
    intro s hinv hd s1 hs1
    simp only [deliveries_follow_posts, Bool.and_eq_true] at hd
    simp only [fire_states] at hs1
    cases hstep : fire_step s e with
    | none =>
      simp only [hstep, List.mem_singleton] at hs1
      exact hs1 ▸ hinv
    | some s2 =>
      simp only [hstep, List.mem_cons] at hs1
      rcases hs1 with h | h
      · exact h ▸ hinv
      · have hde : e = .deliver → s.delivered < s.posted := by
          intro he
          subst he
          simpa using hd.1
        have hinv2 := fire_inv_step s s2 e hinv hde hstep
        have hd2 : deliveries_follow_posts s2 rest = true := by
          have := hd.2
          simpa [hstep] using this
        exact ih s2 hinv2 hd2 s1 h

end timer

/-- C21: in every sequence of expirations and deliveries of a timer in which a
delivery only follows a posted message, every state that the timer goes
through has `m_fired` in {0, 1} and at most one message posted and not yet
delivered; while `m_fired` is 1 an expiration returns at once, with no message
posted and the state as it was; an expiration posts a message only when every
message posted before has been delivered; and the delivery of an outstanding
message passes the assertion of `processed`. -/
theorem C21_fire_coalescing (for_yielded : Bool) (evs : List timer.fire_event)
    (h : timer.deliveries_follow_posts (timer.fire_state.create for_yielded) evs = true) :
    ∀ s ∈ timer.fire_states (timer.fire_state.create for_yielded) evs,
      (s.m_fired = 0 ∨ s.m_fired = 1) ∧
      s.posted ≤ s.delivered + 1 ∧
      (s.m_fired = 1 → ∀ exited current state, timer.fired exited current state s = some s) ∧
      (s.delivered < s.posted → s.m_fired = 1) ∧
      (∀ exited current state s1, timer.fired exited current state s = some s1 →
        s1.posted ≠ s.posted → s.posted = s.delivered ∧ s1.posted = s.posted + 1 ∧
          s1.m_fired = 1) ∧
      (s.delivered < s.posted → (timer.on_event_fire s).isSome = true) := by
  intro s hs
  obtain ⟨h01, hle, hout⟩ :=
    timer.fire_inv_states evs _ (timer.fire_inv_create for_yielded) h s hs
  have hone : s.delivered < s.posted → s.m_fired = 1 := by
    intro hlt
    rcases h01 with h0 | h1
    · rw [h0] at hout; omega
    · exact h1
  refine ⟨h01, ?_, ?_, hone, ?_, ?_⟩
  · rcases h01 with h0 | h1
    · rw [h0] at hout; omega
    · rw [h1] at hout; omega
  · intro h1 exited current state
    simp [timer.fired, h1]
  · intro exited current state s1 hf hne
    rcases timer.fired_cases exited current state s s1 hf with h | ⟨hz, h⟩ | ⟨hz, h⟩ | ⟨hz, h⟩
    · subst h; exact absurd rfl hne
    · subst h; exact absurd rfl hne
    · subst h; exact absurd rfl hne
    · subst h
      rw [hz] at hout
      exact ⟨by omega, rfl, rfl⟩
  · intro hlt
    simp [timer.on_event_fire, timer.processed, hone hlt]

/-- C21 on the sequence `fire_example` of a timer of `$TIMERS`, at the state
after the first expiration: one message is outstanding, and the next
expiration is dropped. -/
theorem C21_fire_coalescing_witness :
    (timer.fire_example_state.m_fired = 0 ∨ timer.fire_example_state.m_fired = 1) ∧
    timer.fire_example_state.posted ≤ timer.fire_example_state.delivered + 1 ∧
    timer.fired false false .CO_STATE_READY timer.fire_example_state =
      some timer.fire_example_state ∧
    (timer.on_event_fire timer.fire_example_state).isSome = true :=
  ⟨(C21_fire_coalescing false timer.fire_example (by decide) timer.fire_example_state
      (by decide)).1,
   (C21_fire_coalescing false timer.fire_example (by decide) timer.fire_example_state
      (by decide)).2.1,
   (C21_fire_coalescing false timer.fire_example (by decide) timer.fire_example_state
      (by decide)).2.2.1 (by decide) false false .CO_STATE_READY,
   (C21_fire_coalescing false timer.fire_example (by decide) timer.fire_example_state
      (by decide)).2.2.2.2.2 (by decide)⟩

/-! ## The creation of an instance -/

/-- The scan of `app_new_inst` stops with DUPLICATED at a listed instance that
has the runner name. -/
theorem app_new_inst_scan_duplicated (P : process) (t : Nat) (runner_name : String)
    (l : List Nat) (h : ∃ p ∈ l, (P.inst p).runner_name = some runner_name) :
    app_new_inst_scan P t runner_name l = .DUPLICATED := by
  induction l with
  | nil => simp at h
  | cons q rest ih =>
    simp only [app_new_inst_scan]
    split_ifs with h1 h2
    · rfl
    · rfl
    · apply ih
      obtain ⟨p, hp, hr⟩ := h
      rcases List.mem_cons.mp hp with heq | hmem
      · exact absurd (heq ▸ hr) h2
      · exact ⟨p, hmem, hr⟩

/-- A call of `app_new_inst` that does not return OK leaves the process as it
is and sets no instance. -/
theorem app_new_inst_failed (P : process) (t : Nat) (runner_name : String)
    (h : (app_new_inst P t runner_name).1 ≠ .OK) :
    (app_new_inst P t runner_name).2 = (P, none) := by
  unfold app_new_inst at h ⊢
  split_ifs at h ⊢ with h1 h2 h3
  · rfl
  · rfl
  · rfl
  · exact absurd rfl h

/-- C23: while an instance of the list has the runner name `runner` and the
app has the name `app`, `purc_init_ex` called with `(app, runner)` on any
thread, the one of that instance or another one, returns DUPLICATED and
leaves the whole process as it is: the list of instances, every thread-local
instance and the atoms. -/
theorem C23_duplicate_pair_is_rejected (E : instance_externals) (table : List pcmodule)
    (P : process) (t : Nat) (modules : Nat) (app runner : String)
    (hinit : P._init_ok = true ∧ P._app.init_ok = true)
    (hmodules : modules ≠ 0 ∨ E.PURC_MODULE_ALL ≠ 0)
    (happ : P._app.name = some app)
    (hlive : ∃ p ∈ P._app.instances, (P.inst p).runner_name = some runner) :
    purc_init_ex E table P t modules (some app) (some runner) = (.DUPLICATED, P) := by
  have hm : (if modules = 0 then E.PURC_MODULE_ALL else modules) ≠ 0 := by
    split_ifs with h0
    · rcases hmodules with h | h
      · exact absurd h0 h
      · exact h
    · exact h0
  obtain ⟨iok, app0, inst0, atoms0⟩ := P
  simp only at hinit happ hlive
  obtain ⟨hi1, hi2⟩ := hinit
  subst hi1
  have hset : app_set_name app0 app = (.OK, app0) := by
    simp [app_set_name, happ]
  have hnew : (app_new_inst ⟨true, app0, inst0, atoms0⟩ t runner).1 = .DUPLICATED := by
    unfold app_new_inst
    split_ifs with h1 h2 h3
    · rfl
    · rfl
    · exact app_new_inst_scan_duplicated _ t runner _ hlive
    · rw [app_new_inst_scan_duplicated _ t runner _ hlive] at h3
      exact absurd h3 (by decide)
  have hne : (app_new_inst ⟨true, app0, inst0, atoms0⟩ t runner).1 ≠ .OK := by
    rw [hnew]; decide
  have hst := app_new_inst_failed _ t runner hne
  unfold purc_init_ex
  simp only [hm, if_false, hi2, Bool.true_eq_false, Option.getD_some, hset, ne_eq,
    not_true_eq_false, hne, not_false_eq_true, if_true, hnew, pcinst_cleanup, hst]
  rw [if_pos (by decide)]

/-- C23 on the process in which thread 0 runs `(app, main)`: a second call on
thread 0 and a call on thread 1 are rejected. -/
theorem C23_duplicate_pair_is_rejected_witness :
    purc_init_ex instance_externals_example modules_example process_with_main 0 0
      (some "app") (some "main") = (.DUPLICATED, process_with_main) ∧
    purc_init_ex instance_externals_example modules_example process_with_main 1 0
      (some "app") (some "main") = (.DUPLICATED, process_with_main) :=
  ⟨C23_duplicate_pair_is_rejected instance_externals_example modules_example
      process_with_main 0 0 "app" "main" (by decide) (by decide) (by decide)
      ⟨0, by decide, by decide⟩,
   C23_duplicate_pair_is_rejected instance_externals_example modules_example
      process_with_main 1 0 "app" "main" (by decide) (by decide) (by decide)
      ⟨0, by decide, by decide⟩⟩

/-- The scan of `app_new_inst` passes a list without the thread and without
the runner name. -/
theorem app_new_inst_scan_ok (P : process) (t : Nat) (runner_name : String) (l : List Nat)
    (h : ∀ p ∈ l, p ≠ t ∧ (P.inst p).runner_name ≠ some runner_name) :
    app_new_inst_scan P t runner_name l = .OK := by
  induction l with
  | nil => rfl
  | cons q rest ih =>
    have hq := h q (List.mem_cons_self _ _)
    simp only [app_new_inst_scan, hq.1, hq.2, if_false]
    exact ih (fun p hp => h p (List.mem_cons_of_mem _ hp))

/-- The callbacks leave the runner name of the instance. -/
theorem _init_instance_runner_name (modules : Nat) (table : List pcmodule) :
    ∀ (i : Nat) (c : pcinst), (_init_instance modules table i c).2.runner_name = c.runner_name := by
  induction table with
  | nil => intro i c; rfl
  | cons m0 rest ih =>
    intro i c
    simp only [_init_instance]
    split_ifs with hs
    · exact ih (i + 1) c
    · cases hc : m0.init_instance with
      | none => exact ih (i + 1) c
      | some f =>
        simp only
        split_ifs
        · rfl
        · rw [ih]

/-- When the callbacks of the modules `pre` succeed and the callback of the
selected module `m` after them fails, `_init_instance` has called callbacks of
`pre` and then the one of `m`, none of the modules after `m`. -/
theorem _init_instance_stops (modules : Nat) (pre post : List pcmodule) (m : pcmodule)
    (init : pcinst → Int)
    (hpre : ∀ m0 ∈ pre, ∀ f, m0.init_instance = some f → ∀ c, f c = 0)
    (hsel : m.id &&& modules = m.id) (hcb : m.init_instance = some init)
    (hfail : ∀ c, init c ≠ 0) :
    ∀ (i : Nat) (c : pcinst), ∃ l : List Nat,
      (_init_instance modules (pre ++ m :: post) i c).2.inited =
        c.inited ++ (l ++ [i + pre.length]) ∧
      ∀ j ∈ l, j < i + pre.length := by
  induction pre with
  | nil =>
    intro i c
    refine ⟨[], ?_, by simp⟩
    simp only [List.nil_append, _init_instance, hsel, ne_eq, not_true_eq_false, if_false, hcb,
      hfail, not_false_eq_true, if_true, List.length_nil, Nat.add_zero]
  | cons m0 rest ih =>
    intro i c
    have hrest : ∀ m1 ∈ rest, ∀ f, m1.init_instance = some f → ∀ c, f c = 0 :=
      fun m1 h1 => hpre m1 (List.mem_cons_of_mem _ h1)
    have hlen : i + (m0 :: rest).length = i + 1 + rest.length := by
      simp only [List.length_cons]; omega
    rw [hlen]
    simp only [List.cons_append, _init_instance, List.append_eq]
    by_cases hs : m0.id &&& modules ≠ m0.id
    · obtain ⟨l, hl, hlt⟩ := ih hrest (i + 1) c
      exact ⟨l, by rw [if_pos hs]; exact hl, hlt⟩
    · cases hc : m0.init_instance with
      | none =>
        obtain ⟨l, hl, hlt⟩ := ih hrest (i + 1) c
        exact ⟨l, by rw [if_neg hs]; exact hl, hlt⟩
      | some f =>
        have hf := hpre m0 (List.mem_cons_self _ _) f hc
        obtain ⟨l, hl, hlt⟩ := ih hrest (i + 1) { c with inited := c.inited ++ [i] }
        refine ⟨i :: l, ?_, ?_⟩
        · rw [if_neg hs]
          simp only [hf, ne_eq, not_true_eq_false, if_false]
          rw [hl]
          simp
        · intro j hj
          rcases List.mem_cons.mp hj with h | h
          · omega
          · exact hlt j h

/-- A call of `app_new_inst` on a thread without an instance, with a runner
name that no listed instance has, links the instance at the tail. -/
theorem app_new_inst_ok (P : process) (t : Nat) (runner : String)
    (hf1 : (P.inst t).modules = 0) (hf2 : (P.inst t).runner_name = none)
    (hf3 : (P.inst t).linked = false)
    (hnew : ∀ p ∈ P._app.instances, p ≠ t ∧ (P.inst p).runner_name ≠ some runner) :
    ∃ P2, app_new_inst P t runner = (.OK, P2, some t) ∧
      P2._app.instances = P._app.instances ++ [t] ∧ P2.atoms = P.atoms ∧
      (P2.inst t).runner_name = some runner ∧ (P2.inst t).app_name = P._app.name ∧
      (P2.inst t).endpoint_atom = (P.inst t).endpoint_atom ∧
      (P2.inst t).inited = (P.inst t).inited := by
  have hscan := app_new_inst_scan_ok P t runner _ hnew
  refine ⟨{ P with
      inst := Function.update P.inst t
        { P.inst t with runner_name := some runner, errcode := .OK,
                        app_name := P._app.name, linked := true },
      _app := { P._app with instances := P._app.instances ++ [t] } }, ?_, ?_⟩
  · simp [app_new_inst, hf1, hf2, hf3, hscan]
  · simp

/-- A call of `instance_init_modules` for an endpoint name that is no atom
yet returns OK whatever `_init_instance` returns; it leaves the list of
instances and hands the instance to `_init_instance`. -/
theorem instance_init_modules_ok (E : instance_externals) (table : List pcmodule)
    (P : process) (t modules : Nat) (app runner endpoint : String)
    (ha : (P.inst t).app_name = some app) (hr : (P.inst t).runner_name = some runner)
    (hend : E.purc_assemble_endpoint_name PCRDR_LOCALHOST app runner = some endpoint)
    (h0 : (P.inst t).endpoint_atom = 0) (hatom : endpoint ∉ P.atoms) :
    ∃ c3, (instance_init_modules E table P t modules).1 = .OK ∧
      (instance_init_modules E table P t modules).2._app = P._app ∧
      (instance_init_modules E table P t modules).2.inst t =
        (_init_instance modules table 0 c3).2 ∧
      c3.runner_name = some runner ∧ c3.inited = (P.inst t).inited := by
  refine ⟨{ P.inst t with modules := modules, endpoint_atom := P.atoms.length + 1,
                          local_data_map := true, max_conns := FETCHER_MAX_CONNS,
                          cache_quota := FETCHER_CACHE_QUOTA,
                          enable_remote_fetcher := modules &&& E.PURC_HAVE_FETCHER_R }, ?_⟩
  simp [instance_init_modules, ha, hr, hend, h0, purc_atom_try_string_ex,
    purc_atom_from_string_ex, hatom]

/-- C29: `purc_init_ex` creates an instance on a thread that has none, with a
module table in which the callbacks `init_instance` of the modules before the
selected module `m` succeed and the one of `m` fails.  The call returns
`PURC_ERROR_OK`, the instance is at the tail of the list of instances with its
runner name set, and the callbacks that were called are some of the modules
before `m` and then the one of `m`: none of a module after `m`. -/
theorem C29_failed_init_instance_is_ignored (E : instance_externals)
    (pre post : List pcmodule) (m : pcmodule) (init : pcinst → Int) (P : process)
    (t modules : Nat) (app runner endpoint : String)
    (hinit : P._init_ok = true ∧ P._app.init_ok = true)
    (hmodules : modules ≠ 0)
    (happ : P._app.name = none ∨ P._app.name = some app)
    (hfresh : (P.inst t).modules = 0 ∧ (P.inst t).runner_name = none ∧
      (P.inst t).linked = false ∧ (P.inst t).endpoint_atom = 0 ∧ (P.inst t).inited = [])
    (hnew : ∀ p ∈ P._app.instances, p ≠ t ∧ (P.inst p).runner_name ≠ some runner)
    (hend : E.purc_assemble_endpoint_name PCRDR_LOCALHOST app runner = some endpoint)
    (hatom : endpoint ∉ P.atoms)
    (hpre : ∀ m0 ∈ pre, ∀ f, m0.init_instance = some f → ∀ c, f c = 0)
    (hsel : m.id &&& modules = m.id) (hcb : m.init_instance = some init)
    (hfail : ∀ c, init c ≠ 0) :
    (purc_init_ex E (pre ++ m :: post) P t modules (some app) (some runner)).1 = .OK ∧
    (purc_init_ex E (pre ++ m :: post) P t modules (some app) (some runner)).2._app.instances =
      P._app.instances ++ [t] ∧
    ((purc_init_ex E (pre ++ m :: post) P t modules (some app) (some runner)).2.inst
      t).runner_name = some runner ∧
    ∃ l : List Nat,
      ((purc_init_ex E (pre ++ m :: post) P t modules (some app) (some runner)).2.inst
        t).inited = l ++ [pre.length] ∧
      ∀ j ∈ l, j < pre.length := by
  obtain ⟨iok, app0, inst0, atoms0⟩ := P
  simp only at hinit happ hfresh hnew hatom
  obtain ⟨hi1, hi2⟩ := hinit
  obtain ⟨hf1, hf2, hf3, hf4, hf5⟩ := hfresh
  subst hi1
  have hset : ∃ app1, app_set_name app0 app = (.OK, app1) ∧ app1.instances = app0.instances ∧
      app1.name = some app := by
    rcases happ with h | h
    · exact ⟨{ app0 with name := some app }, by simp [app_set_name, h], rfl, rfl⟩
    · exact ⟨app0, by simp [app_set_name, h], rfl, h⟩
  obtain ⟨app1, hset, hinst1, hname1⟩ := hset
  obtain ⟨P2, hnew1, hP2a, hP2b, hP2c, hP2d, hP2e, hP2f⟩ :=
    app_new_inst_ok ⟨true, app1, inst0, atoms0⟩ t runner hf1 hf2 hf3
      (by rw [hinst1]; exact hnew)
  simp only at hP2a hP2b hP2d hP2e hP2f
  obtain ⟨c3, hm1, hm2, hm3, hc3a, hc3b⟩ := instance_init_modules_ok E (pre ++ m :: post)
    P2 t modules app runner endpoint (by rw [hP2d, hname1]) hP2c hend (by rw [hP2e, hf4])
    (by rw [hP2b]; exact hatom)
  have hres : purc_init_ex E (pre ++ m :: post) ⟨true, app0, inst0, atoms0⟩ t modules
      (some app) (some runner) =
      (.OK, (instance_init_modules E (pre ++ m :: post) P2 t modules).2) := by
    simp only [purc_init_ex, hmodules, if_false, hi2, Bool.true_eq_false, Option.getD_some,
      hset, ne_eq, not_true_eq_false, hnew1, hm1]
  rw [hres]
  obtain ⟨l, hl, hlt⟩ := _init_instance_stops modules pre post m init hpre hsel hcb hfail 0 c3
  refine ⟨rfl, ?_, ?_, l, ?_, ?_⟩
  · show (instance_init_modules E (pre ++ m :: post) P2 t modules).2._app.instances = _
    rw [hm2, hP2a, hinst1]
  · show ((instance_init_modules E (pre ++ m :: post) P2 t modules).2.inst t).runner_name = _
    rw [hm3, _init_instance_runner_name, hc3a]
  · show ((instance_init_modules E (pre ++ m :: post) P2 t modules).2.inst t).inited = _
    rw [hm3, hl, hc3b, hP2f, hf5]
    simp
  · intro j hj
    have := hlt j hj
    omega

/-- C29 on the table `modules_example`, whose third callback fails: thread 0
creates `(app, main)`; the call returns OK, the instance is in the list and
the callbacks of the modules 1 and 2 were called, the one of module 3 not. -/
theorem C29_failed_init_instance_is_ignored_witness :
    (purc_init_ex instance_externals_example
      ([⟨1, none⟩, ⟨2, some (fun _ => 0)⟩] ++ ⟨4, some (fun _ => -1)⟩ ::
        [⟨8, some (fun _ => 0)⟩])
      process.start 0 15 (some "app") (some "main")).1 = .OK ∧
    (purc_init_ex instance_externals_example
      ([⟨1, none⟩, ⟨2, some (fun _ => 0)⟩] ++ ⟨4, some (fun _ => -1)⟩ ::
        [⟨8, some (fun _ => 0)⟩])
      process.start 0 15 (some "app") (some "main")).2._app.instances = [] ++ [0] :=
  ⟨(C29_failed_init_instance_is_ignored instance_externals_example
      [⟨1, none⟩, ⟨2, some (fun _ => 0)⟩] [⟨8, some (fun _ => 0)⟩] ⟨4, some (fun _ => -1)⟩
      (fun _ => -1) process.start 0 15 "app" "main" "@localhost/app/main"
      (by decide) (by decide) (by decide) (by decide) (by decide) (by decide) (by decide)
      (by
        intro m0 hm0 f hf c
        simp only [List.mem_cons, List.mem_singleton, List.not_mem_nil, or_false] at hm0
        rcases hm0 with h | h
        · subst h; simp at hf
        · subst h
          simp only [Option.some.injEq] at hf
          subst hf
          rfl)
      (by decide) rfl (by intro c; simp)).1,
   (C29_failed_init_instance_is_ignored instance_externals_example
      [⟨1, none⟩, ⟨2, some (fun _ => 0)⟩] [⟨8, some (fun _ => 0)⟩] ⟨4, some (fun _ => -1)⟩
      (fun _ => -1) process.start 0 15 "app" "main" "@localhost/app/main"
      (by decide) (by decide) (by decide) (by decide) (by decide) (by decide) (by decide)
      (by
        intro m0 hm0 f hf c
        simp only [List.mem_cons, List.mem_singleton, List.not_mem_nil, or_false] at hm0
        rcases hm0 with h | h
        · subst h; simp at hf
        · subst h
          simp only [Option.some.injEq] at hf
          subst hf
          rfl)
      (by decide) rfl (by intro c; simp)).2.1⟩

end PurC
